import Mathlib

/-!
# LibJS: value model, scope stack and tree-walking evaluator

A shallow embedding of `Value.h`, `Value.cpp`, `Interpreter.h` and `AST.h`.

Conventions of the embedding.

* A C++ operation that can abort (a failed `assert`, `std::bad_variant_access`
  thrown by `std::get` and caught nowhere, a trap, or behaviour the language
  leaves undefined) returns `none` / `Completion.fault`.
* `int32_t` payloads are `Int`; the results of `+`, `-`, `*` are reduced to the
  32-bit two's complement range by `wrap32`.
* A `double` is the bit pattern of an IEEE-754 binary64.  Its arithmetic,
  ordering and `std::to_string` are fields of `Platform`, as is the order in
  which a compiler evaluates the two arguments of a call.
* `std::unordered_map<String, Value>` is a function `String → Option Value`.
* `execute` takes a fuel argument that bounds the depth of nested `execute`
  calls; `Completion.outOfFuel` is the answer when that bound is reached.
-/

namespace LibJS

/-! ## Types.h, Value.h -/

/-- An IEEE-754 binary64, represented by its bit pattern. -/
structure Double where
  bits : Nat
deriving DecidableEq, Repr

namespace Double

/-- The value-initialised `double`, `+0.0`. -/
def zero : Double := ⟨0⟩

/-- The `NAN` constant of `math.h` converted to `double`: the positive quiet NaN. -/
def NAN : Double := ⟨0x7FF8000000000000⟩

/-- Conversion of a `double` to `bool`: `d != 0.0`. Both zeros are `false`; a NaN is `true`. -/
def toBool (d : Double) : Bool := d.bits % 2 ^ 63 != 0

end Double

/-- What the compiler and the C++ library decide: `double` arithmetic and formatting, and the
order in which the two argument expressions of a call are evaluated. -/
structure Platform where
  fadd : Double → Double → Double
  fsub : Double → Double → Double
  fmul : Double → Double → Double
  fdiv : Double → Double → Double
  fgt : Double → Double → Bool
  to_string : Double → String
  leftArgumentFirst : Bool

/-- Reduction of an integer to the range of `int32_t` (two's complement). -/
def wrap32 (i : Int) : Int := (i + 2 ^ 31) % 2 ^ 32 - 2 ^ 31

/-- The enumeration `Value::Type`. -/
inductive ValueType where
  | Undefined
  | Null
  | Boolean
  | Number
  | Int
  | String
  | BigInt
  | Object
  | Function
deriving DecidableEq, Repr

/-- The enumeration `BinaryExpression::BinaryOperator`. -/
inductive BinaryOperator where
  | Add
  | Subtract
  | Divide
  | Multiply
  | Modulo
  | Power
  | BitwiseAnd
  | BitwiseOr
  | BitwiseXor
  | LeftShift
  | RightShift
  | Equal
  | NotEqual
  | GreaterThanOrEqual
  | GreaterThan
  | LessThan
  | LessThanOrEqual
deriving DecidableEq, Repr

/-- The enumeration `AssignmentExpression::AssignmentOperator`. -/
inductive AssignmentOperator where
  | Assignment
  | AdditionAssignment
  | SubtractionAssignment
  | DivisionAssignment
  | MultiplicationAssignment
  | Increment
  | Decrement
deriving DecidableEq, Repr

/-- The enumeration `VariableDeclaration::Kind`. -/
inductive Kind where
  | Var
  | Const
  | Let
deriving DecidableEq, Repr

mutual

/-- The class `Function`: a name and a shared body, which the one-argument constructor
leaves null. -/
inductive Function where
  | mk (m_name : String) (m_body : Option BlockStatement)

/-- One `Variant<double, bool, int32_t, String, BigInt *, SharedPtr<Function>>`. -/
inductive Variant where
  | double (d : Double)
  | bool (b : Bool)
  | int32 (i : Int)
  | string (s : String)
  | bigInt (p : Nat)
  | function (f : Function)

/-- The class `Value`: the tag `m_type` and its six variant members. -/
inductive Value where
  | mk (m_type : ValueType)
      (m_valueAsDouble m_valueAsBool m_valueAsInt32 m_valueAsString m_valueAsBigInt
        m_valueAsFunction : Variant)

/-- The class `BlockStatement`. -/
inductive BlockStatement where
  | mk (m_body : List Statement)

/-- The class `Expression` and its subclasses. -/
inductive Expression where
  | base
  | Identifier (m_name : String)
  | Literal (m_value : Value)
  | CallExpression (m_callee : Expression) (m_arguments : List Expression)
  | BinaryExpression (m_operator : BinaryOperator) (m_left m_right : Expression)
  | AssignmentExpression (m_operator : AssignmentOperator) (m_left m_right : Expression)

/-- The class `VariableDeclarator`. -/
inductive VariableDeclarator where
  | mk (m_id m_init : Expression)

/-- The class `Statement` and its subclasses; `ScopeNode` stands for `ScopeNode`, `Program`
and `ClassDeclaration`, which share one `execute`. -/
inductive Statement where
  | base
  | Block (block : BlockStatement)
  | ScopeNode (m_body : List Statement)
  | FunctionDeclaration (m_id : String) (m_params : List String) (m_body : BlockStatement)
  | ExpressionStatement (m_expression : Expression)
  | VariableDeclaration (m_kind : Kind) (m_declarators : List VariableDeclarator)
  | ReturnStatement (m_argument : Expression)
  | IfStatement (m_test : Expression) (m_consequent : Statement) (m_alternate : Option Statement)

end

namespace Function

/-- The member `m_name`. -/
def m_name : Function → String
  | mk n _ => n

/-- The method `Function::body`. -/
def body : Function → Option BlockStatement
  | mk _ b => b

/-- The method `Function::toString`. -/
def toString (f : Function) : String :=
  "function " ++ f.m_name ++ "() \x7b [native code] \x7d"

end Function

namespace BlockStatement

/-- The member `m_body`. -/
def m_body : BlockStatement → List Statement
  | mk b => b

end BlockStatement

namespace VariableDeclarator

/-- The member `m_id`. -/
def m_id : VariableDeclarator → Expression
  | mk i _ => i

/-- The member `m_init`. -/
def m_init : VariableDeclarator → Expression
  | mk _ e => e

end VariableDeclarator

namespace Variant

/-- A default-constructed variant holds its first alternative, value-initialised. -/
def default : Variant := double Double.zero

/-- The call `std::get<double>`. -/
def getDouble : Variant → Option Double
  | double d => some d
  | _ => none

/-- The call `std::get<bool>`. -/
def getBool : Variant → Option Bool
  | bool b => some b
  | _ => none

/-- The call `std::get<int32_t>`. -/
def getInt32 : Variant → Option Int
  | int32 i => some i
  | _ => none

/-- The call `std::get<String>`. -/
def getString : Variant → Option String
  | string s => some s
  | _ => none

/-- The call `std::get<SharedPtr<Function>>`. -/
def getFunction : Variant → Option Function
  | function f => some f
  | _ => none

end Variant

namespace Value

/-- The member `m_type`. -/
def m_type : Value → ValueType
  | mk t _ _ _ _ _ _ => t

/-- The member `m_valueAsDouble`. -/
def m_valueAsDouble : Value → Variant
  | mk _ x _ _ _ _ _ => x

/-- The member `m_valueAsBool`. -/
def m_valueAsBool : Value → Variant
  | mk _ _ x _ _ _ _ => x

/-- The member `m_valueAsInt32`. -/
def m_valueAsInt32 : Value → Variant
  | mk _ _ _ x _ _ _ => x

/-- The member `m_valueAsString`. -/
def m_valueAsString : Value → Variant
  | mk _ _ _ _ x _ _ => x

/-- The member `m_valueAsBigInt`. -/
def m_valueAsBigInt : Value → Variant
  | mk _ _ _ _ _ x _ => x

/-- The member `m_valueAsFunction`. -/
def m_valueAsFunction : Value → Variant
  | mk _ _ _ _ _ _ x => x

/-- The constructor `Value()`. -/
def undefined : Value :=
  mk .Undefined Variant.default Variant.default Variant.default Variant.default Variant.default
    Variant.default

/-- The constructor `Value(SharedPtr<Function>)`. -/
def ofFunction (function : Function) : Value :=
  mk .Function Variant.default Variant.default Variant.default Variant.default Variant.default
    (.function function)

/-- The constructors `Value(float)` and `Value(double)`. -/
def ofDouble (value : Double) : Value :=
  mk .Number (.double value) Variant.default Variant.default Variant.default Variant.default
    Variant.default

/-- The constructor `Value(int32_t)`. -/
def ofInt32 (value : Int) : Value :=
  mk .Int Variant.default Variant.default (.int32 value) Variant.default Variant.default
    Variant.default

/-- The constructor `Value(bool)`. -/
def ofBool (value : Bool) : Value :=
  mk .Boolean Variant.default (.bool value) Variant.default Variant.default Variant.default
    Variant.default

/-- The constructor `Value(String)`. -/
def ofString (value : String) : Value :=
  mk .String Variant.default Variant.default Variant.default (.string value) Variant.default
    Variant.default

/-- The constructor `Value(const BigInt *)`. -/
def ofBigInt (value : Nat) : Value :=
  mk .BigInt Variant.default Variant.default Variant.default Variant.default (.bigInt value)
    Variant.default

/-- The Values a program can hold: those made by one of the constructors of the class. -/
inductive Constructed : Value → Prop where
  | undefined : Constructed Value.undefined
  | ofFunction (f : Function) : Constructed (Value.ofFunction f)
  | ofDouble (d : Double) : Constructed (Value.ofDouble d)
  | ofInt32 (i : Int) : Constructed (Value.ofInt32 i)
  | ofBool (b : Bool) : Constructed (Value.ofBool b)
  | ofString (s : String) : Constructed (Value.ofString s)
  | ofBigInt (p : Nat) : Constructed (Value.ofBigInt p)

/-- The method `asBool`. -/
def asBool (v : Value) : Option Bool := v.m_valueAsBool.getBool

/-- The method `asDouble`. -/
def asDouble (v : Value) : Option Double := v.m_valueAsDouble.getDouble

/-- The method `asInt32`. -/
def asInt32 (v : Value) : Option Int := v.m_valueAsInt32.getInt32

/-- The method `asString`. -/
def asString (v : Value) : Option String := v.m_valueAsString.getString

/-- The method `asFunction`. -/
def asFunction (v : Value) : Option Function := v.m_valueAsFunction.getFunction

/-- The method `isBoolean`. -/
def isBoolean (v : Value) : Bool := v.m_type == .Boolean

/-- The method `isNumber`. -/
def isNumber (v : Value) : Bool := v.m_type == .Number

/-- The method `isObject`. -/
def isObject (v : Value) : Bool := v.m_type == .Object

/-- The method `isUndefined`. -/
def isUndefined (v : Value) : Bool := v.m_type == .Undefined

/-- The method `isNull`. -/
def isNull (v : Value) : Bool := v.m_type == .Null

/-- The method `isString`. -/
def isString (v : Value) : Bool := v.m_type == .String

/-- The method `isInt`. -/
def isInt (v : Value) : Bool := v.m_type == .Int

/-- The method `isFunction`. -/
def isFunction (v : Value) : Bool := v.m_type == .Function

/-- The method `Value::toString`; `std::to_string(int32_t)` is the signed decimal numeral. -/
def toString (p : Platform) (v : Value) : Option String :=
  if v.isString then v.asString
  else if v.isNull then some "null"
  else if v.isUndefined then some "undefined"
  else if v.isBoolean then v.asBool.map fun b => if b then "true" else "false"
  else if v.isNumber then v.asDouble.map p.to_string
  else if v.isInt then v.asInt32.map fun i => ToString.toString i
  else if v.isFunction then v.asFunction.map Function.toString
  else some "Type not defined"

/-- The method `Value::toBoolean`; the conversion of an `int32_t` to `bool` is `i != 0`. -/
def toBoolean (v : Value) : Option Bool :=
  if v.isBoolean then v.asBool
  else if v.isString then v.asString.map fun s => decide (s.length > 0)
  else if v.isNumber then v.asDouble.map Double.toBool
  else if v.isInt then v.asInt32.map fun i => decide (i ≠ 0)
  else if v.isObject || v.isFunction then some true
  else some false

end Value

/-! ## Value.cpp -/

/-- The conversion of a `bool` to `int` in an arithmetic expression. -/
def boolToInt (b : Bool) : Int := if b then 1 else 0

/-- The function `LibJS::add`. The third test reads `left.isString() && left.isString()`.
The expression statement of the Boolean branch builds a temporary and has no `return`. -/
def add (p : Platform) (left right : Value) : Option Value :=
  if left.isNumber && right.isNumber then do
    let l ← left.asDouble
    let r ← right.asDouble
    pure (Value.ofDouble (p.fadd l r))
  else if left.isInt && right.isInt then do
    let l ← left.asInt32
    let r ← right.asInt32
    pure (Value.ofInt32 (wrap32 (l + r)))
  else if left.isString && left.isString then do
    let l ← left.asString
    let r ← right.asString
    pure (Value.ofString (l ++ r))
  else do
    if left.isBoolean && right.isBoolean then
      let _ ← left.asBool
      let _ ← right.asBool
    if left.isString || right.isString then
      let l ← left.toString p
      let r ← right.toString p
      pure (Value.ofString (l ++ r))
    else
      pure (Value.ofDouble Double.NAN)

/-- The function `LibJS::subtract`. -/
def subtract (p : Platform) (left right : Value) : Option Value :=
  if left.isNumber && right.isNumber then do
    let l ← left.asDouble
    let r ← right.asDouble
    pure (Value.ofDouble (p.fsub l r))
  else if left.isInt && right.isInt then do
    let l ← left.asInt32
    let r ← right.asInt32
    pure (Value.ofInt32 (wrap32 (l - r)))
  else do
    if left.isBoolean && right.isBoolean then
      let _ ← left.asBool
      let _ ← right.asBool
    pure (Value.ofDouble Double.NAN)

/-- Quotient of two `int32_t`, truncated toward zero; a zero divisor and `INT_MIN / -1`
have no result. -/
def divInt32 (l r : Int) : Option Int :=
  if r = 0 then none
  else if l = -2 ^ 31 ∧ r = -1 then none
  else some (Int.tdiv l r)

/-- The function `LibJS::divide`. In the Boolean branch the discarded quotient of the two
operands converted to `int` is still computed. -/
def divide (p : Platform) (left right : Value) : Option Value :=
  if left.isNumber && right.isNumber then do
    let l ← left.asDouble
    let r ← right.asDouble
    pure (Value.ofDouble (p.fdiv l r))
  else if left.isInt && right.isInt then do
    let l ← left.asInt32
    let r ← right.asInt32
    let q ← divInt32 l r
    pure (Value.ofInt32 q)
  else do
    if left.isBoolean && right.isBoolean then
      let l ← left.asBool
      let r ← right.asBool
      let _ ← divInt32 (boolToInt l) (boolToInt r)
    pure (Value.ofDouble Double.NAN)

/-- The function `LibJS::multiply`. -/
def multiply (p : Platform) (left right : Value) : Option Value :=
  if left.isNumber && right.isNumber then do
    let l ← left.asDouble
    let r ← right.asDouble
    pure (Value.ofDouble (p.fmul l r))
  else if left.isInt && right.isInt then do
    let l ← left.asInt32
    let r ← right.asInt32
    pure (Value.ofInt32 (wrap32 (l * r)))
  else do
    if left.isBoolean && right.isBoolean then
      let _ ← left.asBool
      let _ ← right.asBool
    pure (Value.ofDouble Double.NAN)

/-- The function `LibJS::greaterThan`. The third test reads
`left.asBool() && right.asBool()`: it calls the accessors, and `&&` evaluates its right
operand only if the left one is `true`. -/
def greaterThan (p : Platform) (left right : Value) : Option Value :=
  if left.isNumber && right.isNumber then do
    let l ← left.asDouble
    let r ← right.asDouble
    pure (Value.ofBool (p.fgt l r))
  else if left.isInt && right.isInt then do
    let l ← left.asInt32
    let r ← right.asInt32
    pure (Value.ofBool (decide (l > r)))
  else do
    let l ← left.asBool
    let both ← if l then right.asBool else pure false
    if both then
      let l ← left.asBool
      let r ← right.asBool
      pure (Value.ofBool (decide (boolToInt l > boolToInt r)))
    else if left.isString || right.isString then
      none
    else
      pure Value.undefined

/-! ## Interpreter.h -/

/-- The class `StackFrame`: the map `m_variables`. -/
structure StackFrame where
  m_variables : String → Option Value

namespace StackFrame

/-- A default-constructed frame: the empty map. -/
def empty : StackFrame := ⟨fun _ => none⟩

/-- The method `StackFrame::getVariable`. -/
def getVariable (frame : StackFrame) (name : String) : Option Value :=
  frame.m_variables name

/-- The method `StackFrame::setVariable`: `m_variables[id] = value`. -/
def setVariable (frame : StackFrame) (id : String) (value : Value) : StackFrame :=
  ⟨fun k => if k = id then some value else frame.m_variables k⟩

end StackFrame

/-- The class `Interpreter`: the vector `m_stackFrames`, index 0 first. -/
structure Interpreter where
  m_stackFrames : List StackFrame

namespace Interpreter

/-- The constructor `Interpreter()`: one frame, the global scope. -/
def new : Interpreter := ⟨[StackFrame.empty]⟩

/-- The loop of `Interpreter::getVariable`, entered with `i + 1` frames left to search:
`for (i = size - 1; i >= 0; --i)`. -/
def getVariableLoop (frames : List StackFrame) (name : String) : Nat → Option Value
  | 0 => none
  | i + 1 =>
    match frames[i]? with
    | none => none
    | some currentStackFrame =>
      match currentStackFrame.getVariable name with
      | some value => some value
      | none => getVariableLoop frames name i

/-- The method `Interpreter::getVariable`. -/
def getVariable (s : Interpreter) (name : String) : Option Value :=
  if s.m_stackFrames.isEmpty then none
  else getVariableLoop s.m_stackFrames name s.m_stackFrames.length

/-- The method `Interpreter::declareVariable`: `m_stackFrames[size - 1].setVariable(id, value)`.
With no frame the index is out of range. -/
def declareVariable (s : Interpreter) (id : String) (value : Value) : Option Interpreter :=
  match s.m_stackFrames[s.m_stackFrames.length - 1]? with
  | none => none
  | some frame =>
    some ⟨s.m_stackFrames.set (s.m_stackFrames.length - 1) (frame.setVariable id value)⟩

/-- The loop of `Interpreter::setVariable`, entered with `i + 1` frames left to search; the
`assert(false)` after the loop is the result `none`. -/
def setVariableLoop (frames : List StackFrame) (id : String) (value : Value) :
    Nat → Option (List StackFrame)
  | 0 => none
  | i + 1 =>
    match frames[i]? with
    | none => none
    | some currentStackFrame =>
      if (currentStackFrame.getVariable id).isSome then
        some (frames.set i (currentStackFrame.setVariable id value))
      else setVariableLoop frames id value i

/-- The method `Interpreter::setVariable`. -/
def setVariable (s : Interpreter) (id : String) (value : Value) : Option Interpreter :=
  (setVariableLoop s.m_stackFrames id value s.m_stackFrames.length).map Interpreter.mk

/-- The method `Interpreter::pushStackFrame`. -/
def pushStackFrame (s : Interpreter) : Interpreter :=
  ⟨s.m_stackFrames ++ [StackFrame.empty]⟩

/-- The method `Interpreter::popStackFrame`; `pop_back` on an empty vector has no result. -/
def popStackFrame (s : Interpreter) : Option Interpreter :=
  if s.m_stackFrames.isEmpty then none else some ⟨s.m_stackFrames.dropLast⟩

/-- The method `Interpreter::returnFromStackFrame`: an empty body. -/
def returnFromStackFrame (s : Interpreter) (_value : Value) : Interpreter := s

end Interpreter

/-! ## AST.h -/

/-- How a call of `execute` ends: with a result, with a fault that aborts the program, or
because the fuel of the embedding ran out. -/
inductive Completion (α : Type) where
  | ok (a : α)
  | fault
  | outOfFuel

namespace Completion

/-- Sequencing: a fault or an exhausted fuel ends the whole evaluation. -/
def bind {α β : Type} (c : Completion α) (f : α → Completion β) : Completion β :=
  match c with
  | ok a => f a
  | fault => fault
  | outOfFuel => outOfFuel

instance : Monad Completion where
  pure := ok
  bind := bind

/-- A failed accessor, assertion or frame operation is a fault. -/
def ofOption {α : Type} : Option α → Completion α
  | some a => ok a
  | none => fault

end Completion

open Completion in
/-- A range-based `for` loop that calls `execute` on every child and drops the results. -/
def executeAll {α : Type} (exec : α → Interpreter → Completion (Value × Interpreter)) :
    List α → Interpreter → Completion Interpreter
  | [], s => ok s
  | child :: rest, s =>
    match exec child s with
    | ok r => executeAll exec rest r.2
    | fault => fault
    | outOfFuel => outOfFuel

open Completion in
/-- The two argument expressions `m_left->execute(interpreter)` and
`m_right->execute(interpreter)` of one call, evaluated in the order the compiler chose. -/
def executeOperands (exec : Expression → Interpreter → Completion (Value × Interpreter))
    (leftArgumentFirst : Bool) (left right : Expression) (s : Interpreter) :
    Completion (Value × Value × Interpreter) :=
  if leftArgumentFirst then
    match exec left s with
    | ok (l, s1) =>
      match exec right s1 with
      | ok (r, s2) => ok (l, r, s2)
      | fault => fault
      | outOfFuel => outOfFuel
    | fault => fault
    | outOfFuel => outOfFuel
  else
    match exec right s with
    | ok (r, s1) =>
      match exec left s1 with
      | ok (l, s2) => ok (l, r, s2)
      | fault => fault
      | outOfFuel => outOfFuel
    | fault => fault
    | outOfFuel => outOfFuel

/-- The paired arithmetic function of a compound assignment operator. -/
def compoundOperation (p : Platform) :
    AssignmentOperator → Option (Value → Value → Option Value)
  | .AdditionAssignment => some (add p)
  | .SubtractionAssignment => some (subtract p)
  | .DivisionAssignment => some (divide p)
  | .MultiplicationAssignment => some (multiply p)
  | _ => none

/-- The `switch` of `BinaryExpression::execute`; `default` is `assert(false)`. -/
def binaryOperation (p : Platform) : BinaryOperator → Value → Value → Option Value
  | .Multiply => multiply p
  | .Divide => divide p
  | .Add => add p
  | .Subtract => subtract p
  | .GreaterThan => greaterThan p
  | _ => fun _ _ => none

open Completion in
mutual

/-- The method `execute` of `Expression` and of its subclasses. -/
def executeExpression (p : Platform) :
    Nat → Expression → Interpreter → Completion (Value × Interpreter)
  | 0, _, _ => outOfFuel
  | _ + 1, .base, s => ok (Value.undefined, s)
  | _ + 1, .Identifier m_name, s => ok ((s.getVariable m_name).getD Value.undefined, s)
  | _ + 1, .Literal m_value, s => ok (m_value, s)
  | fuel + 1, .CallExpression m_callee m_arguments, s =>
    match executeAll (executeExpression p fuel) m_arguments s with
    | ok s1 =>
      match m_callee with
      | .Identifier name =>
        let s2 := s1.pushStackFrame
        match s2.getVariable name with
        | none => fault
        | some functionToCall =>
          match functionToCall.asFunction with
          | none => fault
          | some function =>
            match function.body with
            | none => fault
            | some body =>
              match executeStatement p fuel (.Block body) s2 with
              | ok (calleeReturnValue, s3) =>
                match s3.popStackFrame with
                | none => fault
                | some s4 => ok (calleeReturnValue, s4)
              | fault => fault
              | outOfFuel => outOfFuel
      | _ => fault
    | fault => fault
    | outOfFuel => outOfFuel
  | fuel + 1, .BinaryExpression m_operator m_left m_right, s =>
    match executeExpression p fuel m_left s with
    | ok (valueLeft, s1) =>
      match executeExpression p fuel m_right s1 with
      | ok (valueRight, s2) =>
        match binaryOperation p m_operator valueLeft valueRight with
        | none => fault
        | some value => ok (value, s2)
      | fault => fault
      | outOfFuel => outOfFuel
    | fault => fault
    | outOfFuel => outOfFuel
  | fuel + 1, .AssignmentExpression m_operator m_left m_right, s =>
    match m_left with
    | .Identifier name =>
      match m_operator with
      | .Assignment =>
        match executeExpression p fuel m_right s with
        | ok (value, s1) =>
          match s1.setVariable name value with
          | none => fault
          | some s2 => ok (Value.undefined, s2)
        | fault => fault
        | outOfFuel => outOfFuel
      | .Increment => fault
      | .Decrement => fault
      | op =>
        match compoundOperation p op with
        | none => fault
        | some operation =>
          match executeOperands (executeExpression p fuel) p.leftArgumentFirst m_left m_right s with
          | ok (l, r, s1) =>
            match operation l r with
            | none => fault
            | some value =>
              match s1.setVariable name value with
              | none => fault
              | some s2 => ok (Value.undefined, s2)
          | fault => fault
          | outOfFuel => outOfFuel
    | _ => fault

/-- The method `execute` of `Statement` and of its subclasses. -/
def executeStatement (p : Platform) :
    Nat → Statement → Interpreter → Completion (Value × Interpreter)
  | 0, _, _ => outOfFuel
  | _ + 1, .base, s => ok (Value.undefined, s)
  | fuel + 1, .Block block, s =>
    match executeAll (executeStatement p fuel) block.m_body s with
    | ok s1 => ok (Value.undefined, s1)
    | fault => fault
    | outOfFuel => outOfFuel
  | fuel + 1, .ScopeNode m_body, s =>
    match executeAll (executeStatement p fuel) m_body s with
    | ok s1 => ok (Value.undefined, s1)
    | fault => fault
    | outOfFuel => outOfFuel
  | _ + 1, .FunctionDeclaration m_id _ m_body, s =>
    let fn := Function.mk m_id (some m_body)
    let functionValue := Value.ofFunction fn
    match s.declareVariable m_id functionValue with
    | none => fault
    | some s1 => ok (Value.undefined, s1)
  | fuel + 1, .ExpressionStatement m_expression, s => executeExpression p fuel m_expression s
  | _ + 1, .VariableDeclaration _ [], _ => fault
  | fuel + 1, .VariableDeclaration _ (dec :: _), s =>
    match dec.m_id with
    | .Identifier name =>
      match executeExpression p fuel dec.m_init s with
      | ok (value, s1) =>
        match s1.declareVariable name value with
        | none => fault
        | some s2 => ok (Value.undefined, s2)
      | fault => fault
      | outOfFuel => outOfFuel
    | _ => fault
  | fuel + 1, .ReturnStatement m_argument, s =>
    match executeExpression p fuel m_argument s with
    | ok (value, s1) => ok (value, s1.returnFromStackFrame value)
    | fault => fault
    | outOfFuel => outOfFuel
  | fuel + 1, .IfStatement m_test m_consequent m_alternate, s =>
    match executeExpression p fuel m_test s with
    | ok (value, s1) =>
      match value.toBoolean with
      | none => fault
      | some true => executeStatement p fuel m_consequent s1
      | some false =>
        match m_alternate with
        | some alternate => executeStatement p fuel alternate s1
        | none => ok (Value.undefined, s1)
    | fault => fault
    | outOfFuel => outOfFuel

end

/-- The method `VariableDeclarator::execute`: `m_init->execute(interpreter)`. -/
def executeVariableDeclarator (p : Platform) (fuel : Nat) (dec : VariableDeclarator)
    (s : Interpreter) : Completion (Value × Interpreter) :=
  executeExpression p fuel dec.m_init s

/-! ## Notions used to state the claims -/

/-- Whether the frame binds `name`. -/
def StackFrame.binds (frame : StackFrame) (name : String) : Bool :=
  (frame.getVariable name).isSome

/-- The state `s'` has as many frames as `s`, and each of its first `k` frames binds the same
names as the frame of `s` at the same index. -/
def Interpreter.NamesKept (k : Nat) (s s' : Interpreter) : Prop :=
  s'.m_stackFrames.length = s.m_stackFrames.length ∧
  ∀ (j : Nat) (fj fj' : StackFrame), j < k → s.m_stackFrames[j]? = some fj →
    s'.m_stackFrames[j]? = some fj' → ∀ m, fj'.binds m = fj.binds m

/-- The operator tags that `BinaryExpression::execute` sends to `default`. -/
def unimplementedOperators : List BinaryOperator :=
  [.Modulo, .Power, .BitwiseAnd, .BitwiseOr, .BitwiseXor, .LeftShift, .RightShift, .Equal,
    .NotEqual, .GreaterThanOrEqual, .LessThan, .LessThanOrEqual]

/-- The binary operator paired with a compound assignment operator. -/
def pairedOperator : AssignmentOperator → Option BinaryOperator
  | .AdditionAssignment => some .Add
  | .SubtractionAssignment => some .Subtract
  | .MultiplicationAssignment => some .Multiply
  | .DivisionAssignment => some .Divide
  | _ => none

/-! ## main.cpp and example inputs -/

/-- A platform for evaluating closed examples: arguments are evaluated left to right. The
examples perform no `double` operation, so these fields are never consulted there; every
theorem that is not an example is stated for all platforms. -/
def examplePlatform : Platform where
  fadd := fun _ _ => Double.NAN
  fsub := fun _ _ => Double.NAN
  fmul := fun _ _ => Double.NAN
  fdiv := fun _ _ => Double.NAN
  fgt := fun _ _ => false
  to_string := fun _ => "nan"
  leftArgumentFirst := true

/-- The node `Literal(Value(n))` for an `int` literal `n`. -/
def intLiteral (n : Int) : Expression := .Literal (Value.ofInt32 n)

/-- The body of `inc` in `main`: `return 3 + 1;`. -/
def incBody : BlockStatement :=
  .mk [.ReturnStatement (.BinaryExpression .Add (intLiteral 3) (intLiteral 1))]

/-- The call `inc()` of `main`. -/
def incCall : Expression := .CallExpression (.Identifier "inc") []

/-- The `Program` built by `main`. -/
def mainProgram : Statement :=
  .ScopeNode [
    .VariableDeclaration .Const
      [.mk (.Identifier "b") (.BinaryExpression .Multiply (intLiteral 10) (intLiteral 2))],
    .VariableDeclaration .Const
      [.mk (.Identifier "a") (.BinaryExpression .Add (.Identifier "b") (intLiteral 1))],
    .FunctionDeclaration "inc" [] incBody,
    .ExpressionStatement incCall,
    .VariableDeclaration .Let [.mk (.Identifier "t") (intLiteral 2)],
    .IfStatement (.BinaryExpression .GreaterThan (intLiteral 10) (intLiteral 2))
      (.Block (.mk [.ExpressionStatement
        (.AssignmentExpression .MultiplicationAssignment (.Identifier "t") (intLiteral 2))]))
      none]

/-- The frames `main` leaves behind: one global frame. -/
def mainFinalState : Interpreter :=
  ⟨[((((StackFrame.empty.setVariable "b" (Value.ofInt32 20)).setVariable "a"
      (Value.ofInt32 21)).setVariable "inc"
      (Value.ofFunction (.mk "inc" (some incBody)))).setVariable "t"
      (Value.ofInt32 2)).setVariable "t" (Value.ofInt32 4)]⟩

/-- A fresh interpreter in which `inc` of `main` has been declared. -/
def incDeclared : Interpreter :=
  ⟨[StackFrame.empty.setVariable "inc" (Value.ofFunction (.mk "inc" (some incBody)))]⟩

/-- A state with two frames: the global frame binds `x` and `y`, the call frame binds `x`. -/
def twoFrames : Interpreter :=
  ⟨[(StackFrame.empty.setVariable "x" (Value.ofInt32 1)).setVariable "y" (Value.ofInt32 7),
    StackFrame.empty.setVariable "x" (Value.ofInt32 2)]⟩

/-- The declaration `var a = 1, b = 2;`. -/
def twoDeclarators : Statement :=
  .VariableDeclaration .Var
    [.mk (.Identifier "a") (intLiteral 1), .mk (.Identifier "b") (intLiteral 2)]

/-- The statement `if (a > b) { t *= k }` over `int` literals, as `main` builds it. -/
def ifMultiply (t : String) (a b k : Int) : Statement :=
  .IfStatement (.BinaryExpression .GreaterThan (intLiteral a) (intLiteral b))
    (.Block (.mk [.ExpressionStatement
      (.AssignmentExpression .MultiplicationAssignment (.Identifier t) (intLiteral k))]))
    none

/-- The statement `if (c) { t = 1 } else { t = 7 }` over a literal test `c`. -/
def ifElseAssign (t : String) (c : Value) : Statement :=
  .IfStatement (.Literal c)
    (.Block (.mk [.ExpressionStatement
      (.AssignmentExpression .Assignment (.Identifier t) (intLiteral 1))]))
    (some (.Block (.mk [.ExpressionStatement
      (.AssignmentExpression .Assignment (.Identifier t) (intLiteral 7))])))

/-- The statement `if ((t *= 2) + 1) { t *= 3 }`, whose test changes `t`. -/
def ifChangingTest (t : String) : Statement :=
  .IfStatement
    (.BinaryExpression .Add
      (.AssignmentExpression .MultiplicationAssignment (.Identifier t) (intLiteral 2))
      (intLiteral 1))
    (.Block (.mk [.ExpressionStatement
      (.AssignmentExpression .MultiplicationAssignment (.Identifier t) (intLiteral 3))]))
    none

/-- The program `const b = x * y; const a = b + z;` over literals, as `main` builds it. -/
def twoDeclarations (x y z : Value) : Statement :=
  .ScopeNode [
    .VariableDeclaration .Const
      [.mk (.Identifier "b") (.BinaryExpression .Multiply (.Literal x) (.Literal y))],
    .VariableDeclaration .Const
      [.mk (.Identifier "a") (.BinaryExpression .Add (.Identifier "b") (.Literal z))]]

/-- A fresh interpreter in which `let t = 2;` has been executed. -/
def tDeclared : Interpreter := ⟨[StackFrame.empty.setVariable "t" (Value.ofInt32 2)]⟩

/-- A function body that declares `x`: `var x = 1;`. -/
def declaresX : BlockStatement :=
  .mk [.VariableDeclaration .Var [.mk (.Identifier "x") (intLiteral 1)]]

/-- A fresh interpreter in which `function g() { var x = 1; }` has been declared. -/
def gDeclared : Interpreter :=
  ⟨[StackFrame.empty.setVariable "g" (Value.ofFunction (.mk "g" (some declaresX)))]⟩

/-- A Value tagged Object: no constructor of the class builds one. -/
def objectValue : Value :=
  .mk .Object Variant.default Variant.default Variant.default Variant.default Variant.default
    Variant.default

/-- A Value tagged Null: no constructor of the class builds one. -/
def nullValue : Value :=
  .mk .Null Variant.default Variant.default Variant.default Variant.default Variant.default
    Variant.default

/-- A fresh interpreter in which `a` and `b` have been declared as Int 0. -/
def abDeclared : Interpreter :=
  ⟨[(StackFrame.empty.setVariable "a" (Value.ofInt32 0)).setVariable "b" (Value.ofInt32 0)]⟩

/-- The expression `a = (b = 1)`. -/
def nestedAssignment : Expression :=
  .AssignmentExpression .Assignment (.Identifier "a")
    (.AssignmentExpression .Assignment (.Identifier "b") (intLiteral 1))

/-- The block `{ return 1; var z = 2; }`. -/
def returnThenDeclare : Statement :=
  .Block (.mk [.ReturnStatement (intLiteral 1),
    .VariableDeclaration .Var [.mk (.Identifier "z") (intLiteral 2)]])

/-- The program `var y = 0; function g() { x = 2 } function f() { var x = 1; g(); y = x }
f();`. -/
def dynamicScopeProgram : Statement :=
  .ScopeNode [
    .VariableDeclaration .Var [.mk (.Identifier "y") (intLiteral 0)],
    .FunctionDeclaration "g" [] (.mk [.ExpressionStatement
      (.AssignmentExpression .Assignment (.Identifier "x") (intLiteral 2))]),
    .FunctionDeclaration "f" [] (.mk [
      .VariableDeclaration .Var [.mk (.Identifier "x") (intLiteral 1)],
      .ExpressionStatement (.CallExpression (.Identifier "g") []),
      .ExpressionStatement
        (.AssignmentExpression .Assignment (.Identifier "y") (.Identifier "x"))]),
    .ExpressionStatement (.CallExpression (.Identifier "f") [])]

/-- A platform whose compiler evaluates the arguments of a call from right to left. -/
def rightToLeftPlatform : Platform :=
  { examplePlatform with leftArgumentFirst := false }

/-- A fresh interpreter in which `x` has been declared as the String `s`. -/
def xDeclared : Interpreter := ⟨[StackFrame.empty.setVariable "x" (Value.ofString "s")]⟩

/-- The expression `x = 5`. -/
def assignFive : Expression :=
  .AssignmentExpression .Assignment (.Identifier "x") (intLiteral 5)

open Completion

/-! ## Lemmas: lookup and update of the frame stack -/

namespace Interpreter

theorem getVariableLoop_eq_some (frames : List StackFrame) (name : String) (v : Value) :
    ∀ n, n ≤ frames.length →
      (getVariableLoop frames name n = some v ↔
        ∃ i frame, i < n ∧ frames[i]? = some frame ∧ frame.getVariable name = some v ∧
          ∀ j frame', i < j → j < n → frames[j]? = some frame' →
            frame'.getVariable name = none) := by
  intro n
  induction n with
  | zero => intro _; simp [getVariableLoop]
  | succ n ih =>
    intro hn
    have hlt : n < frames.length := hn
    have hget : frames[n]? = some frames[n] := List.getElem?_eq_getElem hlt
    rw [getVariableLoop, hget]
    cases hv : frames[n].getVariable name with
    | some w =>
      simp only [hv]
      constructor
      · intro h
        refine ⟨n, frames[n], Nat.lt_succ_self n, hget, ?_, ?_⟩
        · rw [hv]; exact h
        · intro j _ hij hjn; omega
      · rintro ⟨i, frame, hi, hfi, hfv, hall⟩
        rcases Nat.lt_or_ge i n with hin | hin
        · have := hall n frames[n] hin (Nat.lt_succ_self n) hget
          rw [hv] at this; cases this
        · have hieq : i = n := by omega
          subst hieq
          rw [hget] at hfi
          cases hfi
          rw [hv] at hfv; exact hfv
    | none =>
      simp only [hv]
      rw [ih (Nat.le_of_lt hlt)]
      constructor
      · rintro ⟨i, frame, hi, hfi, hfv, hall⟩
        refine ⟨i, frame, Nat.lt_succ_of_lt hi, hfi, hfv, ?_⟩
        intro j frame' hij hjn hfj
        rcases Nat.lt_or_ge j n with hjn' | hjn'
        · exact hall j frame' hij hjn' hfj
        · have hjeq : j = n := by omega
          subst hjeq
          rw [hget] at hfj; cases hfj; exact hv
      · rintro ⟨i, frame, hi, hfi, hfv, hall⟩
        rcases Nat.lt_or_ge i n with hin | hin
        · exact ⟨i, frame, hin, hfi, hfv, fun j frame' hij hjn hfj =>
            hall j frame' hij (Nat.lt_succ_of_lt hjn) hfj⟩
        · have hieq : i = n := by omega
          subst hieq
          rw [hget] at hfi; cases hfi
          rw [hv] at hfv; cases hfv


theorem getVariableLoop_eq_none (frames : List StackFrame) (name : String) :
    ∀ n, n ≤ frames.length →
      (getVariableLoop frames name n = none ↔
        ∀ i frame, i < n → frames[i]? = some frame → frame.getVariable name = none) := by
  intro n
  induction n with
  | zero => intro _; simp [getVariableLoop]
  | succ n ih =>
    intro hn
    have hlt : n < frames.length := hn
    have hget : frames[n]? = some frames[n] := List.getElem?_eq_getElem hlt
    rw [getVariableLoop, hget]
    cases hv : frames[n].getVariable name with
    | some w =>
      simp only [hv]
      constructor
      · intro h; cases h
      · intro h
        have := h n frames[n] (Nat.lt_succ_self n) hget
        rw [hv] at this; cases this
    | none =>
      simp only [hv]
      rw [ih (Nat.le_of_lt hlt)]
      constructor
      · intro h i frame hi hfi
        rcases Nat.lt_or_ge i n with hin | hin
        · exact h i frame hin hfi
        · have hieq : i = n := by omega
          subst hieq
          rw [hget] at hfi; cases hfi; exact hv
      · intro h i frame hi hfi
        exact h i frame (Nat.lt_succ_of_lt hi) hfi

theorem getVariable_eq_loop (s : Interpreter) (name : String) :
    s.getVariable name = getVariableLoop s.m_stackFrames name s.m_stackFrames.length := by
  unfold getVariable
  cases h : s.m_stackFrames with
  | nil => simp [getVariableLoop]
  | cons a l => simp

theorem getVariableLoop_congr (frames frames' : List StackFrame) (name : String) :
    ∀ n, (∀ i, i < n → frames'[i]? = frames[i]?) →
      getVariableLoop frames' name n = getVariableLoop frames name n := by
  intro n
  induction n with
  | zero => intro _; simp [getVariableLoop]
  | succ n ih =>
    intro h
    rw [getVariableLoop, getVariableLoop, h n (Nat.lt_succ_self n),
      ih (fun i hi => h i (Nat.lt_succ_of_lt hi))]

theorem setVariableLoop_eq_some (frames : List StackFrame) (id : String) (value : Value)
    (fs : List StackFrame) :
    ∀ n, setVariableLoop frames id value n = some fs →
      ∃ i frame, i < n ∧ frames[i]? = some frame ∧ (frame.getVariable id).isSome = true ∧
        (∀ j frame', i < j → j < n → frames[j]? = some frame' →
          frame'.getVariable id = none) ∧
        fs = frames.set i (frame.setVariable id value) := by
  intro n
  induction n with
  | zero => intro h; simp [setVariableLoop] at h
  | succ n ih =>
    intro h
    rw [setVariableLoop] at h
    cases hget : frames[n]? with
    | none => simp [hget] at h
    | some frame =>
      simp only [hget] at h
      by_cases hb : (frame.getVariable id).isSome = true
      · rw [if_pos hb] at h
        refine ⟨n, frame, Nat.lt_succ_self n, hget, hb, ?_, ?_⟩
        · intro j _ hij hjn; omega
        · cases h; rfl
      · rw [if_neg hb] at h
        obtain ⟨i, fr, hi, hfi, hfb, hall, hfs⟩ := ih h
        refine ⟨i, fr, Nat.lt_succ_of_lt hi, hfi, hfb, ?_, hfs⟩
        intro j frame' hij hjn hfj
        rcases Nat.lt_or_ge j n with hjn' | hjn'
        · exact hall j frame' hij hjn' hfj
        · have hjeq : j = n := by omega
          subst hjeq
          rw [hget] at hfj; cases hfj
          simpa using hb

theorem setVariableLoop_isSome (frames : List StackFrame) (id : String) (value : Value) :
    ∀ n, (setVariableLoop frames id value n).isSome = (getVariableLoop frames id n).isSome := by
  intro n
  induction n with
  | zero => simp [setVariableLoop, getVariableLoop]
  | succ n ih =>
    rw [setVariableLoop, getVariableLoop]
    cases hget : frames[n]? with
    | none => simp
    | some frame =>
      simp only []
      cases hv : frame.getVariable id with
      | some w => simp
      | none => simpa using ih


theorem getVariableLoop_agree (frames frames' : List StackFrame) (name : String) :
    ∀ n, n ≤ frames.length → frames'.length = frames.length →
      (∀ i frame frame', i < n → frames[i]? = some frame → frames'[i]? = some frame' →
        frame'.getVariable name = frame.getVariable name) →
      getVariableLoop frames' name n = getVariableLoop frames name n := by
  intro n
  induction n with
  | zero => intro _ _ _; simp [getVariableLoop]
  | succ n ih =>
    intro hn hlen h
    have hlt : n < frames.length := hn
    have hlt' : n < frames'.length := by omega
    have hget : frames[n]? = some frames[n] := List.getElem?_eq_getElem hlt
    have hget' : frames'[n]? = some frames'[n] := List.getElem?_eq_getElem hlt'
    rw [getVariableLoop, getVariableLoop, hget, hget']
    simp only []
    rw [h n frames[n] frames'[n] (Nat.lt_succ_self n) hget hget',
      ih (Nat.le_of_lt hlt) hlen (fun i fr fr' hi => h i fr fr' (Nat.lt_succ_of_lt hi))]

end Interpreter

namespace StackFrame

theorem getVariable_setVariable_self (frame : StackFrame) (id : String) (value : Value) :
    (frame.setVariable id value).getVariable id = some value := by
  simp [setVariable, getVariable]

theorem getVariable_setVariable_of_ne (frame : StackFrame) (id m : String) (value : Value)
    (h : m ≠ id) : (frame.setVariable id value).getVariable m = frame.getVariable m := by
  simp [setVariable, getVariable, h]

end StackFrame

namespace Interpreter

/-- What replacing frame `i` by `frame.setVariable id value` does to the frame list and to
lookups. -/
theorem set_frame_effect (s : Interpreter) (i : Nat) (frame : StackFrame) (id : String)
    (value : Value) (hfi : s.m_stackFrames[i]? = some frame) :
    (s.m_stackFrames.set i (frame.setVariable id value)).length = s.m_stackFrames.length ∧
    (∀ j, j ≠ i →
      (s.m_stackFrames.set i (frame.setVariable id value))[j]? = s.m_stackFrames[j]?) ∧
    (s.m_stackFrames.set i (frame.setVariable id value))[i]? =
      some (frame.setVariable id value) ∧
    (∀ m, m ≠ id →
      getVariable ⟨s.m_stackFrames.set i (frame.setVariable id value)⟩ m = s.getVariable m) := by
  have hi : i < s.m_stackFrames.length := by
    rcases Nat.lt_or_ge i s.m_stackFrames.length with h | h
    · exact h
    · rw [List.getElem?_eq_none h] at hfi; cases hfi
  refine ⟨List.length_set _ _ _, ?_, ?_, ?_⟩
  · intro j hj
    exact List.getElem?_set_ne (Ne.symm hj)
  · simp [List.getElem?_set, hi]
  · intro m hm
    rw [getVariable_eq_loop, getVariable_eq_loop]
    simp only [List.length_set]
    apply getVariableLoop_agree _ _ _ _ (Nat.le_refl _) (List.length_set _ _ _)
    intro j fr fr' _ hfr hfr'
    by_cases hji : j = i
    · subst hji
      rw [hfi] at hfr; cases hfr
      simp [List.getElem?_set, hi] at hfr'
      subst hfr'
      exact StackFrame.getVariable_setVariable_of_ne _ _ _ _ hm
    · rw [List.getElem?_set_ne (Ne.symm hji), hfr] at hfr'
      cases hfr'; rfl

end Interpreter

namespace Interpreter

theorem lt_length_of_getElem? {frames : List StackFrame} {i : Nat} {frame : StackFrame}
    (h : frames[i]? = some frame) : i < frames.length := by
  rcases Nat.lt_or_ge i frames.length with h' | h'
  · exact h'
  · rw [List.getElem?_eq_none h'] at h; cases h

/-- Which binding `getVariable` returns, and when it returns none. -/
theorem getVariable_characterisation (s : Interpreter) (name : String) :
    (∀ v, s.getVariable name = some v ↔
      ∃ (i : Nat) (frame : StackFrame),
        s.m_stackFrames[i]? = some frame ∧ frame.getVariable name = some v ∧
        ∀ (j : Nat) (frame' : StackFrame), i < j → s.m_stackFrames[j]? = some frame' →
          frame'.getVariable name = none) ∧
    (s.getVariable name = none ↔
      ∀ (i : Nat) (frame : StackFrame),
        s.m_stackFrames[i]? = some frame → frame.getVariable name = none) := by
  constructor
  · intro v
    rw [getVariable_eq_loop, getVariableLoop_eq_some _ _ _ _ (Nat.le_refl _)]
    constructor
    · rintro ⟨i, frame, _, hfi, hfv, hall⟩
      exact ⟨i, frame, hfi, hfv, fun j frame' hij hfj =>
        hall j frame' hij (lt_length_of_getElem? hfj) hfj⟩
    · rintro ⟨i, frame, hfi, hfv, hall⟩
      exact ⟨i, frame, lt_length_of_getElem? hfi, hfi, hfv, fun j frame' hij _ hfj =>
        hall j frame' hij hfj⟩
  · rw [getVariable_eq_loop, getVariableLoop_eq_none _ _ _ (Nat.le_refl _)]
    constructor
    · intro h i frame hfi
      exact h i frame (lt_length_of_getElem? hfi) hfi
    · intro h i frame _ hfi
      exact h i frame hfi

/-- What `declareVariable` does to a state with at least one frame. -/
theorem declareVariable_effect (s : Interpreter) (name : String) (v : Value)
    (h : s.m_stackFrames ≠ []) :
    ∃ (s' : Interpreter) (top top' : StackFrame),
      s.declareVariable name v = some s' ∧
      s.m_stackFrames[s.m_stackFrames.length - 1]? = some top ∧
      s'.m_stackFrames[s.m_stackFrames.length - 1]? = some top' ∧
      s'.m_stackFrames.length = s.m_stackFrames.length ∧
      (∀ j : Nat, j ≠ s.m_stackFrames.length - 1 →
        s'.m_stackFrames[j]? = s.m_stackFrames[j]?) ∧
      top'.getVariable name = some v ∧
      (∀ m, m ≠ name → top'.getVariable m = top.getVariable m) ∧
      s'.getVariable name = some v ∧
      (∀ m, m ≠ name → s'.getVariable m = s.getVariable m) := by
  have hpos : 0 < s.m_stackFrames.length := List.length_pos.mpr h
  have hlt : s.m_stackFrames.length - 1 < s.m_stackFrames.length := by omega
  have hget : s.m_stackFrames[s.m_stackFrames.length - 1]? =
      some s.m_stackFrames[s.m_stackFrames.length - 1] := List.getElem?_eq_getElem hlt
  obtain ⟨hlen, hother, hself, hlook⟩ :=
    set_frame_effect s _ _ name v hget
  refine ⟨⟨s.m_stackFrames.set (s.m_stackFrames.length - 1)
      (s.m_stackFrames[s.m_stackFrames.length - 1].setVariable name v)⟩,
    s.m_stackFrames[s.m_stackFrames.length - 1],
    s.m_stackFrames[s.m_stackFrames.length - 1].setVariable name v,
    ?_, hget, hself, hlen, hother, StackFrame.getVariable_setVariable_self _ _ _,
    fun m hm => StackFrame.getVariable_setVariable_of_ne _ _ _ _ hm, ?_, hlook⟩
  · unfold declareVariable; rw [hget]
  · apply ((getVariable_characterisation _ name).1 v).2
    refine ⟨s.m_stackFrames.length - 1, _, hself,
      StackFrame.getVariable_setVariable_self _ _ _, ?_⟩
    intro j frame' hij hfj
    have := lt_length_of_getElem? hfj
    simp only [List.length_set] at this
    omega

end Interpreter

/-! ## Lemmas: frame count -/

namespace Interpreter

theorem length_of_setVariable {s s' : Interpreter} {id : String} {value : Value}
    (h : s.setVariable id value = some s') :
    s'.m_stackFrames.length = s.m_stackFrames.length := by
  unfold setVariable at h
  cases hloop : setVariableLoop s.m_stackFrames id value s.m_stackFrames.length with
  | none => rw [hloop] at h; cases h
  | some fs =>
    rw [hloop] at h
    obtain ⟨i, frame, _, _, _, _, hfs⟩ := setVariableLoop_eq_some _ _ _ _ _ hloop
    cases h
    simp [hfs]

theorem length_of_declareVariable {s s' : Interpreter} {id : String} {value : Value}
    (h : s.declareVariable id value = some s') :
    s'.m_stackFrames.length = s.m_stackFrames.length := by
  unfold declareVariable at h
  cases hget : s.m_stackFrames[s.m_stackFrames.length - 1]? with
  | none => rw [hget] at h; cases h
  | some frame => rw [hget] at h; cases h; simp

theorem length_pushStackFrame (s : Interpreter) :
    s.pushStackFrame.m_stackFrames.length = s.m_stackFrames.length + 1 := by
  simp [pushStackFrame]

theorem length_of_popStackFrame {s s' : Interpreter} (h : s.popStackFrame = some s') :
    s'.m_stackFrames.length = s.m_stackFrames.length - 1 := by
  unfold popStackFrame at h
  split at h
  · cases h
  · cases h; simp

end Interpreter

/-- A loop over children keeps the frame count if every child does. -/
theorem executeAll_length {α : Type}
    (exec : α → Interpreter → Completion (Value × Interpreter))
    (hexec : ∀ x s v s', exec x s = ok (v, s') →
      s'.m_stackFrames.length = s.m_stackFrames.length) :
    ∀ (l : List α) (s s' : Interpreter), executeAll exec l s = ok s' →
      s'.m_stackFrames.length = s.m_stackFrames.length := by
  intro l
  induction l with
  | nil => intro s s' h; simp only [executeAll] at h; cases h; rfl
  | cons x xs ih =>
    intro s s' h
    simp only [executeAll] at h
    cases hx : exec x s with
    | ok r =>
      rw [hx] at h
      obtain ⟨v, s1⟩ := r
      rw [ih s1 s' h, hexec x s v s1 hx]
    | fault => rw [hx] at h; cases h
    | outOfFuel => rw [hx] at h; cases h

theorem executeOperands_length
    (exec : Expression → Interpreter → Completion (Value × Interpreter))
    (hexec : ∀ x s v s', exec x s = ok (v, s') →
      s'.m_stackFrames.length = s.m_stackFrames.length)
    (b : Bool) (left right : Expression) (s : Interpreter) (l r : Value) (s' : Interpreter)
    (h : executeOperands exec b left right s = ok (l, r, s')) :
    s'.m_stackFrames.length = s.m_stackFrames.length := by
  unfold executeOperands at h
  cases b with
  | true =>
    simp only [if_true] at h
    cases h1 : exec left s with
    | ok r1 =>
      obtain ⟨v1, s1⟩ := r1
      rw [h1] at h
      simp only [] at h
      cases h2 : exec right s1 with
      | ok r2 =>
        obtain ⟨v2, s2⟩ := r2
        rw [h2] at h
        simp only [] at h
        cases h
        rw [hexec _ _ _ _ h2, hexec _ _ _ _ h1]
      | fault => rw [h2] at h; cases h
      | outOfFuel => rw [h2] at h; cases h
    | fault => rw [h1] at h; cases h
    | outOfFuel => rw [h1] at h; cases h
  | false =>
    simp only [Bool.false_eq_true, if_false] at h
    cases h1 : exec right s with
    | ok r1 =>
      obtain ⟨v1, s1⟩ := r1
      rw [h1] at h
      simp only [] at h
      cases h2 : exec left s1 with
      | ok r2 =>
        obtain ⟨v2, s2⟩ := r2
        rw [h2] at h
        simp only [] at h
        cases h
        rw [hexec _ _ _ _ h2, hexec _ _ _ _ h1]
      | fault => rw [h2] at h; cases h
      | outOfFuel => rw [h2] at h; cases h
    | fault => rw [h1] at h; cases h
    | outOfFuel => rw [h1] at h; cases h

theorem execute_length_aux (p : Platform) :
    ∀ fuel,
      (∀ (n : Statement) (s : Interpreter) (v : Value) (s' : Interpreter),
        executeStatement p fuel n s = ok (v, s') →
          s'.m_stackFrames.length = s.m_stackFrames.length) ∧
      (∀ (e : Expression) (s : Interpreter) (v : Value) (s' : Interpreter),
        executeExpression p fuel e s = ok (v, s') →
          s'.m_stackFrames.length = s.m_stackFrames.length) := by
  intro fuel
  induction fuel with
  | zero =>
    constructor
    · intro n s v s' h; simp only [executeStatement] at h; cases h
    · intro e s v s' h; simp only [executeExpression] at h; cases h
  | succ fuel ih =>
    obtain ⟨ihS, ihE⟩ := ih
    constructor
    · intro n s v s' h
      cases n with
      | base => simp only [executeStatement] at h; cases h; rfl
      | Block b =>
        simp only [executeStatement] at h
        split at h
        · rename_i s1 h1
          cases h
          exact executeAll_length _ ihS _ _ _ h1
        · cases h
        · cases h
      | ScopeNode body =>
        simp only [executeStatement] at h
        split at h
        · rename_i s1 h1
          cases h
          exact executeAll_length _ ihS _ _ _ h1
        · cases h
        · cases h
      | FunctionDeclaration id params body =>
        simp only [executeStatement] at h
        split at h
        · cases h
        · rename_i s1 h1
          cases h
          exact Interpreter.length_of_declareVariable h1
      | ExpressionStatement e =>
        simp only [executeStatement] at h
        exact ihE _ _ _ _ h
      | VariableDeclaration k decls =>
        cases decls with
        | nil => simp only [executeStatement] at h; cases h
        | cons dec rest =>
          simp only [executeStatement] at h
          split at h
          · split at h
            · rename_i value s1 h1
              split at h
              · cases h
              · rename_i s2 h2
                cases h
                rw [Interpreter.length_of_declareVariable h2, ihE _ _ _ _ h1]
            · cases h
            · cases h
          · cases h
      | ReturnStatement e =>
        simp only [executeStatement] at h
        split at h
        · rename_i value s1 h1
          cases h
          exact ihE _ _ _ _ h1
        · cases h
        · cases h
      | IfStatement test cons alt =>
        simp only [executeStatement] at h
        split at h
        · rename_i value s1 h1
          split at h
          · cases h
          · rw [ihS _ _ _ _ h, ihE _ _ _ _ h1]
          · split at h
            · rw [ihS _ _ _ _ h, ihE _ _ _ _ h1]
            · cases h; exact ihE _ _ _ _ h1
        · cases h
        · cases h
    · intro e s v s' h
      cases e with
      | base => simp only [executeExpression] at h; cases h; rfl
      | Identifier name => simp only [executeExpression] at h; cases h; rfl
      | Literal value => simp only [executeExpression] at h; cases h; rfl
      | CallExpression callee args =>
        simp only [executeExpression] at h
        split at h
        · rename_i s1 h1
          have hs1 := executeAll_length _ ihE _ _ _ h1
          split at h
          · split at h
            · cases h
            · split at h
              · cases h
              · split at h
                · cases h
                · split at h
                  · rename_i r s3 h3
                    split at h
                    · cases h
                    · rename_i s4 h4
                      cases h
                      rw [Interpreter.length_of_popStackFrame h4, ihS _ _ _ _ h3,
                        Interpreter.length_pushStackFrame, hs1]
                      rfl
                  · cases h
                  · cases h
          · cases h
        · cases h
        · cases h
      | BinaryExpression op l r =>
        simp only [executeExpression] at h
        split at h
        · rename_i vl s1 h1
          split at h
          · rename_i vr s2 h2
            split at h
            · cases h
            · cases h
              rw [ihE _ _ _ _ h2, ihE _ _ _ _ h1]
          · cases h
          · cases h
        · cases h
        · cases h
      | AssignmentExpression op l r =>
        simp only [executeExpression] at h
        split at h
        · split at h
          · split at h
            · rename_i value s1 h1
              split at h
              · cases h
              · rename_i s2 h2
                cases h
                rw [Interpreter.length_of_setVariable h2, ihE _ _ _ _ h1]
            · cases h
            · cases h
          · cases h
          · cases h
          · split at h
            · cases h
            · split at h
              · rename_i vl vr s1 h1
                split at h
                · cases h
                · split at h
                  · cases h
                  · rename_i s2 h2
                    cases h
                    rw [Interpreter.length_of_setVariable h2,
                      executeOperands_length _ ihE _ _ _ _ _ _ _ h1]
              · cases h
              · cases h
        · cases h

/-- A completed call ran its callee's body in the state with one frame more than the caller's,
and its `popStackFrame` removed that one frame from a state with as many frames. -/
theorem call_pops_pushed_frame (p : Platform) (fuel : Nat) (callee : Expression)
    (args : List Expression) (s : Interpreter) (v : Value) (s' : Interpreter)
    (h : executeExpression p (fuel + 1) (.CallExpression callee args) s = ok (v, s')) :
    ∃ (s1 : Interpreter) (body : BlockStatement) (s3 : Interpreter),
      executeAll (executeExpression p fuel) args s = ok s1 ∧
      executeStatement p fuel (.Block body) s1.pushStackFrame = ok (v, s3) ∧
      s3.popStackFrame = some s' ∧
      s1.pushStackFrame.m_stackFrames.length = s.m_stackFrames.length + 1 ∧
      s3.m_stackFrames.length = s.m_stackFrames.length + 1 := by
  simp only [executeExpression] at h
  split at h
  · rename_i s1 h1
    have hs1 := executeAll_length _ (execute_length_aux p fuel).2 _ _ _ h1
    split at h
    · split at h
      · cases h
      · split at h
        · cases h
        · split at h
          · cases h
          · rename_i body _
            split at h
            · rename_i r s3 h3
              split at h
              · cases h
              · rename_i s4 h4
                cases h
                have h3len := (execute_length_aux p fuel).1 _ _ _ _ h3
                rw [Interpreter.length_pushStackFrame, hs1] at h3len
                exact ⟨s1, body, s3, h1, h3, h4,
                  by rw [Interpreter.length_pushStackFrame, hs1], h3len⟩
            · cases h
            · cases h
    · cases h
  · cases h
  · cases h

/-! ## Lemmas: more fuel does not change a completed run -/

/-- A loop over children is stable under a more generous child executor. -/
theorem executeAll_mono {α : Type}
    (exec exec' : α → Interpreter → Completion (Value × Interpreter))
    (hexec : ∀ x s, exec x s ≠ outOfFuel → exec' x s = exec x s) :
    ∀ (l : List α) (s : Interpreter), executeAll exec l s ≠ outOfFuel →
      executeAll exec' l s = executeAll exec l s := by
  intro l
  induction l with
  | nil => intro s _; simp only [executeAll]
  | cons x xs ih =>
    intro s h
    simp only [executeAll] at h ⊢
    cases hx : exec x s with
    | ok r =>
      rw [hx] at h
      simp only [] at h
      rw [hexec x s (by rw [hx]; intro hc; cases hc), hx]
      exact ih r.2 h
    | fault =>
      rw [hexec x s (by rw [hx]; intro hc; cases hc), hx]
    | outOfFuel => rw [hx] at h; exact absurd rfl h

theorem executeOperands_mono
    (exec exec' : Expression → Interpreter → Completion (Value × Interpreter))
    (hexec : ∀ x s, exec x s ≠ outOfFuel → exec' x s = exec x s)
    (b : Bool) (left right : Expression) (s : Interpreter)
    (h : executeOperands exec b left right s ≠ outOfFuel) :
    executeOperands exec' b left right s = executeOperands exec b left right s := by
  unfold executeOperands at h ⊢
  cases b with
  | true =>
    simp only [if_true] at h ⊢
    cases h1 : exec left s with
    | ok r1 =>
      obtain ⟨v1, s1⟩ := r1
      rw [hexec left s (by rw [h1]; intro hc; cases hc), h1]
      rw [h1] at h
      simp only [] at h ⊢
      cases h2 : exec right s1 with
      | ok r2 => rw [hexec right s1 (by rw [h2]; intro hc; cases hc), h2]
      | fault => rw [hexec right s1 (by rw [h2]; intro hc; cases hc), h2]
      | outOfFuel => rw [h2] at h; exact absurd rfl h
    | fault => rw [hexec left s (by rw [h1]; intro hc; cases hc), h1]
    | outOfFuel => rw [h1] at h; exact absurd rfl h
  | false =>
    simp only [Bool.false_eq_true, if_false] at h ⊢
    cases h1 : exec right s with
    | ok r1 =>
      obtain ⟨v1, s1⟩ := r1
      rw [hexec right s (by rw [h1]; intro hc; cases hc), h1]
      rw [h1] at h
      simp only [] at h ⊢
      cases h2 : exec left s1 with
      | ok r2 => rw [hexec left s1 (by rw [h2]; intro hc; cases hc), h2]
      | fault => rw [hexec left s1 (by rw [h2]; intro hc; cases hc), h2]
      | outOfFuel => rw [h2] at h; exact absurd rfl h
    | fault => rw [hexec right s (by rw [h1]; intro hc; cases hc), h1]
    | outOfFuel => rw [h1] at h; exact absurd rfl h

theorem execute_mono_aux (p : Platform) :
    ∀ fuel,
      (∀ (n : Statement) (s : Interpreter), executeStatement p fuel n s ≠ outOfFuel →
        executeStatement p (fuel + 1) n s = executeStatement p fuel n s) ∧
      (∀ (e : Expression) (s : Interpreter), executeExpression p fuel e s ≠ outOfFuel →
        executeExpression p (fuel + 1) e s = executeExpression p fuel e s) := by
  intro fuel
  induction fuel with
  | zero =>
    constructor
    · intro n s h; simp only [executeStatement] at h; exact absurd rfl h
    · intro e s h; simp only [executeExpression] at h; exact absurd rfl h
  | succ fuel ih =>
    obtain ⟨ihS, ihE⟩ := ih
    constructor
    · intro n s h
      cases n with
      | base => simp only [executeStatement]
      | Block b =>
        simp only [executeStatement] at h ⊢
        cases h1 : executeAll (executeStatement p fuel) b.m_body s with
        | ok s1 =>
          rw [executeAll_mono _ _ ihS _ _ (by rw [h1]; intro hc; cases hc), h1]
        | fault =>
          rw [executeAll_mono _ _ ihS _ _ (by rw [h1]; intro hc; cases hc), h1]
        | outOfFuel => rw [h1] at h; exact absurd rfl h
      | ScopeNode body =>
        simp only [executeStatement] at h ⊢
        cases h1 : executeAll (executeStatement p fuel) body s with
        | ok s1 =>
          rw [executeAll_mono _ _ ihS _ _ (by rw [h1]; intro hc; cases hc), h1]
        | fault =>
          rw [executeAll_mono _ _ ihS _ _ (by rw [h1]; intro hc; cases hc), h1]
        | outOfFuel => rw [h1] at h; exact absurd rfl h
      | FunctionDeclaration id params body => simp only [executeStatement]
      | ExpressionStatement e =>
        simp only [executeStatement] at h ⊢
        exact ihE _ _ h
      | VariableDeclaration k decls =>
        cases decls with
        | nil => simp only [executeStatement]
        | cons dec rest =>
          simp only [executeStatement] at h ⊢
          split
          · rename_i name hid
            rw [hid] at h
            simp only [] at h
            cases h1 : executeExpression p fuel dec.m_init s with
            | ok r => rw [ihE _ _ (by rw [h1]; intro hc; cases hc), h1]
            | fault => rw [ihE _ _ (by rw [h1]; intro hc; cases hc), h1]
            | outOfFuel => rw [h1] at h; exact absurd rfl h
          · rfl
      | ReturnStatement e =>
        simp only [executeStatement] at h ⊢
        cases h1 : executeExpression p fuel e s with
        | ok r => rw [ihE _ _ (by rw [h1]; intro hc; cases hc), h1]
        | fault => rw [ihE _ _ (by rw [h1]; intro hc; cases hc), h1]
        | outOfFuel => rw [h1] at h; exact absurd rfl h
      | IfStatement test cons alt =>
        simp only [executeStatement] at h ⊢
        cases h1 : executeExpression p fuel test s with
        | ok r =>
          obtain ⟨value, s1⟩ := r
          rw [ihE _ _ (by rw [h1]; intro hc; cases hc), h1]
          rw [h1] at h
          simp only [] at h ⊢
          cases hb : value.toBoolean with
          | none => rfl
          | some b =>
            rw [hb] at h
            cases b with
            | true =>
              simp only [] at h ⊢
              exact ihS _ _ h
            | false =>
              simp only [] at h ⊢
              cases alt with
              | none => rfl
              | some alternate =>
                simp only [] at h ⊢
                exact ihS _ _ h
        | fault => rw [ihE _ _ (by rw [h1]; intro hc; cases hc), h1]
        | outOfFuel => rw [h1] at h; exact absurd rfl h
    · intro e s h
      cases e with
      | base => simp only [executeExpression]
      | Identifier name => simp only [executeExpression]
      | Literal value => simp only [executeExpression]
      | CallExpression callee args =>
        simp only [executeExpression] at h ⊢
        cases h1 : executeAll (executeExpression p fuel) args s with
        | ok s1 =>
          rw [executeAll_mono _ _ ihE _ _ (by rw [h1]; intro hc; cases hc), h1]
          rw [h1] at h
          simp only [] at h ⊢
          split
          · rename_i name
            simp only [] at h
            split
            · rfl
            · rename_i functionToCall hf
              rw [hf] at h
              simp only [] at h
              split
              · rfl
              · rename_i function hfn
                rw [hfn] at h
                simp only [] at h
                split
                · rfl
                · rename_i body hbody
                  rw [hbody] at h
                  simp only [] at h
                  cases h3 : executeStatement p fuel (.Block body) s1.pushStackFrame with
                  | ok r => rw [ihS _ _ (by rw [h3]; intro hc; cases hc), h3]
                  | fault => rw [ihS _ _ (by rw [h3]; intro hc; cases hc), h3]
                  | outOfFuel => rw [h3] at h; exact absurd rfl h
          · rfl
        | fault =>
          rw [executeAll_mono _ _ ihE _ _ (by rw [h1]; intro hc; cases hc), h1]
        | outOfFuel => rw [h1] at h; exact absurd rfl h
      | BinaryExpression op l r =>
        simp only [executeExpression] at h ⊢
        cases h1 : executeExpression p fuel l s with
        | ok r1 =>
          obtain ⟨vl, s1⟩ := r1
          rw [ihE _ _ (by rw [h1]; intro hc; cases hc), h1]
          rw [h1] at h
          simp only [] at h ⊢
          cases h2 : executeExpression p fuel r s1 with
          | ok r2 => rw [ihE _ _ (by rw [h2]; intro hc; cases hc), h2]
          | fault => rw [ihE _ _ (by rw [h2]; intro hc; cases hc), h2]
          | outOfFuel => rw [h2] at h; exact absurd rfl h
        | fault => rw [ihE _ _ (by rw [h1]; intro hc; cases hc), h1]
        | outOfFuel => rw [h1] at h; exact absurd rfl h
      | AssignmentExpression op l r =>
        simp only [executeExpression] at h ⊢
        split
        · rename_i name
          simp only [] at h
          split
          · simp only [] at h
            cases h1 : executeExpression p fuel r s with
            | ok r1 => rw [ihE _ _ (by rw [h1]; intro hc; cases hc), h1]
            | fault => rw [ihE _ _ (by rw [h1]; intro hc; cases hc), h1]
            | outOfFuel => rw [h1] at h; exact absurd rfl h
          · rfl
          · rfl
          · rename_i op' hna hni hnd
            split
            · rfl
            · rename_i operation hop
              split at h
              · exact (hna rfl).elim
              · exact (hni rfl).elim
              · exact (hnd rfl).elim
              · rw [hop] at h
                simp only [] at h
                cases h1 : executeOperands (executeExpression p fuel) p.leftArgumentFirst
                    (.Identifier name) r s with
                | ok r1 =>
                  rw [executeOperands_mono _ _ ihE _ _ _ _ (by rw [h1]; intro hc; cases hc), h1]
                | fault =>
                  rw [executeOperands_mono _ _ ihE _ _ _ _ (by rw [h1]; intro hc; cases hc), h1]
                | outOfFuel => rw [h1] at h; exact absurd rfl h
        · rfl

theorem executeStatement_mono (p : Platform) (n : Statement) (s : Interpreter) :
    ∀ fuel k, executeStatement p fuel n s ≠ outOfFuel →
      executeStatement p (fuel + k) n s = executeStatement p fuel n s := by
  intro fuel k h
  induction k with
  | zero => rfl
  | succ k ih =>
    rw [← Nat.add_assoc, (execute_mono_aux p (fuel + k)).1 n s (by rw [ih]; exact h), ih]

theorem executeExpression_mono (p : Platform) (e : Expression) (s : Interpreter) :
    ∀ fuel k, executeExpression p fuel e s ≠ outOfFuel →
      executeExpression p (fuel + k) e s = executeExpression p fuel e s := by
  intro fuel k h
  induction k with
  | zero => rfl
  | succ k ih =>
    rw [← Nat.add_assoc, (execute_mono_aux p (fuel + k)).2 e s (by rw [ih]; exact h), ih]

namespace Interpreter

theorem getVariable_pushStackFrame (s : Interpreter) (name : String) :
    s.pushStackFrame.getVariable name = s.getVariable name := by
  rw [getVariable_eq_loop, getVariable_eq_loop]
  simp only [pushStackFrame, List.length_append, List.length_singleton]
  rw [getVariableLoop]
  simp only [List.getElem?_concat_length]
  have : StackFrame.empty.getVariable name = none := rfl
  simp only [this]
  apply getVariableLoop_congr
  intro i hi
  exact List.getElem?_append_left hi

end Interpreter

theorem Value.undefined_ne_ofInt32 (i : Int) : Value.undefined ≠ Value.ofInt32 i := by
  intro h
  have := congrArg Value.m_type h
  cases this


/-! ## Lemmas: the names a frame binds -/

namespace Interpreter

/-- Nothing changed: the names are kept. -/
theorem NamesKept.refl (k : Nat) (s : Interpreter) : NamesKept k s s := by
  refine ⟨rfl, ?_⟩
  intro j fj fj' _ h h' m
  rw [h] at h'; cases h'; rfl

/-- Keeping the names composes. -/
theorem NamesKept.trans {k : Nat} {s s' s'' : Interpreter} (h1 : NamesKept k s s')
    (h2 : NamesKept k s' s'') : NamesKept k s s'' := by
  refine ⟨h2.1.trans h1.1, ?_⟩
  intro j fj fj'' hj hfj hfj'' m
  have hlt : j < s'.m_stackFrames.length := by
    rw [h1.1]; exact lt_length_of_getElem? hfj
  have hget : s'.m_stackFrames[j]? = some s'.m_stackFrames[j] := List.getElem?_eq_getElem hlt
  rw [h2.2 j _ fj'' hj hget hfj'' m, h1.2 j fj _ hj hfj hget m]

/-- Keeping the names of `k` frames keeps those of fewer. -/
theorem NamesKept.mono {k k' : Nat} {s s' : Interpreter} (h : NamesKept k s s')
    (hk : k' ≤ k) : NamesKept k' s s' :=
  ⟨h.1, fun j fj fj' hj => h.2 j fj fj' (Nat.lt_of_lt_of_le hj hk)⟩

/-- `setVariable` overwrites a binding that exists: no frame gains or loses a name. -/
theorem namesKept_of_setVariable {s s' : Interpreter} {id : String} {value : Value}
    (h : s.setVariable id value = some s') (k : Nat) : NamesKept k s s' := by
  unfold setVariable at h
  cases hloop : setVariableLoop s.m_stackFrames id value s.m_stackFrames.length with
  | none => rw [hloop] at h; cases h
  | some fs =>
    rw [hloop] at h
    cases h
    obtain ⟨i, frame, _, hfi, hfb, _, hfs⟩ := setVariableLoop_eq_some _ _ _ _ _ hloop
    obtain ⟨hlen, hother, hself, _⟩ := set_frame_effect s i frame id value hfi
    refine ⟨by simp only [hfs]; exact hlen, ?_⟩
    intro j fj fj' _ hfj hfj' m
    simp only [hfs] at hfj'
    by_cases hji : j = i
    · subst hji
      rw [hself] at hfj'; cases hfj'
      rw [hfi] at hfj; cases hfj
      unfold StackFrame.binds
      by_cases hm : m = id
      · subst hm
        rw [StackFrame.getVariable_setVariable_self, hfb]; rfl
      · rw [StackFrame.getVariable_setVariable_of_ne _ _ _ _ hm]
    · rw [hother j hji, hfj] at hfj'
      cases hfj'; rfl

/-- `declareVariable` writes the topmost frame only. -/
theorem namesKept_of_declareVariable {s s' : Interpreter} {id : String} {value : Value}
    (h : s.declareVariable id value = some s') :
    NamesKept (s.m_stackFrames.length - 1) s s' := by
  refine ⟨length_of_declareVariable h, ?_⟩
  unfold declareVariable at h
  cases hget : s.m_stackFrames[s.m_stackFrames.length - 1]? with
  | none => rw [hget] at h; cases h
  | some frame =>
    rw [hget] at h
    cases h
    intro j fj fj' hj hfj hfj' m
    simp only [] at hfj'
    rw [List.getElem?_set_ne (by omega), hfj] at hfj'
    cases hfj'; rfl

/-- A call's push, body and pop: if the body kept the names of the frames below the pushed
one, the call kept the names of every frame. -/
theorem namesKept_of_push_pop {s1 s3 s4 : Interpreter}
    (hbody : NamesKept (s1.pushStackFrame.m_stackFrames.length - 1) s1.pushStackFrame s3)
    (hpop : s3.popStackFrame = some s4) (k : Nat) : NamesKept k s1 s4 := by
  have hlen3 := hbody.1
  rw [length_pushStackFrame] at hlen3
  have hlen4 := length_of_popStackFrame hpop
  refine ⟨by omega, ?_⟩
  intro j fj fj' _ hfj hfj' m
  have hj1 : j < s1.m_stackFrames.length := lt_length_of_getElem? hfj
  unfold popStackFrame at hpop
  split at hpop
  · cases hpop
  · cases hpop
    simp only [List.getElem?_dropLast] at hfj'
    rw [if_pos (by omega)] at hfj'
    have hfj2 : s1.pushStackFrame.m_stackFrames[j]? = some fj := by
      simp only [pushStackFrame]
      rw [List.getElem?_append_left hj1]
      exact hfj
    exact hbody.2 j fj fj' (by rw [length_pushStackFrame]; omega) hfj2 hfj' m

/-- What a statement keeps: the names of every frame below the topmost one. -/
theorem namesKept_below_top_trans {a b c : Interpreter}
    (h1 : NamesKept (a.m_stackFrames.length - 1) a b)
    (h2 : NamesKept (b.m_stackFrames.length - 1) b c) :
    NamesKept (a.m_stackFrames.length - 1) a c := by
  rw [h1.1] at h2
  exact h1.trans h2

end Interpreter

/-- A loop over children keeps a reflexive and transitive relation that every child keeps. -/
theorem executeAll_rel {α : Type} (R : Interpreter → Interpreter → Prop)
    (hrefl : ∀ s, R s s) (htrans : ∀ a b c, R a b → R b c → R a c)
    (exec : α → Interpreter → Completion (Value × Interpreter))
    (hexec : ∀ x s v s', exec x s = ok (v, s') → R s s') :
    ∀ (l : List α) (s s' : Interpreter), executeAll exec l s = ok s' → R s s' := by
  intro l
  induction l with
  | nil => intro s s' h; simp only [executeAll] at h; cases h; exact hrefl s
  | cons x xs ih =>
    intro s s' h
    simp only [executeAll] at h
    cases hx : exec x s with
    | ok r =>
      rw [hx] at h
      obtain ⟨v, s1⟩ := r
      exact htrans _ _ _ (hexec x s v s1 hx) (ih s1 s' h)
    | fault => rw [hx] at h; cases h
    | outOfFuel => rw [hx] at h; cases h

/-- The two operands of a call keep a transitive relation that every expression keeps. -/
theorem executeOperands_rel (R : Interpreter → Interpreter → Prop)
    (htrans : ∀ a b c, R a b → R b c → R a c)
    (exec : Expression → Interpreter → Completion (Value × Interpreter))
    (hexec : ∀ x s v s', exec x s = ok (v, s') → R s s')
    (b : Bool) (left right : Expression) (s : Interpreter) (l r : Value) (s' : Interpreter)
    (h : executeOperands exec b left right s = ok (l, r, s')) : R s s' := by
  unfold executeOperands at h
  cases b with
  | true =>
    simp only [if_true] at h
    cases h1 : exec left s with
    | ok r1 =>
      obtain ⟨v1, s1⟩ := r1
      rw [h1] at h
      simp only [] at h
      cases h2 : exec right s1 with
      | ok r2 =>
        obtain ⟨v2, s2⟩ := r2
        rw [h2] at h
        simp only [] at h
        cases h
        exact htrans _ _ _ (hexec _ _ _ _ h1) (hexec _ _ _ _ h2)
      | fault => rw [h2] at h; cases h
      | outOfFuel => rw [h2] at h; cases h
    | fault => rw [h1] at h; cases h
    | outOfFuel => rw [h1] at h; cases h
  | false =>
    simp only [Bool.false_eq_true, if_false] at h
    cases h1 : exec right s with
    | ok r1 =>
      obtain ⟨v1, s1⟩ := r1
      rw [h1] at h
      simp only [] at h
      cases h2 : exec left s1 with
      | ok r2 =>
        obtain ⟨v2, s2⟩ := r2
        rw [h2] at h
        simp only [] at h
        cases h
        exact htrans _ _ _ (hexec _ _ _ _ h1) (hexec _ _ _ _ h2)
      | fault => rw [h2] at h; cases h
      | outOfFuel => rw [h2] at h; cases h
    | fault => rw [h1] at h; cases h
    | outOfFuel => rw [h1] at h; cases h

open Interpreter in
/-- A completed `execute` keeps the frame count; a statement keeps the bound names of every
frame below the topmost one, an expression those of every frame. -/
theorem execute_names_aux (p : Platform) :
    ∀ fuel,
      (∀ (n : Statement) (s : Interpreter) (v : Value) (s' : Interpreter),
        executeStatement p fuel n s = ok (v, s') →
          NamesKept (s.m_stackFrames.length - 1) s s') ∧
      (∀ (e : Expression) (s : Interpreter) (v : Value) (s' : Interpreter),
        executeExpression p fuel e s = ok (v, s') → ∀ k, NamesKept k s s') := by
  intro fuel
  induction fuel with
  | zero =>
    constructor
    · intro n s v s' h; simp only [executeStatement] at h; cases h
    · intro e s v s' h; simp only [executeExpression] at h; cases h
  | succ fuel ih =>
    obtain ⟨ihS, ihE⟩ := ih
    have hallS : ∀ (l : List Statement) (s s' : Interpreter),
        executeAll (executeStatement p fuel) l s = ok s' →
          NamesKept (s.m_stackFrames.length - 1) s s' :=
      executeAll_rel (fun s s' => NamesKept (s.m_stackFrames.length - 1) s s')
        (fun s => NamesKept.refl _ s) (fun _ _ _ => namesKept_below_top_trans) _ ihS
    have hallE : ∀ (l : List Expression) (s s' : Interpreter),
        executeAll (executeExpression p fuel) l s = ok s' → ∀ k, NamesKept k s s' :=
      executeAll_rel (fun s s' => ∀ k, NamesKept k s s')
        (fun s k => NamesKept.refl k s) (fun _ _ _ h1 h2 k => (h1 k).trans (h2 k)) _ ihE
    constructor
    · intro n s v s' h
      cases n with
      | base => simp only [executeStatement] at h; cases h; exact NamesKept.refl _ _
      | Block b =>
        simp only [executeStatement] at h
        split at h
        · rename_i s1 h1
          cases h
          exact hallS _ _ _ h1
        · cases h
        · cases h
      | ScopeNode body =>
        simp only [executeStatement] at h
        split at h
        · rename_i s1 h1
          cases h
          exact hallS _ _ _ h1
        · cases h
        · cases h
      | FunctionDeclaration id params body =>
        simp only [executeStatement] at h
        split at h
        · cases h
        · rename_i s1 h1
          cases h
          exact namesKept_of_declareVariable h1
      | ExpressionStatement e =>
        simp only [executeStatement] at h
        exact ihE _ _ _ _ h _
      | VariableDeclaration k decls =>
        cases decls with
        | nil => simp only [executeStatement] at h; cases h
        | cons dec rest =>
          simp only [executeStatement] at h
          split at h
          · split at h
            · rename_i value s1 h1
              split at h
              · cases h
              · rename_i s2 h2
                cases h
                have hE := ihE _ _ _ _ h1 (s.m_stackFrames.length - 1)
                have hD := namesKept_of_declareVariable h2
                rw [hE.1] at hD
                exact hE.trans hD
            · cases h
            · cases h
          · cases h
      | ReturnStatement e =>
        simp only [executeStatement] at h
        split at h
        · rename_i value s1 h1
          cases h
          exact ihE _ _ _ _ h1 _
        · cases h
        · cases h
      | IfStatement test cons alt =>
        simp only [executeStatement] at h
        split at h
        · rename_i value s1 h1
          have hE := ihE _ _ _ _ h1 (s.m_stackFrames.length - 1)
          split at h
          · cases h
          · have hS := ihS _ _ _ _ h
            rw [hE.1] at hS
            exact hE.trans hS
          · split at h
            · have hS := ihS _ _ _ _ h
              rw [hE.1] at hS
              exact hE.trans hS
            · cases h; exact hE
        · cases h
        · cases h
    · intro e s v s' h k
      cases e with
      | base => simp only [executeExpression] at h; cases h; exact NamesKept.refl _ _
      | Identifier name => simp only [executeExpression] at h; cases h; exact NamesKept.refl _ _
      | Literal value => simp only [executeExpression] at h; cases h; exact NamesKept.refl _ _
      | CallExpression callee args =>
        simp only [executeExpression] at h
        split at h
        · rename_i s1 h1
          have hs1 := hallE _ _ _ h1 k
          split at h
          · split at h
            · cases h
            · split at h
              · cases h
              · split at h
                · cases h
                · split at h
                  · rename_i r s3 h3
                    split at h
                    · cases h
                    · rename_i s4 h4
                      cases h
                      exact hs1.trans (namesKept_of_push_pop (ihS _ _ _ _ h3) h4 k)
                  · cases h
                  · cases h
          · cases h
        · cases h
        · cases h
      | BinaryExpression op l r =>
        simp only [executeExpression] at h
        split at h
        · rename_i vl s1 h1
          split at h
          · rename_i vr s2 h2
            split at h
            · cases h
            · cases h
              exact (ihE _ _ _ _ h1 k).trans (ihE _ _ _ _ h2 k)
          · cases h
          · cases h
        · cases h
        · cases h
      | AssignmentExpression op l r =>
        simp only [executeExpression] at h
        split at h
        · split at h
          · split at h
            · rename_i value s1 h1
              split at h
              · cases h
              · rename_i s2 h2
                cases h
                exact (ihE _ _ _ _ h1 k).trans (namesKept_of_setVariable h2 k)
            · cases h
            · cases h
          · cases h
          · cases h
          · split at h
            · cases h
            · split at h
              · rename_i vl vr s1 h1
                split at h
                · cases h
                · split at h
                  · cases h
                  · rename_i s2 h2
                    cases h
                    have hO := executeOperands_rel (fun s s' => ∀ k, NamesKept k s s')
                      (fun _ _ _ h1 h2 k => (h1 k).trans (h2 k)) _ ihE _ _ _ _ _ _ _ h1
                    exact (hO k).trans (namesKept_of_setVariable h2 k)
              · cases h
              · cases h
        · cases h

namespace Interpreter

/-- The method `setVariable` succeeds exactly when `getVariable` finds the name. -/
theorem setVariable_isSome (s : Interpreter) (id : String) (value : Value) :
    (s.setVariable id value).isSome = (s.getVariable id).isSome := by
  rw [getVariable_eq_loop, ← setVariableLoop_isSome _ _ value]
  unfold setVariable
  cases setVariableLoop s.m_stackFrames id value s.m_stackFrames.length <;> rfl

/-- After `setVariable(id, value)` the name resolves to `value`. -/
theorem getVariable_of_setVariable {s s' : Interpreter} {id : String} {value : Value}
    (h : s.setVariable id value = some s') : s'.getVariable id = some value := by
  unfold setVariable at h
  cases hloop : setVariableLoop s.m_stackFrames id value s.m_stackFrames.length with
  | none => rw [hloop] at h; cases h
  | some fs =>
    rw [hloop] at h
    cases h
    obtain ⟨i, frame, _, hfi, _, hall, hfs⟩ := setVariableLoop_eq_some _ _ _ _ _ hloop
    obtain ⟨_, hother, hself, _⟩ := set_frame_effect s i frame id value hfi
    apply ((getVariable_characterisation ⟨fs⟩ id).1 value).2
    refine ⟨i, frame.setVariable id value, ?_, StackFrame.getVariable_setVariable_self _ _ _, ?_⟩
    · simp only [hfs]; exact hself
    · intro j frame' hij hfj
      simp only [hfs] at hfj
      rw [hother j (by omega)] at hfj
      exact hall j frame' hij (lt_length_of_getElem? hfj) hfj

/-- A name that no frame binds stays unbound in a state that binds the same names. -/
theorem unbound_of_namesKept {s s1 : Interpreter} {x : String}
    (hx : ∀ (i : Nat) (frame : StackFrame),
      s.m_stackFrames[i]? = some frame → frame.getVariable x = none)
    (hk : ∀ k, NamesKept k s s1) :
    ∀ (i : Nat) (frame : StackFrame),
      s1.m_stackFrames[i]? = some frame → frame.getVariable x = none := by
  intro i frame hfi
  have hi : i < s.m_stackFrames.length := by
    rw [← (hk 0).1]; exact lt_length_of_getElem? hfi
  have hget : s.m_stackFrames[i]? = some s.m_stackFrames[i] := List.getElem?_eq_getElem hi
  have hb := (hk (i + 1)).2 i _ frame (Nat.lt_succ_self i) hget hfi x
  unfold StackFrame.binds at hb
  rw [hx i _ hget] at hb
  cases hf : frame.getVariable x with
  | none => rfl
  | some w => rw [hf] at hb; cases hb

/-- Assigning a name that no frame binds is the `assert(false)` of `setVariable`. -/
theorem setVariable_unbound {s : Interpreter} {x : String}
    (hx : ∀ (i : Nat) (frame : StackFrame),
      s.m_stackFrames[i]? = some frame → frame.getVariable x = none) (v : Value) :
    s.setVariable x v = none := by
  have hg := (getVariable_characterisation s x).2.2 hx
  have hs := setVariable_isSome s x v
  rw [hg] at hs
  cases hset : s.setVariable x v with
  | none => rfl
  | some s' => rw [hset] at hs; cases hs

end Interpreter

/-- An assignment to a name that no frame binds does not complete. -/
theorem assignment_unbound_not_ok (p : Platform) (s : Interpreter) (x : String)
    (op : AssignmentOperator) (e : Expression)
    (hx : ∀ (i : Nat) (frame : StackFrame),
      s.m_stackFrames[i]? = some frame → frame.getVariable x = none)
    (fuel : Nat) (v : Value) (s' : Interpreter) :
    executeExpression p fuel (.AssignmentExpression op (.Identifier x) e) s ≠ ok (v, s') := by
  intro h
  cases fuel with
  | zero => simp only [executeExpression] at h; cases h
  | succ fuel =>
    simp only [executeExpression] at h
    split at h
    · split at h
      · rename_i value s1 h1
        have hx1 := Interpreter.unbound_of_namesKept hx ((execute_names_aux p fuel).2 _ _ _ _ h1)
        rw [Interpreter.setVariable_unbound hx1] at h
        cases h
      · cases h
      · cases h
    · cases h
    · cases h
    · split at h
      · cases h
      · split at h
        · rename_i vl vr s1 h1
          have hO := executeOperands_rel (fun s s' => ∀ k, Interpreter.NamesKept k s s')
            (fun _ _ _ h1 h2 k => (h1 k).trans (h2 k)) _ (execute_names_aux p fuel).2
            _ _ _ _ _ _ _ h1
          have hx1 := Interpreter.unbound_of_namesKept hx hO
          split at h
          · cases h
          · rw [Interpreter.setVariable_unbound hx1] at h
            cases h
        · cases h
        · cases h

/-- The operands of a compound assignment complete when the right side does. -/
theorem executeOperands_identifier (p : Platform) (fuel : Nat) (b : Bool) (x : String)
    (e : Expression) (s : Interpreter) (v : Value) (s1 : Interpreter)
    (he : executeExpression p fuel e s = ok (v, s1)) :
    ∃ l, executeOperands (executeExpression p fuel) b (.Identifier x) e s = ok (l, v, s1) := by
  cases fuel with
  | zero => simp only [executeExpression] at he; cases he
  | succ fuel =>
    unfold executeOperands
    cases b with
    | true =>
      refine ⟨(s.getVariable x).getD Value.undefined, ?_⟩
      simp only [if_true, executeExpression, he]
    | false =>
      refine ⟨(s1.getVariable x).getD Value.undefined, ?_⟩
      simp only [Bool.false_eq_true, if_false, he, executeExpression]

/-! ## Lemmas: `int32_t` arithmetic and the operators -/

/-- The result of `wrap32` is an `int32_t`. -/
theorem wrap32_range (x : Int) : -2 ^ 31 ≤ wrap32 x ∧ wrap32 x < 2 ^ 31 := by
  unfold wrap32
  constructor <;> omega

/-- The result of `wrap32` differs from its argument by a multiple of `2 ^ 32`. -/
theorem wrap32_congr (x : Int) : (wrap32 x - x) % 2 ^ 32 = 0 := by
  unfold wrap32
  omega

/-- On an `int32_t`, `wrap32` is the identity. -/
theorem wrap32_of_range (x : Int) (h1 : -2 ^ 31 ≤ x) (h2 : x < 2 ^ 31) : wrap32 x = x := by
  unfold wrap32
  omega

/-- Apart from a zero divisor and `INT_MIN / -1`, the truncated quotient is an `int32_t`. -/
theorem tdiv_range (a b : Int) (ha : -2 ^ 31 ≤ a ∧ a < 2 ^ 31) (hb0 : b ≠ 0)
    (hex : ¬ (a = -2 ^ 31 ∧ b = -1)) : -2 ^ 31 ≤ Int.tdiv a b ∧ Int.tdiv a b < 2 ^ 31 := by
  have h1 := Int.natAbs_tdiv a b
  have h2 : a.natAbs / b.natAbs ≤ a.natAbs := Nat.div_le_self _ _
  have h3 : (a.natAbs).div (b.natAbs) = a.natAbs / b.natAbs := rfl
  rw [h3] at h1
  constructor
  · omega
  · by_contra hge
    have hq : (Int.tdiv a b).natAbs = 2 ^ 31 := by omega
    have ha' : a.natAbs = 2 ^ 31 := by omega
    have hb1 : b.natAbs = 1 := by
      rw [hq, ha'] at h1
      by_contra hne
      have hb2 : 2 ≤ b.natAbs := by omega
      have : 2 ^ 31 / b.natAbs ≤ 2 ^ 31 / 2 := Nat.div_le_div_left hb2 (by decide)
      omega
    have haeq : a = -2 ^ 31 := by omega
    rcases Int.natAbs_eq b with hb | hb
    · rw [hb1] at hb
      have : b = 1 := by simpa using hb
      subst this
      rw [Int.tdiv_one] at hge
      omega
    · rw [hb1] at hb
      have : b = -1 := by simpa using hb
      exact hex ⟨haeq, this⟩

/-- The sign of the truncated quotient. -/
theorem tdiv_sign (a b : Int) :
    (0 ≤ a → 0 ≤ b → 0 ≤ Int.tdiv a b) ∧ (0 ≤ a → b ≤ 0 → Int.tdiv a b ≤ 0) ∧
    (a ≤ 0 → 0 ≤ b → Int.tdiv a b ≤ 0) ∧ (a ≤ 0 → b ≤ 0 → 0 ≤ Int.tdiv a b) := by
  refine ⟨Int.tdiv_nonneg, Int.tdiv_nonpos, ?_, ?_⟩
  · intro ha hb
    have h := Int.tdiv_nonneg (a := -a) (b := b) (by omega) hb
    rw [Int.neg_tdiv] at h
    omega
  · intro ha hb
    have h := Int.tdiv_nonneg (a := -a) (b := -b) (by omega) (by omega)
    rw [Int.neg_tdiv_neg] at h
    exact h

/-- An operator tag without evaluation rule reaches `assert(false)`. -/
theorem binaryOperation_unimplemented (p : Platform) (op : BinaryOperator)
    (h : op ∈ unimplementedOperators) (vl vr : Value) : binaryOperation p op vl vr = none := by
  cases op <;> first | rfl | (simp [unimplementedOperators] at h)

/-- One step of `BinaryExpression::execute` once both operands have completed. -/
theorem binaryExpression_step (p : Platform) (op : BinaryOperator) (l r : Expression)
    (s : Interpreter) (fuel : Nat) (vl vr : Value) (s1 s2 : Interpreter)
    (hl : executeExpression p fuel l s = ok (vl, s1))
    (hr : executeExpression p fuel r s1 = ok (vr, s2)) (n : Nat) (hn : fuel + 1 ≤ n) :
    executeExpression p n (.BinaryExpression op l r) s =
      ofOption ((binaryOperation p op vl vr).map fun v => (v, s2)) := by
  obtain ⟨k, rfl⟩ : ∃ k, n = fuel + 1 + k := ⟨n - (fuel + 1), by omega⟩
  have h1 : executeExpression p (fuel + 1) (.BinaryExpression op l r) s =
      ofOption ((binaryOperation p op vl vr).map fun v => (v, s2)) := by
    simp only [executeExpression, hl, hr]
    cases binaryOperation p op vl vr <;> rfl
  rw [executeExpression_mono p _ s (fuel + 1) k, h1]
  rw [h1]
  cases binaryOperation p op vl vr <;> (intro hc; cases hc)

/-- A completed `BinaryExpression` returns what its operator's function returns. -/
theorem binaryExpression_ok (p : Platform) (op : BinaryOperator) (l r : Expression)
    (s : Interpreter) (fuel : Nat) (v : Value) (s' : Interpreter)
    (h : executeExpression p fuel (.BinaryExpression op l r) s = ok (v, s')) :
    ∃ vl vr, binaryOperation p op vl vr = some v := by
  cases fuel with
  | zero => simp only [executeExpression] at h; cases h
  | succ fuel =>
    simp only [executeExpression] at h
    split at h
    · split at h
      · split at h
        · cases h
        · rename_i value hv
          cases h
          exact ⟨_, _, hv⟩
      · cases h
      · cases h
    · cases h
    · cases h

/-- On Values made by the constructors, `multiply` returns a Number or an Int. -/
theorem multiply_constructed (p : Platform) (x y : Value) (hx : Value.Constructed x)
    (hy : Value.Constructed y) :
    (∃ d, multiply p x y = some (Value.ofDouble d)) ∨
    (∃ i, multiply p x y = some (Value.ofInt32 i)) := by
  cases hx <;> cases hy <;> first
    | exact Or.inl ⟨_, rfl⟩
    | exact Or.inr ⟨_, rfl⟩

/-- With a Number on the left, `add` does not fault. -/
theorem add_number_constructed (p : Platform) (d : Double) (z : Value)
    (hz : Value.Constructed z) : ∃ v, add p (Value.ofDouble d) z = some v := by
  cases hz <;> exact ⟨_, rfl⟩

/-- With an Int on the left, `add` does not fault. -/
theorem add_int_constructed (p : Platform) (i : Int) (z : Value)
    (hz : Value.Constructed z) : ∃ v, add p (Value.ofInt32 i) z = some v := by
  cases hz <;> exact ⟨_, rfl⟩

/-- The two declarations of `main` over any three constructed literal Values. -/
theorem declarations_in_sequence_aux (p : Platform) (x y z : Value) (hx : Value.Constructed x)
    (hy : Value.Constructed y) (hz : Value.Constructed z) :
    ∃ (vb va : Value) (frame : StackFrame),
      multiply p x y = some vb ∧ add p vb z = some va ∧
      (∀ fuel, 4 ≤ fuel →
        executeStatement p fuel (twoDeclarations x y z) Interpreter.new =
          ok (Value.undefined, ⟨[frame]⟩)) ∧
      frame.getVariable "b" = some vb ∧ frame.getVariable "a" = some va ∧
      Interpreter.getVariable ⟨[frame]⟩ "b" = some vb ∧
      Interpreter.getVariable ⟨[frame]⟩ "a" = some va := by
  have hva : ∃ vb va, multiply p x y = some vb ∧ add p vb z = some va := by
    rcases multiply_constructed p x y hx hy with ⟨d, hd⟩ | ⟨i, hi⟩
    · obtain ⟨va, hva⟩ := add_number_constructed p d z hz
      exact ⟨_, va, hd, hva⟩
    · obtain ⟨va, hva⟩ := add_int_constructed p i z hz
      exact ⟨_, va, hi, hva⟩
  obtain ⟨vb, va, hb, ha⟩ := hva
  refine ⟨vb, va, (StackFrame.empty.setVariable "b" vb).setVariable "a" va, hb, ha, ?_,
    rfl, rfl, rfl, rfl⟩
  intro fuel hfuel
  obtain ⟨f, rfl⟩ : ∃ f, fuel = f + 4 := ⟨fuel - 4, by omega⟩
  have hg : Interpreter.getVariable ⟨[StackFrame.empty.setVariable "b" vb]⟩ "b" = some vb := rfl
  have hd1 : Interpreter.declareVariable Interpreter.new "b" vb =
      some ⟨[StackFrame.empty.setVariable "b" vb]⟩ := rfl
  have hd2 : Interpreter.declareVariable ⟨[StackFrame.empty.setVariable "b" vb]⟩ "a" va =
      some ⟨[(StackFrame.empty.setVariable "b" vb).setVariable "a" va]⟩ := rfl
  simp only [twoDeclarations, executeStatement, executeAll, executeExpression,
    binaryOperation, VariableDeclarator.m_id, VariableDeclarator.m_init, hb, ha, hg, hd1, hd2,
    Option.getD_some]

/-! ## Lemmas: calls and assignments -/

/-- Argument lists of Literal nodes complete and leave the state as it is. -/
theorem executeAll_literals (p : Platform) (fuel : Nat) (s : Interpreter) :
    ∀ args : List Expression, (∀ a ∈ args, ∃ v, a = Expression.Literal v) →
      executeAll (executeExpression p (fuel + 1)) args s = ok s := by
  intro args
  induction args with
  | nil => intro _; rfl
  | cons a rest ih =>
    intro h
    obtain ⟨v, rfl⟩ := h a (List.mem_cons_self _ _)
    simp only [executeAll, executeExpression]
    exact ih (fun b hb => h b (List.mem_cons_of_mem _ hb))

/-- A call whose arguments completed in `s1` and whose callee resolves to a function with a
body is the run of that body in `s1` with a frame pushed, followed by the pop. -/
theorem call_runs_body (p : Platform) (fuel : Nat) (name : String) (args : List Expression)
    (s s1 : Interpreter) (fv : Value) (fn : Function) (body : BlockStatement)
    (hargs : executeAll (executeExpression p fuel) args s = ok s1)
    (hg : s1.getVariable name = some fv) (hf : fv.asFunction = some fn)
    (hb : fn.body = some body) :
    executeExpression p (fuel + 1) (.CallExpression (.Identifier name) args) s =
      match executeStatement p fuel (.Block body) s1.pushStackFrame with
      | ok (v, s3) => ofOption (s3.popStackFrame.map fun s4 => (v, s4))
      | fault => fault
      | outOfFuel => outOfFuel := by
  simp only [executeExpression, hargs, Interpreter.getVariable_pushStackFrame, hg, hf, hb]
  cases executeStatement p fuel (.Block body) s1.pushStackFrame with
  | ok r =>
    obtain ⟨v, s3⟩ := r
    simp only []
    cases s3.popStackFrame <;> rfl
  | fault => rfl
  | outOfFuel => rfl

/-- On a Value made by a constructor, `asFunction` succeeds exactly when `isFunction` holds. -/
theorem asFunction_isSome_constructed (fv : Value) (h : Value.Constructed fv) :
    fv.asFunction.isSome = fv.isFunction := by
  cases h <;> rfl

/-- What a completed call found: an Identifier callee bound to a function with a body. -/
theorem call_ok_inv (p : Platform) (fuel : Nat) (callee : Expression)
    (args : List Expression) (s : Interpreter) (v : Value) (s' : Interpreter)
    (h : executeExpression p (fuel + 1) (.CallExpression callee args) s = ok (v, s')) :
    ∃ (name : String) (s1 : Interpreter) (fv : Value) (fn : Function)
        (body : BlockStatement),
      callee = .Identifier name ∧
      executeAll (executeExpression p fuel) args s = ok s1 ∧
      s1.getVariable name = some fv ∧ fv.asFunction = some fn ∧ fn.body = some body := by
  simp only [executeExpression] at h
  split at h
  · rename_i s1 h1
    split at h
    · rename_i name
      split at h
      · cases h
      · rename_i fv hfv
        split at h
        · cases h
        · rename_i fn hfn
          split at h
          · cases h
          · rename_i body hbody
            rw [Interpreter.getVariable_pushStackFrame] at hfv
            exact ⟨name, s1, fv, fn, body, rfl, h1, hfv, hfn, hbody⟩
    · cases h
  · cases h
  · cases h

/-- A call whose arguments completed faults when its callee is not an Identifier, or is
unbound, or is bound to a Value that holds no function. -/
theorem call_faults_aux (p : Platform) (fuel : Nat) (callee : Expression)
    (args : List Expression) (s s1 : Interpreter)
    (hargs : executeAll (executeExpression p fuel) args s = ok s1)
    (hbad : (∀ name, callee ≠ .Identifier name) ∨
      ∃ name, callee = .Identifier name ∧
        (s1.getVariable name = none ∨
          ∃ fv, s1.getVariable name = some fv ∧ fv.asFunction = none)) :
    executeExpression p (fuel + 1) (.CallExpression callee args) s = fault := by
  rcases hbad with hshape | ⟨name, rfl, hname⟩
  · cases callee with
    | Identifier name => exact absurd rfl (hshape name)
    | base => simp only [executeExpression, hargs]
    | Literal _ => simp only [executeExpression, hargs]
    | CallExpression _ _ => simp only [executeExpression, hargs]
    | BinaryExpression _ _ _ => simp only [executeExpression, hargs]
    | AssignmentExpression _ _ _ => simp only [executeExpression, hargs]
  · rcases hname with hnone | ⟨fv, hfv, hfn⟩
    · simp only [executeExpression, hargs, Interpreter.getVariable_pushStackFrame, hnone]
    · simp only [executeExpression, hargs, Interpreter.getVariable_pushStackFrame, hfv, hfn]

/-- A completed AssignmentExpression returns `{}`. -/
theorem assignment_result_aux (p : Platform) (fuel : Nat) (op : AssignmentOperator)
    (left e : Expression) (s : Interpreter) (v : Value) (s' : Interpreter)
    (h : executeExpression p fuel (.AssignmentExpression op left e) s = ok (v, s')) :
    v = Value.undefined := by
  cases fuel with
  | zero => simp only [executeExpression] at h; cases h
  | succ fuel =>
    simp only [executeExpression] at h
    split at h
    · split at h
      · split at h
        · split at h
          · cases h
          · cases h; rfl
        · cases h
        · cases h
      · cases h
      · cases h
      · split at h
        · cases h
        · split at h
          · split at h
            · cases h
            · split at h
              · cases h
              · cases h; rfl
          · cases h
          · cases h
    · cases h

namespace Interpreter

/-- The loop of `setVariable` below a frame that was appended. -/
theorem setVariableLoop_append (frames : List StackFrame) (top : StackFrame) (id : String)
    (value : Value) :
    ∀ n, n ≤ frames.length →
      setVariableLoop (frames ++ [top]) id value n =
        (setVariableLoop frames id value n).map fun fs => fs ++ [top] := by
  intro n
  induction n with
  | zero => intro _; rfl
  | succ n ih =>
    intro hn
    have hlt : n < frames.length := hn
    have hget : frames[n]? = some frames[n] := List.getElem?_eq_getElem hlt
    rw [setVariableLoop, setVariableLoop, List.getElem?_append_left hlt, hget]
    simp only []
    by_cases hb : (frames[n].getVariable id).isSome = true
    · rw [if_pos hb, if_pos hb, List.set_append_left _ _ hlt]
      rfl
    · rw [if_neg hb, if_neg hb]
      exact ih (Nat.le_of_lt hlt)

/-- An assignment made in a freshly pushed frame writes the caller's frames. -/
theorem setVariable_pushStackFrame (s : Interpreter) (id : String) (value : Value) :
    s.pushStackFrame.setVariable id value =
      (s.setVariable id value).map pushStackFrame := by
  unfold setVariable pushStackFrame
  simp only [List.length_append, List.length_singleton]
  rw [setVariableLoop]
  simp only [List.getElem?_concat_length]
  have he : (StackFrame.empty.getVariable id).isSome = false := rfl
  rw [he]
  simp only [Bool.false_eq_true, if_false]
  rw [setVariableLoop_append _ _ _ _ _ (Nat.le_refl _)]
  cases setVariableLoop s.m_stackFrames id value s.m_stackFrames.length <;> rfl

end Interpreter

/-- With the operands evaluated left to right, a compound assignment is the plain assignment
of the paired binary expression. -/
theorem compound_eq_plain_left_to_right (p : Platform) (op : AssignmentOperator)
    (bop : BinaryOperator) (x : String) (e : Expression) (s : Interpreter) (fuel : Nat)
    (hop : pairedOperator op = some bop) :
    executeExpression { p with leftArgumentFirst := true } (fuel + 1)
        (.AssignmentExpression op (.Identifier x) e) s =
      executeExpression { p with leftArgumentFirst := true } (fuel + 2)
        (.AssignmentExpression .Assignment (.Identifier x)
          (.BinaryExpression bop (.Identifier x) e)) s := by
  cases op <;> simp only [pairedOperator] at hop <;> cases hop <;>
  · simp only [executeExpression, executeOperands, compoundOperation, binaryOperation, if_true]
    cases h1 : executeExpression { p with leftArgumentFirst := true } fuel (.Identifier x) s with
    | ok r1 =>
      obtain ⟨l, s1⟩ := r1
      simp only []
      cases h2 : executeExpression { p with leftArgumentFirst := true } fuel e s1 with
      | ok r2 =>
        obtain ⟨r, s2⟩ := r2
        simp only []
        split <;> simp_all
      | fault => rfl
      | outOfFuel => rfl
    | fault => rfl
    | outOfFuel => rfl

/-! ## Lemmas: the conditional statement -/

/-- The outcome of `IfStatement::execute` once the test has completed with `value` in state
`s1`: the run of the consequent when `toBoolean` is true, of the alternate when it is false and
there is one, Undefined in `s1` when there is none. -/
theorem ifStatement_step (p : Platform) (fuel : Nat) (test : Expression) (cons : Statement)
    (alt : Option Statement) (s s1 : Interpreter) (value : Value)
    (htest : executeExpression p fuel test s = ok (value, s1)) :
    executeStatement p (fuel + 1) (.IfStatement test cons alt) s =
      match value.toBoolean with
      | none => fault
      | some true => executeStatement p fuel cons s1
      | some false =>
        match alt with
        | some alternate => executeStatement p fuel alternate s1
        | none => ok (Value.undefined, s1) := by
  cases htb : value.toBoolean with
  | none => simp only [executeStatement, htest, htb]
  | some b => cases b <;> cases alt <;> simp only [executeStatement, htest, htb]

/-- A completed IfStatement: its test completed and `toBoolean` of the test value chose the
branch that gave the result. -/
theorem ifStatement_ok_inv (p : Platform) (fuel : Nat) (test : Expression) (cons : Statement)
    (alt : Option Statement) (s s' : Interpreter) (v : Value)
    (h : executeStatement p (fuel + 1) (.IfStatement test cons alt) s = ok (v, s')) :
    ∃ (value : Value) (s1 : Interpreter) (b : Bool),
      executeExpression p fuel test s = ok (value, s1) ∧ value.toBoolean = some b ∧
      (b = true → executeStatement p fuel cons s1 = ok (v, s')) ∧
      (b = false → ∀ alternate, alt = some alternate →
        executeStatement p fuel alternate s1 = ok (v, s')) ∧
      (b = false → alt = none → v = Value.undefined ∧ s' = s1) := by
  cases htest : executeExpression p fuel test s with
  | fault => simp only [executeStatement, htest] at h; cases h
  | outOfFuel => simp only [executeStatement, htest] at h; cases h
  | ok r =>
    obtain ⟨value, s1⟩ := r
    rw [ifStatement_step p fuel test cons alt s s1 value htest] at h
    cases htb : value.toBoolean with
    | none => rw [htb] at h; cases h
    | some b =>
      rw [htb] at h
      refine ⟨value, s1, b, rfl, htb, ?_, ?_, ?_⟩
      · intro hb; subst hb; exact h
      · intro hb alternate ha; subst hb; subst ha; exact h
      · intro hb ha; subst hb; subst ha
        simp only [Completion.ok.injEq, Prod.mk.injEq] at h
        exact ⟨h.1.symm, h.2.symm⟩

/-! ## The claims -/

/-- Claim C1, against the code: in a fresh interpreter the driver's `inc`, whose body is
`return 3 + 1;`, is declared and called. The body's expression evaluates to Int 4, yet the
call yields Undefined, and no amount of fuel makes it yield Int 4. -/
theorem call_result_counterexample :
    executeStatement examplePlatform 1 (.FunctionDeclaration "inc" [] incBody) Interpreter.new =
      ok (Value.undefined, incDeclared) ∧
    executeExpression examplePlatform 2
        (.BinaryExpression .Add (intLiteral 3) (intLiteral 1)) incDeclared.pushStackFrame =
      ok (Value.ofInt32 4, incDeclared.pushStackFrame) ∧
    executeExpression examplePlatform 5 incCall incDeclared = ok (Value.undefined, incDeclared) ∧
    ¬ ∃ fuel s', executeExpression examplePlatform fuel incCall incDeclared =
      ok (Value.ofInt32 4, s') := by
  refine ⟨rfl, rfl, rfl, ?_⟩
  rintro ⟨fuel, s', h⟩
  have h5 : executeExpression examplePlatform 5 incCall incDeclared =
      ok (Value.undefined, incDeclared) := rfl
  rcases Nat.lt_or_ge fuel 5 with hlt | hge
  · have hcases : fuel = 0 ∨ fuel = 1 ∨ fuel = 2 ∨ fuel = 3 ∨ fuel = 4 := by omega
    rcases hcases with rfl | rfl | rfl | rfl | rfl <;> cases h
  · obtain ⟨k, rfl⟩ : ∃ k, fuel = 5 + k := ⟨fuel - 5, by omega⟩
    rw [executeExpression_mono examplePlatform incCall incDeclared 5 k
      (by rw [h5]; intro hc; cases hc), h5] at h
    injection h with h
    injection h with h1 h2
    exact Value.undefined_ne_ofInt32 4 h1

/-- Claim C1, amended: after the FunctionDeclaration of `f` with the body `return e;`, if `e`
evaluates in the pushed call frame to `v` leaving the state `s'`, then the call `f()`
completes for every large enough fuel, its result is Undefined whatever `v` is, its final
state is `s'` with the call frame popped, and the frame count is the one before the call. -/
theorem call_of_return_body_yields_undefined (p : Platform) (s s1 : Interpreter) (f : String)
    (params : List String) (e : Expression) (fuel : Nat) (v : Value) (s' : Interpreter)
    (hdecl : s.declareVariable f
      (Value.ofFunction (.mk f (some (.mk [.ReturnStatement e])))) = some s1)
    (he : executeExpression p fuel e s1.pushStackFrame = ok (v, s')) :
    ∃ s'', s'.popStackFrame = some s'' ∧
      s''.m_stackFrames.length = s.m_stackFrames.length ∧
      ∀ n, fuel + 3 ≤ n →
        executeStatement p n (.FunctionDeclaration f params (.mk [.ReturnStatement e])) s =
          ok (Value.undefined, s1) ∧
        executeExpression p n (.CallExpression (.Identifier f) []) s1 =
          ok (Value.undefined, s'') := by
  have hlen1 := Interpreter.length_of_declareVariable hdecl
  have hlen' := (execute_length_aux p fuel).2 e _ v s' he
  rw [Interpreter.length_pushStackFrame] at hlen'
  have hne : s'.m_stackFrames ≠ [] := by
    intro hnil
    rw [hnil] at hlen'
    simp at hlen'
  have hpop : s'.popStackFrame = some ⟨s'.m_stackFrames.dropLast⟩ := by
    unfold Interpreter.popStackFrame
    cases hs : s'.m_stackFrames with
    | nil => exact absurd hs hne
    | cons a l => simp
  have hs : s.m_stackFrames ≠ [] := by
    intro hnil
    unfold Interpreter.declareVariable at hdecl
    rw [hnil] at hdecl
    simp at hdecl
  have hlook : s1.pushStackFrame.getVariable f =
      some (Value.ofFunction (.mk f (some (.mk [.ReturnStatement e])))) := by
    rw [Interpreter.getVariable_pushStackFrame]
    obtain ⟨s2, _, _, hd, _, _, _, _, _, _, hg, _⟩ :=
      Interpreter.declareVariable_effect s f
        (Value.ofFunction (.mk f (some (.mk [.ReturnStatement e])))) hs
    rw [hdecl] at hd
    cases hd
    exact hg
  refine ⟨⟨s'.m_stackFrames.dropLast⟩, hpop, ?_, ?_⟩
  · simp only [List.length_dropLast]
    omega
  · intro n hn
    obtain ⟨k, rfl⟩ : ∃ k, n = fuel + k + 3 := ⟨n - fuel - 3, by omega⟩
    constructor
    · simp only [executeStatement, hdecl]
    · have he' : executeExpression p (fuel + k) e s1.pushStackFrame = ok (v, s') := by
        rw [executeExpression_mono p e _ fuel k (by rw [he]; intro hc; cases hc), he]
      simp only [executeExpression, executeAll, hlook, Value.asFunction, Value.ofFunction,
        Value.m_valueAsFunction, Variant.getFunction, Function.body, executeStatement,
        BlockStatement.m_body, he', Interpreter.returnFromStackFrame, hpop]

/-- Claim C1, amended, at the driver's `inc`. -/
theorem call_of_return_body_yields_undefined_witness :
    (Interpreter.new.declareVariable "inc"
        (Value.ofFunction (.mk "inc" (some (.mk [.ReturnStatement
          (.BinaryExpression .Add (intLiteral 3) (intLiteral 1))])))) = some incDeclared ∧
      executeExpression examplePlatform 2
        (.BinaryExpression .Add (intLiteral 3) (intLiteral 1)) incDeclared.pushStackFrame =
        ok (Value.ofInt32 4, incDeclared.pushStackFrame)) ∧
    ∃ s'', incDeclared.pushStackFrame.popStackFrame = some s'' ∧
      s''.m_stackFrames.length = Interpreter.new.m_stackFrames.length ∧
      ∀ n, 2 + 3 ≤ n →
        executeStatement examplePlatform n (.FunctionDeclaration "inc" []
          (.mk [.ReturnStatement (.BinaryExpression .Add (intLiteral 3) (intLiteral 1))]))
          Interpreter.new = ok (Value.undefined, incDeclared) ∧
        executeExpression examplePlatform n (.CallExpression (.Identifier "inc") [])
          incDeclared = ok (Value.undefined, s'') :=
  ⟨⟨rfl, rfl⟩,
    call_of_return_body_yields_undefined examplePlatform Interpreter.new incDeclared "inc" []
      (.BinaryExpression .Add (intLiteral 3) (intLiteral 1)) 2 (Value.ofInt32 4)
      incDeclared.pushStackFrame rfl rfl⟩

/-- Claim C2, at the failing input: `add` of a String on the left and an Int on the right
faults, because the both-String test reads the left operand twice and `asString` is then
called on the Int; the same happens for every right operand that is not a String. With two
Strings, or with the String on the right only, `add` concatenates as the claim says. -/
theorem add_string_left_faults (p : Platform) :
    add p (Value.ofString "a") (Value.ofInt32 1) = none ∧
    (∀ (s : String) (i : Int), add p (Value.ofString s) (Value.ofInt32 i) = none) ∧
    (∀ (s : String) (b : Bool), add p (Value.ofString s) (Value.ofBool b) = none) ∧
    (∀ (s : String) (d : Double), add p (Value.ofString s) (Value.ofDouble d) = none) ∧
    (∀ (s : String) (f : Function), add p (Value.ofString s) (Value.ofFunction f) = none) ∧
    (∀ (s : String) (n : Nat), add p (Value.ofString s) (Value.ofBigInt n) = none) ∧
    (∀ s : String, add p (Value.ofString s) Value.undefined = none) ∧
    (∀ s t : String,
      add p (Value.ofString s) (Value.ofString t) = some (Value.ofString (s ++ t))) ∧
    (∀ (i : Int) (s : String),
      add p (Value.ofInt32 i) (Value.ofString s) =
        some (Value.ofString (ToString.toString i ++ s))) ∧
    add p (Value.ofInt32 1) (Value.ofString "a") = some (Value.ofString "1a") :=
  ⟨rfl, fun _ _ => rfl, fun _ _ => rfl, fun _ _ => rfl, fun _ _ => rfl, fun _ _ => rfl,
    fun _ => rfl, fun _ _ => rfl, fun _ _ => rfl, rfl⟩

/-- Claim C3, at the failing input: `asDouble` on an Int Value does not fail, it returns
`0.0`, the content of the default-constructed member `m_valueAsDouble`; so it does on every
Value that is not a Number. The other four accessors fail on a Value of the wrong kind. -/
theorem asDouble_of_int_is_zero :
    ((Value.ofInt32 5).isNumber = false ∧ (Value.ofInt32 5).asDouble = some Double.zero) ∧
    (∀ i : Int, (Value.ofInt32 i).asDouble = some Double.zero) ∧
    (∀ b : Bool, (Value.ofBool b).asDouble = some Double.zero) ∧
    (∀ s : String, (Value.ofString s).asDouble = some Double.zero) ∧
    (∀ f : Function, (Value.ofFunction f).asDouble = some Double.zero) ∧
    (∀ n : Nat, (Value.ofBigInt n).asDouble = some Double.zero) ∧
    Value.undefined.asDouble = some Double.zero ∧
    (∀ d : Double, (Value.ofDouble d).asDouble = some d) ∧
    (∀ i : Int, (Value.ofInt32 i).asInt32 = some i ∧ (Value.ofInt32 i).asBool = none ∧
      (Value.ofInt32 i).asString = none ∧ (Value.ofInt32 i).asFunction = none) ∧
    (∀ b : Bool, (Value.ofBool b).asBool = some b ∧ (Value.ofBool b).asInt32 = none ∧
      (Value.ofBool b).asString = none ∧ (Value.ofBool b).asFunction = none) ∧
    (∀ s : String, (Value.ofString s).asString = some s ∧ (Value.ofString s).asInt32 = none ∧
      (Value.ofString s).asBool = none ∧ (Value.ofString s).asFunction = none) ∧
    (∀ f : Function, (Value.ofFunction f).asFunction = some f ∧
      (Value.ofFunction f).asInt32 = none ∧ (Value.ofFunction f).asBool = none ∧
      (Value.ofFunction f).asString = none) ∧
    (∀ d : Double, (Value.ofDouble d).asInt32 = none ∧ (Value.ofDouble d).asBool = none ∧
      (Value.ofDouble d).asString = none ∧ (Value.ofDouble d).asFunction = none) ∧
    (Value.undefined.asInt32 = none ∧ Value.undefined.asBool = none ∧
      Value.undefined.asString = none ∧ Value.undefined.asFunction = none) :=
  ⟨⟨rfl, rfl⟩, fun _ => rfl, fun _ => rfl, fun _ => rfl, fun _ => rfl, fun _ => rfl, rfl,
    fun _ => rfl, fun _ => ⟨rfl, rfl, rfl, rfl⟩, fun _ => ⟨rfl, rfl, rfl, rfl⟩,
    fun _ => ⟨rfl, rfl, rfl, rfl⟩, fun _ => ⟨rfl, rfl, rfl, rfl⟩,
    fun _ => ⟨rfl, rfl, rfl, rfl⟩, ⟨rfl, rfl, rfl, rfl⟩⟩

/-- Claim C4, at the failing input: `VariableDeclaration::execute` returns inside its loop, so
only the first declarator counts; after `var a = 1, b = 2;` the name `b` is unbound. -/
theorem variableDeclaration_first_declarator_only (p : Platform) :
    (∀ (fuel : Nat) (k : Kind) (dec : VariableDeclarator) (rest : List VariableDeclarator)
        (s : Interpreter),
      executeStatement p fuel (.VariableDeclaration k (dec :: rest)) s =
        executeStatement p fuel (.VariableDeclaration k [dec]) s) ∧
    ∃ s', executeStatement p 2 twoDeclarators Interpreter.new = ok (Value.undefined, s') ∧
      s'.getVariable "a" = some (Value.ofInt32 1) ∧ s'.getVariable "b" = none := by
  constructor
  · intro fuel k dec rest s
    cases fuel with
    | zero => simp only [executeStatement]
    | succ fuel => simp only [executeStatement]
  · exact ⟨_, rfl, rfl, rfl⟩

/-- Claim C5: an `execute` that completes leaves as many frames as it found, for every
statement, expression and declarator node, every state and every fuel; started from a freshly
constructed interpreter it ends with exactly one frame. The one `popStackFrame` of a completed
call is applied to a state with one frame more than the caller's, as the state after the
call's `pushStackFrame` has: it removes the frame the call pushed, never a frame of the
caller, so never the global one. -/
theorem execute_preserves_frame_count (p : Platform) :
    (∀ (fuel : Nat) (n : Statement) (s : Interpreter) (v : Value) (s' : Interpreter),
      executeStatement p fuel n s = ok (v, s') →
        s'.m_stackFrames.length = s.m_stackFrames.length) ∧
    (∀ (fuel : Nat) (n : Expression) (s : Interpreter) (v : Value) (s' : Interpreter),
      executeExpression p fuel n s = ok (v, s') →
        s'.m_stackFrames.length = s.m_stackFrames.length) ∧
    (∀ (fuel : Nat) (n : VariableDeclarator) (s : Interpreter) (v : Value) (s' : Interpreter),
      executeVariableDeclarator p fuel n s = ok (v, s') →
        s'.m_stackFrames.length = s.m_stackFrames.length) ∧
    (∀ (fuel : Nat) (n : Statement) (v : Value) (s' : Interpreter),
      executeStatement p fuel n Interpreter.new = ok (v, s') →
        s'.m_stackFrames.length = 1) ∧
    (∀ (fuel : Nat) (n : Expression) (v : Value) (s' : Interpreter),
      executeExpression p fuel n Interpreter.new = ok (v, s') →
        s'.m_stackFrames.length = 1) ∧
    (∀ (fuel : Nat) (callee : Expression) (args : List Expression) (s : Interpreter)
        (v : Value) (s' : Interpreter),
      executeExpression p (fuel + 1) (.CallExpression callee args) s = ok (v, s') →
        ∃ (s1 : Interpreter) (body : BlockStatement) (s3 : Interpreter),
          executeAll (executeExpression p fuel) args s = ok s1 ∧
          executeStatement p fuel (.Block body) s1.pushStackFrame = ok (v, s3) ∧
          s3.popStackFrame = some s' ∧
          s1.pushStackFrame.m_stackFrames.length = s.m_stackFrames.length + 1 ∧
          s3.m_stackFrames.length = s.m_stackFrames.length + 1) :=
  ⟨fun fuel => (execute_length_aux p fuel).1, fun fuel => (execute_length_aux p fuel).2,
    fun fuel n s v s' h => (execute_length_aux p fuel).2 n.m_init s v s' h,
    fun fuel n v s' h => (execute_length_aux p fuel).1 n Interpreter.new v s' h,
    fun fuel n v s' h => (execute_length_aux p fuel).2 n Interpreter.new v s' h,
    fun fuel callee args s v s' h => call_pops_pushed_frame p fuel callee args s v s' h⟩

/-- Claim C5 at the driver's program: `main` completes and leaves one frame. -/
theorem execute_preserves_frame_count_witness :
    executeStatement examplePlatform 7 mainProgram Interpreter.new =
      ok (Value.undefined, mainFinalState) ∧
    mainFinalState.m_stackFrames.length = 1 :=
  ⟨rfl, (execute_preserves_frame_count examplePlatform).2.2.2.1 7 mainProgram Value.undefined
    mainFinalState rfl⟩

/-- Claim C6, at the failing inputs: on two Booleans `add`, `subtract` and `multiply` compute
the numeric combination into a temporary, drop it for want of a `return`, and return NaN. -/
theorem boolean_arithmetic_is_nan (p : Platform) :
    (∀ a b : Bool,
      add p (Value.ofBool a) (Value.ofBool b) = some (Value.ofDouble Double.NAN) ∧
      subtract p (Value.ofBool a) (Value.ofBool b) = some (Value.ofDouble Double.NAN) ∧
      multiply p (Value.ofBool a) (Value.ofBool b) = some (Value.ofDouble Double.NAN)) ∧
    add p (Value.ofBool true) (Value.ofBool true) ≠ some (Value.ofInt32 2) ∧
    subtract p (Value.ofBool true) (Value.ofBool false) ≠ some (Value.ofInt32 1) := by
  refine ⟨fun _ _ => ⟨rfl, rfl, rfl⟩, ?_, ?_⟩
  · intro h
    have := congrArg (Option.map Value.m_type) h
    cases this
  · intro h
    have := congrArg (Option.map Value.m_type) h
    cases this

/-- Claim C7, at the failing input: `greaterThan(true, false)` is Undefined, not Boolean
true. The Boolean test calls `asBool` on both operands instead of `isBoolean`, so it passes
only when both are `true`. -/
theorem greaterThan_boolean_undefined (p : Platform) :
    greaterThan p (Value.ofBool true) (Value.ofBool false) = some Value.undefined ∧
    (∀ b : Bool, greaterThan p (Value.ofBool false) (Value.ofBool b) = some Value.undefined) ∧
    greaterThan p (Value.ofBool true) (Value.ofBool true) = some (Value.ofBool false) ∧
    Value.undefined.isBoolean = false :=
  ⟨rfl, fun _ => rfl, rfl, rfl⟩

namespace Interpreter

/-- Claim C8: if some frame binds `name`, `setVariable(name, v)` succeeds and replaces the
binding of `name` in the highest-index such frame: the frame count, every other frame, every
other binding of that frame and the bound names of every frame are unchanged, and
`getVariable(name)` is `v` afterwards. If no frame binds `name` it faults. It succeeds
exactly when `getVariable(name)` is present. -/
theorem setVariable_innermost_binding (s : Interpreter) (name : String) (v : Value) :
    ((∃ (i : Nat) (frame : StackFrame),
        s.m_stackFrames[i]? = some frame ∧ (frame.getVariable name).isSome = true) →
      ∃ (i : Nat) (frame : StackFrame) (s' : Interpreter),
        s.m_stackFrames[i]? = some frame ∧ (frame.getVariable name).isSome = true ∧
        (∀ (j : Nat) (frame' : StackFrame), i < j → s.m_stackFrames[j]? = some frame' →
          frame'.getVariable name = none) ∧
        s.setVariable name v = some s' ∧
        s'.m_stackFrames.length = s.m_stackFrames.length ∧
        (∀ j : Nat, j ≠ i → s'.m_stackFrames[j]? = s.m_stackFrames[j]?) ∧
        (∃ frame' : StackFrame,
          s'.m_stackFrames[i]? = some frame' ∧ frame'.getVariable name = some v ∧
          ∀ m, m ≠ name → frame'.getVariable m = frame.getVariable m) ∧
        (∀ (j : Nat) (fj fj' : StackFrame) (m : String),
          s.m_stackFrames[j]? = some fj → s'.m_stackFrames[j]? = some fj' →
          (fj'.getVariable m).isSome = (fj.getVariable m).isSome) ∧
        s'.getVariable name = some v ∧
        (∀ m, m ≠ name → s'.getVariable m = s.getVariable m)) ∧
    ((∀ (i : Nat) (frame : StackFrame),
        s.m_stackFrames[i]? = some frame → frame.getVariable name = none) →
      s.setVariable name v = none) ∧
    ((s.setVariable name v).isSome = (s.getVariable name).isSome) := by
  have hiff : (s.setVariable name v).isSome = (s.getVariable name).isSome := by
    rw [getVariable_eq_loop, ← setVariableLoop_isSome _ _ v]
    unfold setVariable
    cases setVariableLoop s.m_stackFrames name v s.m_stackFrames.length <;> rfl
  refine ⟨?_, ?_, hiff⟩
  · rintro ⟨i0, frame0, hf0, hb0⟩
    have hget : (s.getVariable name).isSome = true := by
      cases hg : s.getVariable name with
      | some w => rfl
      | none =>
        have := ((getVariable_characterisation s name).2.1 hg) i0 frame0 hf0
        rw [this] at hb0; cases hb0
    rw [← hiff] at hget
    unfold setVariable at hget
    cases hloop : setVariableLoop s.m_stackFrames name v s.m_stackFrames.length with
    | none => rw [hloop] at hget; cases hget
    | some fs =>
      obtain ⟨i, frame, _, hfi, hfb, hall, hfs⟩ := setVariableLoop_eq_some _ _ _ _ _ hloop
      obtain ⟨hlen, hother, hself, hlook⟩ := set_frame_effect s i frame name v hfi
      have hall' : ∀ (j : Nat) (frame' : StackFrame),
          i < j → s.m_stackFrames[j]? = some frame' →
          frame'.getVariable name = none :=
        fun j frame' hij hfj => hall j frame' hij (lt_length_of_getElem? hfj) hfj
      refine ⟨i, frame, ⟨fs⟩, hfi, hfb, hall', ?_, ?_, ?_, ?_, ?_, ?_, ?_⟩
      · unfold setVariable; rw [hloop]; rfl
      · rw [hfs]; exact hlen
      · intro j hj; simp only [hfs]; exact hother j hj
      · refine ⟨frame.setVariable name v, ?_, StackFrame.getVariable_setVariable_self _ _ _,
          fun m hm => StackFrame.getVariable_setVariable_of_ne _ _ _ _ hm⟩
        simp only [hfs]; exact hself
      · intro j fj fj' m hfj hfj'
        simp only [hfs] at hfj'
        by_cases hji : j = i
        · subst hji
          rw [hself] at hfj'; cases hfj'
          rw [hfi] at hfj; cases hfj
          by_cases hm : m = name
          · subst hm
            rw [StackFrame.getVariable_setVariable_self, hfb]; rfl
          · rw [StackFrame.getVariable_setVariable_of_ne _ _ _ _ hm]
        · rw [hother j hji, hfj] at hfj'
          cases hfj'; rfl
      · apply ((getVariable_characterisation ⟨fs⟩ name).1 v).2
        refine ⟨i, frame.setVariable name v, ?_, StackFrame.getVariable_setVariable_self _ _ _, ?_⟩
        · simp only [hfs]; exact hself
        · intro j frame' hij hfj
          simp only [hfs] at hfj
          rw [hother j (by omega)] at hfj
          exact hall' j frame' hij hfj
      · intro m hm; simp only [hfs]; exact hlook m hm
  · intro h
    have hg := (getVariable_characterisation s name).2.2 h
    rw [hg] at hiff
    cases hs : s.setVariable name v with
    | none => rfl
    | some s' => rw [hs] at hiff; cases hiff

/-- Claim C8 at `twoFrames`: assigning `x` changes the call frame's binding only. -/
theorem setVariable_innermost_binding_witness :
    (∃ (i : Nat) (frame : StackFrame),
      twoFrames.m_stackFrames[i]? = some frame ∧ (frame.getVariable "x").isSome = true) ∧
    ∃ s', twoFrames.setVariable "x" (Value.ofInt32 5) = some s' ∧
      s'.getVariable "x" = some (Value.ofInt32 5) ∧
      s'.getVariable "y" = twoFrames.getVariable "y" := by
  have hyp : ∃ (i : Nat) (frame : StackFrame),
      twoFrames.m_stackFrames[i]? = some frame ∧ (frame.getVariable "x").isSome = true :=
    ⟨1, _, rfl, rfl⟩
  obtain ⟨_, _, s', _, _, _, hset, _, _, _, _, hget, hother⟩ :=
    (setVariable_innermost_binding twoFrames "x" (Value.ofInt32 5)).1 hyp
  exact ⟨hyp, s', hset, hget, hother "y" (by decide)⟩

/-- Claim C9: `getVariable(name)` returns the value bound to `name` in the highest-index frame
that binds `name`, and is absent exactly when no frame binds `name`. The method only reads
the frames, so its embedding has no resulting state. -/
theorem getVariable_innermost_binding (s : Interpreter) (name : String) :
    (∀ v, s.getVariable name = some v ↔
      ∃ (i : Nat) (frame : StackFrame),
        s.m_stackFrames[i]? = some frame ∧ frame.getVariable name = some v ∧
        ∀ (j : Nat) (frame' : StackFrame), i < j → s.m_stackFrames[j]? = some frame' →
          frame'.getVariable name = none) ∧
    (s.getVariable name = none ↔
      ∀ (i : Nat) (frame : StackFrame),
        s.m_stackFrames[i]? = some frame → frame.getVariable name = none) :=
  getVariable_characterisation s name

/-- Claim C9 at `twoFrames`: `x` resolves to the call frame's binding, not the global one. -/
theorem getVariable_innermost_binding_witness :
    twoFrames.getVariable "x" = some (Value.ofInt32 2) :=
  ((getVariable_innermost_binding twoFrames "x").1 (Value.ofInt32 2)).2
    ⟨1, StackFrame.empty.setVariable "x" (Value.ofInt32 2), rfl, rfl,
      fun j frame' hij hfj => by
        have := lt_length_of_getElem? hfj
        simp [twoFrames] at this
        omega⟩

/-- Claim C10: with at least one frame, `declareVariable(name, v)` succeeds and binds `name`
to `v` in the topmost frame only: the frame count, every lower frame and every other binding
of the topmost frame are unchanged; afterwards `getVariable(name)` is `v`, even if an outer
frame binds `name`, and `getVariable(m)` is unchanged for every other name `m`. -/
theorem declareVariable_topmost (s : Interpreter) (name : String) (v : Value)
    (h : s.m_stackFrames ≠ []) :
    ∃ (s' : Interpreter) (top top' : StackFrame),
      s.declareVariable name v = some s' ∧
      s.m_stackFrames[s.m_stackFrames.length - 1]? = some top ∧
      s'.m_stackFrames[s.m_stackFrames.length - 1]? = some top' ∧
      s'.m_stackFrames.length = s.m_stackFrames.length ∧
      (∀ j : Nat, j ≠ s.m_stackFrames.length - 1 →
        s'.m_stackFrames[j]? = s.m_stackFrames[j]?) ∧
      top'.getVariable name = some v ∧
      (∀ m, m ≠ name → top'.getVariable m = top.getVariable m) ∧
      s'.getVariable name = some v ∧
      (∀ m, m ≠ name → s'.getVariable m = s.getVariable m) :=
  declareVariable_effect s name v h

/-- Claim C10 at `twoFrames`: declaring `y` in the call frame hides the global `y`. -/
theorem declareVariable_topmost_witness :
    twoFrames.m_stackFrames ≠ [] ∧
    ∃ s', twoFrames.declareVariable "y" (Value.ofInt32 5) = some s' ∧
      s'.m_stackFrames.length = twoFrames.m_stackFrames.length ∧
      s'.getVariable "y" = some (Value.ofInt32 5) ∧
      s'.getVariable "x" = twoFrames.getVariable "x" := by
  have hyp : twoFrames.m_stackFrames ≠ [] := by simp [twoFrames]
  obtain ⟨s', _, _, hdecl, _, _, hlen, _, _, _, hget, hother⟩ :=
    declareVariable_topmost twoFrames "y" (Value.ofInt32 5) hyp
  exact ⟨hyp, s', hdecl, hlen, hget, hother "x" (by decide)⟩

end Interpreter

/-- Claim C11: for every state, `pushStackFrame`, then `declareVariable(name, v)`, then
`popStackFrame` succeed and give back the state they started from; inside the frame `name`
resolves to `v`, and after the pop `getVariable(name)` is what it was before the push. -/
theorem frame_isolation (s : Interpreter) (name : String) (v : Value) :
    ∃ s1, s.pushStackFrame.declareVariable name v = some s1 ∧
      s1.getVariable name = some v ∧
      s1.popStackFrame = some s ∧
      ∀ s2, s1.popStackFrame = some s2 → s2 = s ∧ s2.getVariable name = s.getVariable name := by
  refine ⟨⟨s.m_stackFrames ++ [StackFrame.empty.setVariable name v]⟩, ?_, ?_, ?_, ?_⟩
  · unfold Interpreter.declareVariable Interpreter.pushStackFrame
    simp
  · rw [Interpreter.getVariable_eq_loop]
    simp only [List.length_append, List.length_singleton]
    rw [Interpreter.getVariableLoop]
    simp only [List.getElem?_concat_length, StackFrame.getVariable_setVariable_self]
  · unfold Interpreter.popStackFrame
    simp
  · intro s2 h
    unfold Interpreter.popStackFrame at h
    simp at h
    subst h
    exact ⟨rfl, rfl⟩

/-- Claim C11 at `twoFrames`: a `y` declared in a pushed frame is seen there, and the state
after the pop is `twoFrames` again, where `y` is the global Int 7. -/
theorem frame_isolation_witness :
    ∃ s1, twoFrames.pushStackFrame.declareVariable "y" (Value.ofInt32 5) = some s1 ∧
      s1.getVariable "y" = some (Value.ofInt32 5) ∧
      s1.popStackFrame = some twoFrames ∧
      twoFrames.getVariable "y" = some (Value.ofInt32 7) := by
  obtain ⟨s1, hdecl, hget, hpop, _⟩ := frame_isolation twoFrames "y" (Value.ofInt32 5)
  exact ⟨s1, hdecl, hget, hpop, rfl⟩

/-- Claim C12: executing `Identifier(name)` completes, for every fuel but zero, without changing
the state: with Undefined when no frame binds `name`, with `getVariable(name)` when one
does. -/
theorem identifier_reads_binding (p : Platform) (s : Interpreter) (name : String) :
    ((∀ (i : Nat) (frame : StackFrame),
        s.m_stackFrames[i]? = some frame → frame.getVariable name = none) →
      ∀ fuel, executeExpression p (fuel + 1) (.Identifier name) s = ok (Value.undefined, s)) ∧
    (∀ v, s.getVariable name = some v →
      ∀ fuel, executeExpression p (fuel + 1) (.Identifier name) s = ok (v, s)) := by
  constructor
  · intro h fuel
    have hg := (Interpreter.getVariable_characterisation s name).2.2 h
    simp only [executeExpression, hg, Option.getD_none]
  · intro v hg fuel
    simp only [executeExpression, hg, Option.getD_some]

/-- Claim C12 at `twoFrames`: `z` is unbound and reads as Undefined, `x` reads as Int 2. -/
theorem identifier_reads_binding_witness :
    (∀ (i : Nat) (frame : StackFrame),
      twoFrames.m_stackFrames[i]? = some frame → frame.getVariable "z" = none) ∧
    executeExpression examplePlatform 1 (.Identifier "z") twoFrames =
      ok (Value.undefined, twoFrames) ∧
    twoFrames.getVariable "x" = some (Value.ofInt32 2) ∧
    executeExpression examplePlatform 1 (.Identifier "x") twoFrames =
      ok (Value.ofInt32 2, twoFrames) := by
  have hyp : ∀ (i : Nat) (frame : StackFrame),
      twoFrames.m_stackFrames[i]? = some frame → frame.getVariable "z" = none := by
    intro i frame h
    match i with
    | 0 =>
      simp only [twoFrames, List.getElem?_cons_zero, Option.some.injEq] at h
      subst h
      rfl
    | 1 =>
      simp only [twoFrames, List.getElem?_cons_succ, List.getElem?_cons_zero,
        Option.some.injEq] at h
      subst h
      rfl
    | i + 2 => simp [twoFrames] at h
  exact ⟨hyp, (identifier_reads_binding examplePlatform twoFrames "z").1 hyp 0, rfl,
    (identifier_reads_binding examplePlatform twoFrames "x").2 _ rfl 0⟩

/-- Claim C13: if no frame binds `x`, an AssignmentExpression with left side `Identifier x`
never completes, whatever its operator, right side, and fuel; once the right side completes
the assignment faults, for every large enough fuel. A right side that calls functions
declaring `x` makes no difference: their frames are popped before `setVariable` runs. -/
theorem assignment_to_unbound_faults (p : Platform) (s : Interpreter) (x : String)
    (op : AssignmentOperator) (e : Expression)
    (hx : ∀ (i : Nat) (frame : StackFrame),
      s.m_stackFrames[i]? = some frame → frame.getVariable x = none) :
    (∀ (fuel : Nat) (v : Value) (s' : Interpreter),
      executeExpression p fuel (.AssignmentExpression op (.Identifier x) e) s ≠ ok (v, s')) ∧
    (∀ (fuel : Nat) (v : Value) (s1 : Interpreter),
      executeExpression p fuel e s = ok (v, s1) →
      ∀ n, fuel + 1 ≤ n →
        executeExpression p n (.AssignmentExpression op (.Identifier x) e) s = fault) := by
  refine ⟨assignment_unbound_not_ok p s x op e hx, ?_⟩
  intro fuel v s1 he n hn
  obtain ⟨k, rfl⟩ : ∃ k, n = fuel + 1 + k := ⟨n - (fuel + 1), by omega⟩
  have hx1 := Interpreter.unbound_of_namesKept hx ((execute_names_aux p fuel).2 _ _ _ _ he)
  have h1 : executeExpression p (fuel + 1) (.AssignmentExpression op (.Identifier x) e) s =
      fault := by
    obtain ⟨l, hO⟩ := executeOperands_identifier p fuel p.leftArgumentFirst x e s v s1 he
    cases op <;>
      simp only [executeExpression, he, hO, compoundOperation,
        Interpreter.setVariable_unbound hx1] <;>
      split <;> rfl
  rw [executeExpression_mono p _ s (fuel + 1) k (by rw [h1]; intro hc; cases hc), h1]

/-- Claim C13 at `x = g()` where `g` declares `x`: the call completes and restores the state,
the assignment faults. -/
theorem assignment_to_unbound_faults_witness :
    (∀ (i : Nat) (frame : StackFrame),
      gDeclared.m_stackFrames[i]? = some frame → frame.getVariable "x" = none) ∧
    executeExpression examplePlatform 4 (.CallExpression (.Identifier "g") []) gDeclared =
      ok (Value.undefined, gDeclared) ∧
    executeExpression examplePlatform 5
      (.AssignmentExpression .Assignment (.Identifier "x")
        (.CallExpression (.Identifier "g") [])) gDeclared = fault := by
  have hyp : ∀ (i : Nat) (frame : StackFrame),
      gDeclared.m_stackFrames[i]? = some frame → frame.getVariable "x" = none := by
    intro i frame h
    cases i with
    | zero =>
      simp only [gDeclared, List.getElem?_cons_zero, Option.some.injEq] at h
      subst h
      rfl
    | succ i => simp [gDeclared] at h
  exact ⟨hyp, rfl,
    (assignment_to_unbound_faults examplePlatform gDeclared "x" .Assignment
      (.CallExpression (.Identifier "g") []) hyp).2 4 _ _ rfl 5 (Nat.le_refl _)⟩

/-- Claim C14: IfStatement evaluates its test once and reads `toBoolean` of the value: when it
is true the statement is the run of the consequent from the state the test left, when it is
false the run of the alternate from that state, or Undefined in that state when there is no
alternate; a completed IfStatement took the branch `toBoolean` chose. In a state where `t`
resolves to Int `n`, `if (a > b) { t *= k }` over Int literals completes for every fuel from 5
on. When `a > b` the final state is that of `setVariable(t, Int (n * k))`, the product reduced
to 32 bits, and `t` resolves to it; when `a <= b` the state is unchanged. With `t` Int 2,
`if (c) { t = 1 } else { t = 7 }` leaves 1 for the literals 3 and `a`, 7 for 0 and Undefined,
and `if ((t *= 2) + 1) { t *= 3 }` leaves 12. -/
theorem if_multiplies_when_greater (p : Platform) (s : Interpreter) (t : String)
    (n k a b : Int) (ht : s.getVariable t = some (Value.ofInt32 n)) :
    (b < a → ∃ s', s.setVariable t (Value.ofInt32 (wrap32 (n * k))) = some s' ∧
      s'.getVariable t = some (Value.ofInt32 (wrap32 (n * k))) ∧
      ∀ fuel, 5 ≤ fuel →
        executeStatement p fuel (ifMultiply t a b k) s = ok (Value.undefined, s')) ∧
    (a ≤ b → ∀ fuel, 5 ≤ fuel →
      executeStatement p fuel (ifMultiply t a b k) s = ok (Value.undefined, s)) ∧
    (∀ (fuel : Nat) (test : Expression) (cons : Statement) (alt : Option Statement)
        (s0 s1 : Interpreter) (value : Value),
      executeExpression p fuel test s0 = ok (value, s1) →
        (value.toBoolean = some true →
          executeStatement p (fuel + 1) (.IfStatement test cons alt) s0 =
            executeStatement p fuel cons s1) ∧
        (value.toBoolean = some false → ∀ alternate, alt = some alternate →
          executeStatement p (fuel + 1) (.IfStatement test cons alt) s0 =
            executeStatement p fuel alternate s1) ∧
        (value.toBoolean = some false → alt = none →
          executeStatement p (fuel + 1) (.IfStatement test cons alt) s0 =
            ok (Value.undefined, s1)) ∧
        (value.toBoolean = none →
          executeStatement p (fuel + 1) (.IfStatement test cons alt) s0 = fault)) ∧
    (∀ (fuel : Nat) (test : Expression) (cons : Statement) (alt : Option Statement)
        (s0 : Interpreter),
      (executeExpression p fuel test s0 = fault →
        executeStatement p (fuel + 1) (.IfStatement test cons alt) s0 = fault) ∧
      (executeExpression p fuel test s0 = outOfFuel →
        executeStatement p (fuel + 1) (.IfStatement test cons alt) s0 = outOfFuel)) ∧
    (∀ (fuel : Nat) (test : Expression) (cons : Statement) (alt : Option Statement)
        (s0 s' : Interpreter) (v : Value),
      executeStatement p fuel (.IfStatement test cons alt) s0 = ok (v, s') →
        ∃ (g : Nat) (value : Value) (s1 : Interpreter) (c : Bool),
          fuel = g + 1 ∧ executeExpression p g test s0 = ok (value, s1) ∧
          value.toBoolean = some c ∧
          (c = true → executeStatement p g cons s1 = ok (v, s')) ∧
          (c = false → ∀ alternate, alt = some alternate →
            executeStatement p g alternate s1 = ok (v, s')) ∧
          (c = false → alt = none → v = Value.undefined ∧ s' = s1)) ∧
    (∃ s', executeStatement p 5 (ifElseAssign "t" (Value.ofInt32 3)) tDeclared =
        ok (Value.undefined, s') ∧ s'.getVariable "t" = some (Value.ofInt32 1)) ∧
    (∃ s', executeStatement p 5 (ifElseAssign "t" (Value.ofInt32 0)) tDeclared =
        ok (Value.undefined, s') ∧ s'.getVariable "t" = some (Value.ofInt32 7)) ∧
    (∃ s', executeStatement p 5 (ifElseAssign "t" (Value.ofString "a")) tDeclared =
        ok (Value.undefined, s') ∧ s'.getVariable "t" = some (Value.ofInt32 1)) ∧
    (∃ s', executeStatement p 5 (ifElseAssign "t" Value.undefined) tDeclared =
        ok (Value.undefined, s') ∧ s'.getVariable "t" = some (Value.ofInt32 7)) ∧
    (∃ s', executeStatement p 5 (ifChangingTest "t") tDeclared = ok (Value.undefined, s') ∧
      s'.getVariable "t" = some (Value.ofInt32 12)) := by
  have hgt : greaterThan p (Value.ofInt32 a) (Value.ofInt32 b) =
      some (Value.ofBool (decide (a > b))) := rfl
  refine ⟨?_, ?_, ?_, ?_, ?_, ⟨_, rfl, rfl⟩, ⟨_, rfl, rfl⟩, ⟨_, rfl, rfl⟩, ⟨_, rfl, rfl⟩, ?_⟩
  · intro hab
    have hsome : (s.setVariable t (Value.ofInt32 (wrap32 (n * k)))).isSome = true := by
      rw [Interpreter.setVariable_isSome, ht]; rfl
    cases hset : s.setVariable t (Value.ofInt32 (wrap32 (n * k))) with
    | none => rw [hset] at hsome; cases hsome
    | some s' =>
      refine ⟨s', rfl, Interpreter.getVariable_of_setVariable hset, ?_⟩
      intro fuel hfuel
      obtain ⟨f, rfl⟩ : ∃ f, fuel = f + 5 := ⟨fuel - 5, by omega⟩
      have hmul : multiply p (Value.ofInt32 n) (Value.ofInt32 k) =
          some (Value.ofInt32 (wrap32 (n * k))) := rfl
      have hdec : decide (a > b) = true := by simpa using hab
      have htb : (Value.ofBool true).toBoolean = some true := rfl
      cases hflag : p.leftArgumentFirst <;>
        simp only [ifMultiply, intLiteral, executeStatement, executeExpression, executeAll,
          executeOperands, binaryOperation, compoundOperation, hgt, hdec, htb, hflag, ht,
          hmul, hset, BlockStatement.m_body, Option.getD_some, if_true, if_false,
          Bool.false_eq_true]
  · intro hab fuel hfuel
    obtain ⟨f, rfl⟩ : ∃ f, fuel = f + 5 := ⟨fuel - 5, by omega⟩
    have hdec : decide (a > b) = false := by simpa using hab
    have htb : (Value.ofBool false).toBoolean = some false := rfl
    simp only [ifMultiply, intLiteral, executeStatement, executeExpression, binaryOperation, hgt,
      hdec, htb]
  · intro fuel test cons alt s0 s1 value htest
    have hstep := ifStatement_step p fuel test cons alt s0 s1 value htest
    refine ⟨?_, ?_, ?_, ?_⟩
    · intro h; rw [hstep, h]
    · intro h alternate ha; rw [hstep, h, ha]
    · intro h ha; rw [hstep, h, ha]
    · intro h; rw [hstep, h]
  · intro fuel test cons alt s0
    constructor
    · intro h; simp only [executeStatement, h]
    · intro h; simp only [executeStatement, h]
  · intro fuel test cons alt s0 s' v h
    cases fuel with
    | zero => simp only [executeStatement] at h; cases h
    | succ g =>
      obtain ⟨value, s1, c, h1, h2, h3, h4, h5⟩ :=
        ifStatement_ok_inv p g test cons alt s0 s' v h
      exact ⟨g, value, s1, c, rfl, h1, h2, h3, h4, h5⟩
  · rcases p with ⟨fadd, fsub, fmul, fdiv, fgt, ts, _ | _⟩ <;> exact ⟨_, rfl, rfl⟩

/-- Claim C14 at the driver's `if (10 > 2) { t *= 2 }` with `t` bound to Int 2: `t` ends as
Int 4. At `if ((t *= 2) + 1) { t *= 3 }` the test leaves `t` Int 4 and has the value NaN,
which is truthy, and the statement is the run of the consequent from that state. -/
theorem if_multiplies_when_greater_witness :
    tDeclared.getVariable "t" = some (Value.ofInt32 2) ∧ (2 : Int) < 10 ∧
    (∃ s', executeStatement examplePlatform 5 (ifMultiply "t" 10 2 2) tDeclared =
        ok (Value.undefined, s') ∧
      s'.getVariable "t" = some (Value.ofInt32 4)) ∧
    executeExpression examplePlatform 4
        (.BinaryExpression .Add
          (.AssignmentExpression .MultiplicationAssignment (.Identifier "t") (intLiteral 2))
          (intLiteral 1)) tDeclared =
      ok (Value.ofDouble Double.NAN,
        ⟨[(StackFrame.empty.setVariable "t" (Value.ofInt32 2)).setVariable "t"
          (Value.ofInt32 4)]⟩) ∧
    (Value.ofDouble Double.NAN).toBoolean = some true ∧
    executeStatement examplePlatform 5 (ifChangingTest "t") tDeclared =
      executeStatement examplePlatform 4
        (.Block (.mk [.ExpressionStatement
          (.AssignmentExpression .MultiplicationAssignment (.Identifier "t") (intLiteral 3))]))
        ⟨[(StackFrame.empty.setVariable "t" (Value.ofInt32 2)).setVariable "t"
          (Value.ofInt32 4)]⟩ := by
  obtain ⟨s', _, hget, hexec⟩ :=
    (if_multiplies_when_greater examplePlatform tDeclared "t" 2 2 10 2 rfl).1 (by decide)
  exact ⟨rfl, by decide, ⟨s', hexec 5 (Nat.le_refl _), hget⟩, rfl, rfl,
    ((if_multiplies_when_greater examplePlatform tDeclared "t" 2 2 10 2 rfl).2.2.1 4
      (.BinaryExpression .Add
        (.AssignmentExpression .MultiplicationAssignment (.Identifier "t") (intLiteral 2))
        (intLiteral 1))
      (.Block (.mk [.ExpressionStatement
        (.AssignmentExpression .MultiplicationAssignment (.Identifier "t") (intLiteral 3))]))
      none tDeclared
      ⟨[(StackFrame.empty.setVariable "t" (Value.ofInt32 2)).setVariable "t"
        (Value.ofInt32 4)]⟩
      (Value.ofDouble Double.NAN) rfl).1 rfl⟩

/-- Claim C15: for all literal Values `x`, `y`, `z` made by the constructors, `b = x * y` then
`a = b + z` run in a fresh interpreter completes for every fuel from 4 on and leaves one
frame, the global one, in which `b` is `multiply(x, y)` and `a` is `add(multiply(x, y), z)`.
For the Int literals 10, 2, 1 these are Int 20 and Int 21; for Number literals they are the
Numbers holding the platform's product and sum. -/
theorem declarations_in_sequence (p : Platform) :
    (∀ x y z : Value, Value.Constructed x → Value.Constructed y → Value.Constructed z →
      ∃ (vb va : Value) (frame : StackFrame),
        multiply p x y = some vb ∧ add p vb z = some va ∧
        (∀ fuel, 4 ≤ fuel →
          executeStatement p fuel (twoDeclarations x y z) Interpreter.new =
            ok (Value.undefined, ⟨[frame]⟩)) ∧
        frame.getVariable "b" = some vb ∧ frame.getVariable "a" = some va ∧
        Interpreter.getVariable ⟨[frame]⟩ "b" = some vb ∧
        Interpreter.getVariable ⟨[frame]⟩ "a" = some va) ∧
    (multiply p (Value.ofInt32 10) (Value.ofInt32 2) = some (Value.ofInt32 20) ∧
      add p (Value.ofInt32 20) (Value.ofInt32 1) = some (Value.ofInt32 21)) ∧
    (∀ d10 d2 d1 : Double,
      multiply p (Value.ofDouble d10) (Value.ofDouble d2) =
        some (Value.ofDouble (p.fmul d10 d2)) ∧
      add p (Value.ofDouble (p.fmul d10 d2)) (Value.ofDouble d1) =
        some (Value.ofDouble (p.fadd (p.fmul d10 d2) d1))) :=
  ⟨fun x y z hx hy hz => declarations_in_sequence_aux p x y z hx hy hz, ⟨rfl, rfl⟩,
    fun _ _ _ => ⟨rfl, rfl⟩⟩

/-- Claim C15 at the driver's Int literals 10, 2 and 1: `b` is Int 20 and `a` is Int 21. -/
theorem declarations_in_sequence_witness :
    (Value.Constructed (Value.ofInt32 10) ∧ Value.Constructed (Value.ofInt32 2) ∧
      Value.Constructed (Value.ofInt32 1)) ∧
    ∃ frame : StackFrame,
      executeStatement examplePlatform 4
        (twoDeclarations (Value.ofInt32 10) (Value.ofInt32 2) (Value.ofInt32 1))
        Interpreter.new = ok (Value.undefined, ⟨[frame]⟩) ∧
      frame.getVariable "b" = some (Value.ofInt32 20) ∧
      frame.getVariable "a" = some (Value.ofInt32 21) := by
  obtain ⟨vb, va, frame, hb, ha, hexec, hfb, hfa, _, _⟩ :=
    (declarations_in_sequence examplePlatform).1 (Value.ofInt32 10) (Value.ofInt32 2)
      (Value.ofInt32 1) (.ofInt32 10) (.ofInt32 2) (.ofInt32 1)
  have hb' : multiply examplePlatform (Value.ofInt32 10) (Value.ofInt32 2) =
      some (Value.ofInt32 20) := rfl
  rw [hb'] at hb
  cases hb
  have ha' : add examplePlatform (Value.ofInt32 20) (Value.ofInt32 1) =
      some (Value.ofInt32 21) := rfl
  rw [ha'] at ha
  cases ha
  exact ⟨⟨.ofInt32 10, .ofInt32 2, .ofInt32 1⟩, frame, hexec 4 (Nat.le_refl _), hfb, hfa⟩

/-- Claim C16: on two Ints `add`, `subtract` and `multiply` return the Int whose payload is the
sum, difference or product reduced by `wrap32`: a Value for which `isInt` holds and `isNumber`
and `isString` do not, with a payload in the `int32_t` range that differs from the exact
result by a multiple of `2 ^ 32`, and equal to it when that is in range. -/
theorem int_arithmetic_wraps (p : Platform) (a b : Int) :
    add p (Value.ofInt32 a) (Value.ofInt32 b) = some (Value.ofInt32 (wrap32 (a + b))) ∧
    subtract p (Value.ofInt32 a) (Value.ofInt32 b) = some (Value.ofInt32 (wrap32 (a - b))) ∧
    multiply p (Value.ofInt32 a) (Value.ofInt32 b) = some (Value.ofInt32 (wrap32 (a * b))) ∧
    (∀ x : Int, (Value.ofInt32 x).isInt = true ∧ (Value.ofInt32 x).isNumber = false ∧
      (Value.ofInt32 x).isString = false ∧ (Value.ofInt32 x).asInt32 = some x) ∧
    (∀ x : Int, -2 ^ 31 ≤ wrap32 x ∧ wrap32 x < 2 ^ 31 ∧ (wrap32 x - x) % 2 ^ 32 = 0) ∧
    (∀ x : Int, -2 ^ 31 ≤ x → x < 2 ^ 31 → wrap32 x = x) ∧
    add p (Value.ofInt32 3) (Value.ofInt32 4) = some (Value.ofInt32 7) :=
  ⟨rfl, rfl, rfl, fun _ => ⟨rfl, rfl, rfl, rfl⟩,
    fun x => ⟨(wrap32_range x).1, (wrap32_range x).2, wrap32_congr x⟩, wrap32_of_range, rfl⟩

/-- Claim C16 at `INT_MAX + 1`, which wraps to `INT_MIN`, and at `10 * 2`. -/
theorem int_arithmetic_wraps_witness :
    add examplePlatform (Value.ofInt32 2147483647) (Value.ofInt32 1) =
      some (Value.ofInt32 (-2147483648)) ∧
    multiply examplePlatform (Value.ofInt32 10) (Value.ofInt32 2) = some (Value.ofInt32 20) :=
  ⟨(int_arithmetic_wraps examplePlatform 2147483647 1).1,
    (int_arithmetic_wraps examplePlatform 10 2).2.2.1⟩

/-- Claim C17: for an `int32_t` `a`, `divide(Int a, Int b)` has no result exactly when `b` is
zero or when `a` is `INT_MIN` and `b` is `-1`; otherwise it returns the Int holding the
quotient truncated toward zero, which is in the `int32_t` range, has the magnitude of
`|a| / |b|` rounded down and the sign of the exact quotient. -/
theorem int_division_truncates (p : Platform) (a b : Int)
    (ha : -2 ^ 31 ≤ a ∧ a < 2 ^ 31) :
    (divide p (Value.ofInt32 a) (Value.ofInt32 b) = none ↔
      b = 0 ∨ (a = -2 ^ 31 ∧ b = -1)) ∧
    (b ≠ 0 → ¬ (a = -2 ^ 31 ∧ b = -1) →
      divide p (Value.ofInt32 a) (Value.ofInt32 b) = some (Value.ofInt32 (Int.tdiv a b)) ∧
      (-2 ^ 31 ≤ Int.tdiv a b ∧ Int.tdiv a b < 2 ^ 31) ∧
      (Int.tdiv a b).natAbs = a.natAbs / b.natAbs ∧
      (0 ≤ a → 0 ≤ b → 0 ≤ Int.tdiv a b) ∧ (0 ≤ a → b ≤ 0 → Int.tdiv a b ≤ 0) ∧
      (a ≤ 0 → 0 ≤ b → Int.tdiv a b ≤ 0) ∧ (a ≤ 0 → b ≤ 0 → 0 ≤ Int.tdiv a b)) ∧
    divide p (Value.ofInt32 7) (Value.ofInt32 2) = some (Value.ofInt32 3) ∧
    divide p (Value.ofInt32 (-7)) (Value.ofInt32 2) = some (Value.ofInt32 (-3)) := by
  have hdiv : divide p (Value.ofInt32 a) (Value.ofInt32 b) =
      (divInt32 a b).map Value.ofInt32 := by
    have hbind : divide p (Value.ofInt32 a) (Value.ofInt32 b) =
        (divInt32 a b).bind fun q => some (Value.ofInt32 q) := rfl
    rw [hbind]
    cases divInt32 a b <;> rfl
  refine ⟨?_, ?_, rfl, rfl⟩
  · rw [hdiv]
    unfold divInt32
    by_cases hb : b = 0
    · simp [hb]
    · by_cases hex : a = -2 ^ 31 ∧ b = -1
      · simp [hex]
      · simp [hb, hex]
  · intro hb hex
    refine ⟨?_, tdiv_range a b ha hb hex, Int.natAbs_tdiv a b, tdiv_sign a b⟩
    rw [hdiv]
    unfold divInt32
    rw [if_neg hb, if_neg hex]
    rfl

/-- Claim C17 at `-7 / 2`, which is `-3`. -/
theorem int_division_truncates_witness :
    ((-2 : Int) ^ 31 ≤ -7 ∧ (-7 : Int) < 2 ^ 31) ∧ (2 : Int) ≠ 0 ∧
    ¬ ((-7 : Int) = -2 ^ 31 ∧ (2 : Int) = -1) ∧
    divide examplePlatform (Value.ofInt32 (-7)) (Value.ofInt32 2) =
      some (Value.ofInt32 (Int.tdiv (-7) 2)) ∧ Int.tdiv (-7) 2 = -3 :=
  ⟨by decide, by decide, by decide,
    ((int_division_truncates examplePlatform (-7) 2 (by decide)).2.1 (by decide)
      (by decide)).1, by decide⟩

/-- Claim C18: a BinaryExpression whose tag is one of the twelve of `unimplementedOperators`
never completes, and faults once both operands have completed; with the tags Add, Subtract,
Multiply, Divide and GreaterThan it returns what `add`, `subtract`, `multiply`, `divide`,
`greaterThan` return on the left and right values, in the state the right operand left, and
faults where they fault. -/
theorem binaryExpression_dispatch (p : Platform) (l r : Expression) (s : Interpreter) :
    (∀ op : BinaryOperator, op ∈ unimplementedOperators →
      (∀ (fuel : Nat) (v : Value) (s' : Interpreter),
        executeExpression p fuel (.BinaryExpression op l r) s ≠ ok (v, s')) ∧
      (∀ (fuel : Nat) (vl vr : Value) (s1 s2 : Interpreter),
        executeExpression p fuel l s = ok (vl, s1) →
        executeExpression p fuel r s1 = ok (vr, s2) →
        ∀ n, fuel + 1 ≤ n → executeExpression p n (.BinaryExpression op l r) s = fault)) ∧
    (∀ (fuel : Nat) (vl vr : Value) (s1 s2 : Interpreter),
      executeExpression p fuel l s = ok (vl, s1) →
      executeExpression p fuel r s1 = ok (vr, s2) →
      ∀ n, fuel + 1 ≤ n →
        executeExpression p n (.BinaryExpression .Add l r) s =
          ofOption ((add p vl vr).map fun v => (v, s2)) ∧
        executeExpression p n (.BinaryExpression .Subtract l r) s =
          ofOption ((subtract p vl vr).map fun v => (v, s2)) ∧
        executeExpression p n (.BinaryExpression .Multiply l r) s =
          ofOption ((multiply p vl vr).map fun v => (v, s2)) ∧
        executeExpression p n (.BinaryExpression .Divide l r) s =
          ofOption ((divide p vl vr).map fun v => (v, s2)) ∧
        executeExpression p n (.BinaryExpression .GreaterThan l r) s =
          ofOption ((greaterThan p vl vr).map fun v => (v, s2))) := by
  constructor
  · intro op hop
    constructor
    · intro fuel v s' h
      obtain ⟨vl, vr, hv⟩ := binaryExpression_ok p op l r s fuel v s' h
      rw [binaryOperation_unimplemented p op hop] at hv
      cases hv
    · intro fuel vl vr s1 s2 hl hr n hn
      rw [binaryExpression_step p op l r s fuel vl vr s1 s2 hl hr n hn,
        binaryOperation_unimplemented p op hop]
      rfl
  · intro fuel vl vr s1 s2 hl hr n hn
    exact ⟨binaryExpression_step p .Add l r s fuel vl vr s1 s2 hl hr n hn,
      binaryExpression_step p .Subtract l r s fuel vl vr s1 s2 hl hr n hn,
      binaryExpression_step p .Multiply l r s fuel vl vr s1 s2 hl hr n hn,
      binaryExpression_step p .Divide l r s fuel vl vr s1 s2 hl hr n hn,
      binaryExpression_step p .GreaterThan l r s fuel vl vr s1 s2 hl hr n hn⟩

/-- Claim C18 at `7 % 2`, which faults, and `7 + 2`, which is Int 9. -/
theorem binaryExpression_dispatch_witness :
    BinaryOperator.Modulo ∈ unimplementedOperators ∧
    executeExpression examplePlatform 1 (intLiteral 7) Interpreter.new =
      ok (Value.ofInt32 7, Interpreter.new) ∧
    executeExpression examplePlatform 1 (intLiteral 2) Interpreter.new =
      ok (Value.ofInt32 2, Interpreter.new) ∧
    executeExpression examplePlatform 2
      (.BinaryExpression .Modulo (intLiteral 7) (intLiteral 2)) Interpreter.new = fault ∧
    executeExpression examplePlatform 2
      (.BinaryExpression .Add (intLiteral 7) (intLiteral 2)) Interpreter.new =
      ok (Value.ofInt32 9, Interpreter.new) :=
  ⟨by decide, rfl, rfl,
    ((binaryExpression_dispatch examplePlatform (intLiteral 7) (intLiteral 2)
      Interpreter.new).1 .Modulo (by decide)).2 1 _ _ _ _ rfl rfl 2 (Nat.le_refl _),
    ((binaryExpression_dispatch examplePlatform (intLiteral 7) (intLiteral 2)
      Interpreter.new).2 1 _ _ _ _ rfl rfl 2 (Nat.le_refl _)).1⟩

/-- Claim C19: on two Values made by the constructors, of which at least one is a String,
`greaterThan` returns no Value: either `asBool` throws on an operand that is not a Boolean, or
the `assert(false)` of the String case is reached. -/
theorem greaterThan_string_faults (p : Platform) (l r : Value)
    (hl : Value.Constructed l) (hr : Value.Constructed r)
    (h : l.isString = true ∨ r.isString = true) : greaterThan p l r = none := by
  cases hl <;> cases hr <;> first
    | rfl
    | (rename_i b _; cases b <;> rfl)
    | (exfalso; rcases h with h | h <;> cases h)

/-- Claim C19 at `"a" > 1` and `false > "a"`. -/
theorem greaterThan_string_faults_witness :
    (Value.Constructed (Value.ofString "a") ∧ Value.Constructed (Value.ofInt32 1) ∧
      ((Value.ofString "a").isString = true ∨ (Value.ofInt32 1).isString = true)) ∧
    greaterThan examplePlatform (Value.ofString "a") (Value.ofInt32 1) = none ∧
    greaterThan examplePlatform (Value.ofBool false) (Value.ofString "a") = none :=
  ⟨⟨.ofString "a", .ofInt32 1, Or.inl rfl⟩,
    greaterThan_string_faults examplePlatform _ _ (.ofString "a") (.ofInt32 1) (Or.inl rfl),
    greaterThan_string_faults examplePlatform _ _ (.ofBool false) (.ofString "a")
      (Or.inr rfl)⟩

/-- Claim C20: on a pair of Values that are not both Number, not both Int and not both Boolean,
`subtract`, `multiply` and `divide` return the Number NaN; so does `add` when, in addition,
neither is a String. -/
theorem nan_fallback (p : Platform) (l r : Value)
    (hn : ¬ (l.isNumber = true ∧ r.isNumber = true))
    (hi : ¬ (l.isInt = true ∧ r.isInt = true))
    (hb : ¬ (l.isBoolean = true ∧ r.isBoolean = true)) :
    subtract p l r = some (Value.ofDouble Double.NAN) ∧
    multiply p l r = some (Value.ofDouble Double.NAN) ∧
    divide p l r = some (Value.ofDouble Double.NAN) ∧
    (l.isString = false → r.isString = false →
      add p l r = some (Value.ofDouble Double.NAN)) := by
  have hn' : (l.isNumber && r.isNumber) = false := by
    cases h1 : l.isNumber <;> cases h2 : r.isNumber <;> simp_all
  have hi' : (l.isInt && r.isInt) = false := by
    cases h1 : l.isInt <;> cases h2 : r.isInt <;> simp_all
  have hb' : (l.isBoolean && r.isBoolean) = false := by
    cases h1 : l.isBoolean <;> cases h2 : r.isBoolean <;> simp_all
  refine ⟨?_, ?_, ?_, ?_⟩
  · simp [subtract, hn', hi', hb']
  · simp [multiply, hn', hi', hb']
  · simp [divide, hn', hi', hb']
  · intro hl hr
    simp [add, hn', hi', hb', hl, hr]

/-- Claim C20 at `1 + 2.0`, `undefined - 1`, `"a" * 2` and `true / 0`. -/
theorem nan_fallback_witness :
    add examplePlatform (Value.ofInt32 1) (Value.ofDouble ⟨0x4000000000000000⟩) =
      some (Value.ofDouble Double.NAN) ∧
    subtract examplePlatform Value.undefined (Value.ofInt32 1) =
      some (Value.ofDouble Double.NAN) ∧
    multiply examplePlatform (Value.ofString "a") (Value.ofInt32 2) =
      some (Value.ofDouble Double.NAN) ∧
    divide examplePlatform (Value.ofBool true) (Value.ofInt32 0) =
      some (Value.ofDouble Double.NAN) :=
  ⟨(nan_fallback examplePlatform (Value.ofInt32 1) (Value.ofDouble ⟨0x4000000000000000⟩)
      (by decide) (by decide) (by decide)).2.2.2 rfl rfl,
    (nan_fallback examplePlatform Value.undefined (Value.ofInt32 1)
      (by decide) (by decide) (by decide)).1,
    (nan_fallback examplePlatform (Value.ofString "a") (Value.ofInt32 2)
      (by decide) (by decide) (by decide)).2.1,
    (nan_fallback examplePlatform (Value.ofBool true) (Value.ofInt32 0)
      (by decide) (by decide) (by decide)).2.2.1⟩

/-- Claim C21: `toBoolean` completes on every Value made by a constructor and on every Value
tagged Object or Null: it is the payload of a Boolean, `length > 0` of a String, `i != 0` of
an Int, `d != 0.0` of a Number (false for both zeros, true for a NaN), true for a Function and
for an Object, false for Undefined, Null and BigInt. -/
theorem toBoolean_by_variant :
    (∀ b : Bool, (Value.ofBool b).toBoolean = some b) ∧
    (∀ s : String, (Value.ofString s).toBoolean = some (decide (s.length > 0))) ∧
    (∀ i : Int, (Value.ofInt32 i).toBoolean = some (decide (i ≠ 0))) ∧
    (∀ d : Double, (Value.ofDouble d).toBoolean = some d.toBool) ∧
    (Double.zero.toBool = false ∧ Double.toBool ⟨2 ^ 63⟩ = false ∧ Double.NAN.toBool = true ∧
      Double.toBool ⟨0x3FF0000000000000⟩ = true) ∧
    (∀ f : Function, (Value.ofFunction f).toBoolean = some true) ∧
    (∀ v : Value, v.m_type = .Object → v.toBoolean = some true) ∧
    Value.undefined.toBoolean = some false ∧
    (∀ v : Value, v.m_type = .Null → v.toBoolean = some false) ∧
    (∀ n : Nat, (Value.ofBigInt n).toBoolean = some false) ∧
    (Value.ofString "").toBoolean = some false ∧
    (Value.ofString "a").toBoolean = some true := by
  refine ⟨fun _ => rfl, fun _ => rfl, fun _ => rfl, fun _ => rfl,
    ⟨by decide, by decide, by decide, by decide⟩, fun _ => rfl, ?_, rfl, ?_, fun _ => rfl,
    rfl, rfl⟩
  · intro v h
    simp [Value.toBoolean, Value.isBoolean, Value.isString, Value.isNumber, Value.isInt,
      Value.isObject, h]
  · intro v h
    simp [Value.toBoolean, Value.isBoolean, Value.isString, Value.isNumber, Value.isInt,
      Value.isObject, Value.isFunction, h]

/-- Claim C21 at a Value tagged Object and at one tagged Null. -/
theorem toBoolean_by_variant_witness :
    objectValue.m_type = .Object ∧ objectValue.toBoolean = some true ∧
    nullValue.m_type = .Null ∧ nullValue.toBoolean = some false :=
  ⟨rfl, toBoolean_by_variant.2.2.2.2.2.2.1 objectValue rfl, rfl,
    toBoolean_by_variant.2.2.2.2.2.2.2.2.1 nullValue rfl⟩

/-- Claim C22: `toString` completes on every Value made by a constructor and on every Value
tagged Null or Object, and is a function of the Value: the string of a String, `true` or
`false` of a Boolean, the decimal numeral of an Int with `-` before a negative one, the text
`function <name>() { [native code] }` of a Function; the fixed texts `undefined`, `null` and
`Type not defined` for Undefined, Null, BigInt and Object. For a Number it is the platform's
`std::to_string`. -/
theorem toString_by_variant (p : Platform) :
    (∀ s : String, (Value.ofString s).toString p = some s) ∧
    ((Value.ofBool true).toString p = some "true" ∧
      (Value.ofBool false).toString p = some "false") ∧
    (∀ n : Nat, (Value.ofInt32 (Int.ofNat n)).toString p = some (Nat.repr n)) ∧
    (∀ n : Nat, (Value.ofInt32 (Int.negSucc n)).toString p = some ("-" ++ Nat.repr (n + 1))) ∧
    ((Value.ofInt32 42).toString p = some "42" ∧ (Value.ofInt32 0).toString p = some "0" ∧
      (Value.ofInt32 (-2147483648)).toString p = some "-2147483648") ∧
    (∀ (name : String) (body : Option BlockStatement),
      (Value.ofFunction (.mk name body)).toString p =
        some ("function " ++ name ++ "() \x7b [native code] \x7d")) ∧
    Value.undefined.toString p = some "undefined" ∧
    (∀ v : Value, v.m_type = .Null → v.toString p = some "null") ∧
    (∀ n : Nat, (Value.ofBigInt n).toString p = some "Type not defined") ∧
    (∀ v : Value, v.m_type = .Object → v.toString p = some "Type not defined") ∧
    (∀ d : Double, (Value.ofDouble d).toString p = some (p.to_string d)) := by
  refine ⟨fun _ => rfl, ⟨rfl, rfl⟩, fun _ => rfl, fun _ => rfl, ⟨rfl, rfl, rfl⟩,
    fun _ _ => rfl, rfl, ?_, fun _ => rfl, ?_, fun _ => rfl⟩
  · intro v h
    simp [Value.toString, Value.isString, Value.isNull, h]
  · intro v h
    simp [Value.toString, Value.isString, Value.isNull, Value.isUndefined, Value.isBoolean,
      Value.isNumber, Value.isInt, Value.isFunction, h]

/-- Claim C22 at a Value tagged Null, at one tagged Object and at the driver's `inc`. -/
theorem toString_by_variant_witness :
    nullValue.m_type = .Null ∧ nullValue.toString examplePlatform = some "null" ∧
    objectValue.m_type = .Object ∧
    objectValue.toString examplePlatform = some "Type not defined" ∧
    (Value.ofFunction (.mk "inc" (some incBody))).toString examplePlatform =
      some "function inc() \x7b [native code] \x7d" :=
  ⟨rfl, (toString_by_variant examplePlatform).2.2.2.2.2.2.2.1 nullValue rfl, rfl,
    (toString_by_variant examplePlatform).2.2.2.2.2.2.2.2.2.1 objectValue rfl,
    (toString_by_variant examplePlatform).2.2.2.2.2.1 "inc" (some incBody)⟩

/-- Claim C23: a CallExpression that completes has an Identifier callee whose name, looked up
in the state the arguments left, resolves to a Value holding a function with a body. If the
arguments complete and the callee is no Identifier, or its name is unbound, or it is bound to
a Value holding no function, then the call faults for every large enough fuel and completes
for none. On a Value made by a constructor, holding a function is `isFunction`. -/
theorem call_needs_function_binding (p : Platform) (callee : Expression)
    (args : List Expression) (s : Interpreter) :
    (∀ (fuel : Nat) (v : Value) (s' : Interpreter),
      executeExpression p fuel (.CallExpression callee args) s = ok (v, s') →
        ∃ (k : Nat) (name : String) (s1 : Interpreter) (fv : Value) (fn : Function)
            (body : BlockStatement),
          fuel = k + 1 ∧ callee = .Identifier name ∧
          executeAll (executeExpression p k) args s = ok s1 ∧
          s1.getVariable name = some fv ∧ fv.asFunction = some fn ∧
          fn.body = some body) ∧
    (∀ (fuel : Nat) (s1 : Interpreter),
      executeAll (executeExpression p fuel) args s = ok s1 →
      ((∀ name, callee ≠ .Identifier name) ∨
        ∃ name, callee = .Identifier name ∧
          (s1.getVariable name = none ∨
            ∃ fv, s1.getVariable name = some fv ∧ fv.asFunction = none)) →
      (∀ n, fuel + 1 ≤ n →
        executeExpression p n (.CallExpression callee args) s = fault) ∧
      ∀ (n : Nat) (v : Value) (s' : Interpreter),
        executeExpression p n (.CallExpression callee args) s ≠ ok (v, s')) ∧
    (∀ fv : Value, Value.Constructed fv → fv.asFunction.isSome = fv.isFunction) := by
  refine ⟨?_, ?_, asFunction_isSome_constructed⟩
  · intro fuel v s' h
    cases fuel with
    | zero => simp only [executeExpression] at h; cases h
    | succ k =>
      obtain ⟨name, s1, fv, fn, body, hc, ha, hg, hf, hb⟩ :=
        call_ok_inv p k callee args s v s' h
      exact ⟨k, name, s1, fv, fn, body, rfl, hc, ha, hg, hf, hb⟩
  · intro fuel s1 hargs hbad
    have hfault := call_faults_aux p fuel callee args s s1 hargs hbad
    have hmono : ∀ n, fuel + 1 ≤ n →
        executeExpression p n (.CallExpression callee args) s = fault := by
      intro n hn
      obtain ⟨k, rfl⟩ : ∃ k, n = fuel + 1 + k := ⟨n - (fuel + 1), by omega⟩
      rw [executeExpression_mono p _ s (fuel + 1) k (by rw [hfault]; intro hc; cases hc),
        hfault]
    refine ⟨hmono, ?_⟩
    intro n v s' hok
    rcases Nat.lt_or_ge n (fuel + 1) with hlt | hge
    · obtain ⟨k, hk⟩ : ∃ k, fuel + 1 = n + k := ⟨fuel + 1 - n, by omega⟩
      have := executeExpression_mono p (.CallExpression callee args) s n k
        (by rw [hok]; intro hc; cases hc)
      rw [← hk, hfault, hok] at this
      cases this
    · rw [hmono n hge] at hok
      cases hok

/-- Claim C23 at `twoFrames`: calling `x`, bound to Int 2, the unbound `nope`, and the literal
`1` all fault. -/
theorem call_needs_function_binding_witness :
    executeAll (executeExpression examplePlatform 1) [] twoFrames = ok twoFrames ∧
    twoFrames.getVariable "x" = some (Value.ofInt32 2) ∧
    (Value.ofInt32 2).asFunction = none ∧
    executeExpression examplePlatform 2 (.CallExpression (.Identifier "x") []) twoFrames =
      fault ∧
    executeExpression examplePlatform 2 (.CallExpression (.Identifier "nope") []) twoFrames =
      fault ∧
    executeExpression examplePlatform 2 (.CallExpression (intLiteral 1) []) twoFrames =
      fault :=
  ⟨rfl, rfl, rfl,
    ((call_needs_function_binding examplePlatform (.Identifier "x") [] twoFrames).2.1 1
      twoFrames rfl (Or.inr ⟨"x", rfl, Or.inr ⟨_, rfl, rfl⟩⟩)).1 2 (Nat.le_refl _),
    ((call_needs_function_binding examplePlatform (.Identifier "nope") [] twoFrames).2.1 1
      twoFrames rfl (Or.inr ⟨"nope", rfl, Or.inl rfl⟩)).1 2 (Nat.le_refl _),
    ((call_needs_function_binding examplePlatform (intLiteral 1) [] twoFrames).2.1 1
      twoFrames rfl (Or.inl (fun name h => by cases h))).1 2 (Nat.le_refl _)⟩

/-- Claim C24: with at least one frame, `FunctionDeclaration(f, ps, B)` completes for every
fuel but zero with result Undefined and the state of `declareVariable(f, F)`, where `F` is
the Function Value of name `f` and body `B`: `isFunction(F)` holds and `toString(F)` is
`function f() { [native code] }`. The parameter list does not matter, the frame count and
every frame but the topmost are unchanged, and in the topmost frame only `f` changes. -/
theorem functionDeclaration_declares (p : Platform) (s : Interpreter) (f : String)
    (ps : List String) (B : BlockStatement) (h : s.m_stackFrames ≠ []) :
    ∃ (s' : Interpreter) (top top' : StackFrame),
      s.declareVariable f (Value.ofFunction (.mk f (some B))) = some s' ∧
      (∀ fuel, executeStatement p (fuel + 1) (.FunctionDeclaration f ps B) s =
        ok (Value.undefined, s')) ∧
      (∀ (fuel : Nat) (ps' : List String),
        executeStatement p fuel (.FunctionDeclaration f ps' B) s =
          executeStatement p fuel (.FunctionDeclaration f ps B) s) ∧
      (Value.ofFunction (.mk f (some B))).isFunction = true ∧
      (Value.ofFunction (.mk f (some B))).toString p =
        some ("function " ++ f ++ "() \x7b [native code] \x7d") ∧
      (Value.ofFunction (.mk f (some B))).asFunction.bind Function.body = some B ∧
      s.m_stackFrames[s.m_stackFrames.length - 1]? = some top ∧
      s'.m_stackFrames[s.m_stackFrames.length - 1]? = some top' ∧
      s'.m_stackFrames.length = s.m_stackFrames.length ∧
      (∀ j : Nat, j ≠ s.m_stackFrames.length - 1 →
        s'.m_stackFrames[j]? = s.m_stackFrames[j]?) ∧
      top'.getVariable f = some (Value.ofFunction (.mk f (some B))) ∧
      (∀ m, m ≠ f → top'.getVariable m = top.getVariable m) := by
  obtain ⟨s', top, top', hdecl, htop, htop', hlen, hother, hself, hrest, _, _⟩ :=
    Interpreter.declareVariable_effect s f (Value.ofFunction (.mk f (some B))) h
  refine ⟨s', top, top', hdecl, ?_, ?_, rfl, rfl, rfl, htop, htop', hlen, hother, hself,
    hrest⟩
  · intro fuel
    simp only [executeStatement, hdecl]
  · intro fuel ps'
    cases fuel with
    | zero => simp only [executeStatement]
    | succ fuel => simp only [executeStatement]

/-- Claim C24 at the driver's `inc`, here declared with a parameter `a`. -/
theorem functionDeclaration_declares_witness :
    Interpreter.new.m_stackFrames ≠ [] ∧
    executeStatement examplePlatform 1 (.FunctionDeclaration "inc" ["a"] incBody)
      Interpreter.new = ok (Value.undefined, incDeclared) := by
  have hyp : Interpreter.new.m_stackFrames ≠ [] := by simp [Interpreter.new]
  obtain ⟨s', _, _, hdecl, hexec, _⟩ :=
    functionDeclaration_declares examplePlatform Interpreter.new "inc" ["a"] incBody hyp
  have hd : Interpreter.new.declareVariable "inc"
      (Value.ofFunction (.mk "inc" (some incBody))) = some incDeclared := rfl
  rw [hd] at hdecl
  cases hdecl
  exact ⟨hyp, hexec 0⟩

/-- Claim C25, at the failing input: with `x` bound to the String `s` and arguments evaluated
right to left, `x += (x = 5)` reads `x` after `x = 5` ran, adds Int 5 and Undefined and
completes with `x` NaN, while `x = x + (x = 5)` adds the String and Undefined and faults, as
the compound form does with arguments evaluated left to right. For every platform that
evaluates them left to right, the compound assignment and the plain assignment of the paired
binary expression are the same run, for all four operators, every state and every fuel. -/
theorem compound_assignment_order (p : Platform) :
    (executeExpression rightToLeftPlatform 3
        (.AssignmentExpression .AdditionAssignment (.Identifier "x") assignFive) xDeclared =
      ok (Value.undefined,
        ⟨[((StackFrame.empty.setVariable "x" (Value.ofString "s")).setVariable "x"
          (Value.ofInt32 5)).setVariable "x" (Value.ofDouble Double.NAN)]⟩) ∧
      executeExpression rightToLeftPlatform 4
        (.AssignmentExpression .Assignment (.Identifier "x")
          (.BinaryExpression .Add (.Identifier "x") assignFive)) xDeclared = fault ∧
      executeExpression examplePlatform 3
        (.AssignmentExpression .AdditionAssignment (.Identifier "x") assignFive) xDeclared =
        fault) ∧
    (∀ (x : String) (e : Expression) (s : Interpreter) (fuel : Nat),
      executeExpression { p with leftArgumentFirst := true } (fuel + 1)
          (.AssignmentExpression .AdditionAssignment (.Identifier x) e) s =
        executeExpression { p with leftArgumentFirst := true } (fuel + 2)
          (.AssignmentExpression .Assignment (.Identifier x)
            (.BinaryExpression .Add (.Identifier x) e)) s ∧
      executeExpression { p with leftArgumentFirst := true } (fuel + 1)
          (.AssignmentExpression .SubtractionAssignment (.Identifier x) e) s =
        executeExpression { p with leftArgumentFirst := true } (fuel + 2)
          (.AssignmentExpression .Assignment (.Identifier x)
            (.BinaryExpression .Subtract (.Identifier x) e)) s ∧
      executeExpression { p with leftArgumentFirst := true } (fuel + 1)
          (.AssignmentExpression .MultiplicationAssignment (.Identifier x) e) s =
        executeExpression { p with leftArgumentFirst := true } (fuel + 2)
          (.AssignmentExpression .Assignment (.Identifier x)
            (.BinaryExpression .Multiply (.Identifier x) e)) s ∧
      executeExpression { p with leftArgumentFirst := true } (fuel + 1)
          (.AssignmentExpression .DivisionAssignment (.Identifier x) e) s =
        executeExpression { p with leftArgumentFirst := true } (fuel + 2)
          (.AssignmentExpression .Assignment (.Identifier x)
            (.BinaryExpression .Divide (.Identifier x) e)) s) :=
  ⟨⟨rfl, rfl, rfl⟩, fun x e s fuel =>
    ⟨compound_eq_plain_left_to_right p _ _ x e s fuel rfl,
      compound_eq_plain_left_to_right p _ _ x e s fuel rfl,
      compound_eq_plain_left_to_right p _ _ x e s fuel rfl,
      compound_eq_plain_left_to_right p _ _ x e s fuel rfl⟩⟩

/-- Claim C26: two calls of one callee from one state whose arguments are Literal nodes are
the same run, for every fuel from 2 on: same outcome, same result, same final state, and the
same as the call without arguments. The argument loop leaves the state as it is; the body
runs in that state with an empty frame pushed, where every name, a parameter's included,
resolves as in the caller's state. -/
theorem call_arguments_discarded (p : Platform) (callee : Expression)
    (args1 args2 : List Expression) (s : Interpreter)
    (h1 : ∀ a ∈ args1, ∃ v, a = Expression.Literal v)
    (h2 : ∀ a ∈ args2, ∃ v, a = Expression.Literal v) :
    (∀ fuel, executeAll (executeExpression p (fuel + 1)) args1 s = ok s ∧
      executeAll (executeExpression p (fuel + 1)) args2 s = ok s) ∧
    (∀ fuel, executeExpression p (fuel + 2) (.CallExpression callee args1) s =
      executeExpression p (fuel + 2) (.CallExpression callee args2) s) ∧
    (∀ fuel, executeExpression p (fuel + 2) (.CallExpression callee args1) s =
      executeExpression p (fuel + 2) (.CallExpression callee []) s) ∧
    (∀ (fuel : Nat) (name : String) (fv : Value) (fn : Function) (body : BlockStatement),
      callee = .Identifier name → s.getVariable name = some fv → fv.asFunction = some fn →
      fn.body = some body →
        executeExpression p (fuel + 2) (.CallExpression callee args1) s =
          match executeStatement p (fuel + 1) (.Block body) s.pushStackFrame with
          | ok (v, s3) => ofOption (s3.popStackFrame.map fun s4 => (v, s4))
          | fault => fault
          | outOfFuel => outOfFuel) ∧
    (∀ name : String, s.pushStackFrame.getVariable name = s.getVariable name) := by
  have hcall : ∀ (fuel : Nat) (args : List Expression),
      (∀ a ∈ args, ∃ v, a = Expression.Literal v) →
      executeExpression p (fuel + 2) (.CallExpression callee args) s =
        executeExpression p (fuel + 2) (.CallExpression callee []) s := by
    intro fuel args h
    simp only [executeExpression, executeAll_literals p fuel s args h, executeAll]
  refine ⟨fun fuel => ⟨executeAll_literals p fuel s args1 h1,
    executeAll_literals p fuel s args2 h2⟩, ?_, fun fuel => hcall fuel args1 h1, ?_,
    Interpreter.getVariable_pushStackFrame s⟩
  · intro fuel
    rw [hcall fuel args1 h1, hcall fuel args2 h2]
  · intro fuel name fv fn body hc hg hf hb
    subst hc
    exact call_runs_body p (fuel + 1) name args1 s s fv fn body
      (executeAll_literals p fuel s args1 h1) hg hf hb

/-- Claim C26 at the driver's `inc`, called with `(1, "a")` and with no argument. -/
theorem call_arguments_discarded_witness :
    ((∀ a ∈ [intLiteral 1, Expression.Literal (Value.ofString "a")],
        ∃ v, a = Expression.Literal v) ∧
      (∀ a ∈ ([] : List Expression), ∃ v, a = Expression.Literal v)) ∧
    executeExpression examplePlatform 5
        (.CallExpression (.Identifier "inc")
          [intLiteral 1, Expression.Literal (Value.ofString "a")]) incDeclared =
      executeExpression examplePlatform 5 (.CallExpression (.Identifier "inc") [])
        incDeclared ∧
    executeExpression examplePlatform 5 (.CallExpression (.Identifier "inc") [])
        incDeclared = ok (Value.undefined, incDeclared) := by
  have ha : ∀ a ∈ [intLiteral 1, Expression.Literal (Value.ofString "a")],
      ∃ v, a = Expression.Literal v := by
    intro a h
    simp only [List.mem_cons, List.mem_singleton, List.not_mem_nil, or_false] at h
    rcases h with rfl | rfl
    · exact ⟨_, rfl⟩
    · exact ⟨_, rfl⟩
  have hb : ∀ a ∈ ([] : List Expression), ∃ v, a = Expression.Literal v := by
    intro a h; cases h
  exact ⟨⟨ha, hb⟩,
    (call_arguments_discarded examplePlatform (.Identifier "inc") _ _ incDeclared ha hb).2.1 3,
    rfl⟩

/-- Claim C27: a ReturnStatement is the same run as the ExpressionStatement of its argument,
alone and at the head of a block, for every fuel: its result is the value of the argument,
`returnFromStackFrame` returns the state it was given, and the block goes on with the
statements after it. After `{ return 1; var z = 2; }` the name `z` is bound. -/
theorem return_does_not_short_circuit (p : Platform) :
    (∀ (fuel : Nat) (e : Expression) (s : Interpreter),
      executeStatement p fuel (.ReturnStatement e) s =
        executeStatement p fuel (.ExpressionStatement e) s) ∧
    (∀ (fuel : Nat) (e : Expression) (rest : List Statement) (s : Interpreter),
      executeStatement p fuel (.Block (.mk (.ReturnStatement e :: rest))) s =
        executeStatement p fuel (.Block (.mk (.ExpressionStatement e :: rest))) s) ∧
    (∀ (fuel : Nat) (e : Expression) (rest : List Statement) (s : Interpreter) (v : Value)
        (s1 : Interpreter),
      executeExpression p fuel e s = ok (v, s1) →
        executeStatement p (fuel + 1) (.ReturnStatement e) s = ok (v, s1) ∧
        executeStatement p (fuel + 2) (.Block (.mk (.ReturnStatement e :: rest))) s =
          executeStatement p (fuel + 2) (.Block (.mk rest)) s1) ∧
    (∀ (s : Interpreter) (v : Value), s.returnFromStackFrame v = s) ∧
    ∃ s', executeStatement p 4 returnThenDeclare Interpreter.new = ok (Value.undefined, s') ∧
      s'.getVariable "z" = some (Value.ofInt32 2) := by
  have hret : ∀ (fuel : Nat) (e : Expression) (s : Interpreter),
      executeStatement p fuel (.ReturnStatement e) s =
        executeStatement p fuel (.ExpressionStatement e) s := by
    intro fuel e s
    cases fuel with
    | zero => simp only [executeStatement]
    | succ fuel =>
      simp only [executeStatement, Interpreter.returnFromStackFrame]
      cases executeExpression p fuel e s with
      | ok r => rfl
      | fault => rfl
      | outOfFuel => rfl
  refine ⟨hret, ?_, ?_, fun _ _ => rfl, _, rfl, rfl⟩
  · intro fuel e rest s
    cases fuel with
    | zero => simp only [executeStatement]
    | succ fuel =>
      simp only [executeStatement, BlockStatement.m_body, executeAll, hret]
  · intro fuel e rest s v s1 he
    have h1 : executeStatement p (fuel + 1) (.ReturnStatement e) s = ok (v, s1) := by
      simp only [executeStatement, he, Interpreter.returnFromStackFrame]
    refine ⟨h1, ?_⟩
    simp only [executeStatement, BlockStatement.m_body, executeAll, he,
      Interpreter.returnFromStackFrame]

/-- Claim C27 at `return 1;`, whose result is Int 1. -/
theorem return_does_not_short_circuit_witness :
    executeExpression examplePlatform 1 (intLiteral 1) Interpreter.new =
      ok (Value.ofInt32 1, Interpreter.new) ∧
    executeStatement examplePlatform 2 (.ReturnStatement (intLiteral 1)) Interpreter.new =
      ok (Value.ofInt32 1, Interpreter.new) :=
  ⟨rfl, ((return_does_not_short_circuit examplePlatform).2.2.1 1 (intLiteral 1) []
    Interpreter.new _ _ rfl).1⟩

/-- Claim C28: a completed expression, or declarator, leaves the frame count unchanged and
every frame binding the names it bound before; a completed statement leaves the frame count
unchanged and every frame below the topmost one binding the names it bound before. -/
theorem expression_keeps_bound_names (p : Platform) :
    (∀ (fuel : Nat) (e : Expression) (s : Interpreter) (v : Value) (s' : Interpreter),
      executeExpression p fuel e s = ok (v, s') →
        s'.m_stackFrames.length = s.m_stackFrames.length ∧
        ∀ (j : Nat) (fj fj' : StackFrame),
          s.m_stackFrames[j]? = some fj → s'.m_stackFrames[j]? = some fj' →
          ∀ m, (fj'.getVariable m).isSome = (fj.getVariable m).isSome) ∧
    (∀ (fuel : Nat) (n : Statement) (s : Interpreter) (v : Value) (s' : Interpreter),
      executeStatement p fuel n s = ok (v, s') →
        s'.m_stackFrames.length = s.m_stackFrames.length ∧
        ∀ (j : Nat) (fj fj' : StackFrame), j + 1 < s.m_stackFrames.length →
          s.m_stackFrames[j]? = some fj → s'.m_stackFrames[j]? = some fj' →
          ∀ m, (fj'.getVariable m).isSome = (fj.getVariable m).isSome) ∧
    (∀ (fuel : Nat) (n : VariableDeclarator) (s : Interpreter) (v : Value)
        (s' : Interpreter),
      executeVariableDeclarator p fuel n s = ok (v, s') →
        s'.m_stackFrames.length = s.m_stackFrames.length ∧
        ∀ (j : Nat) (fj fj' : StackFrame),
          s.m_stackFrames[j]? = some fj → s'.m_stackFrames[j]? = some fj' →
          ∀ m, (fj'.getVariable m).isSome = (fj.getVariable m).isSome) := by
  refine ⟨?_, ?_, ?_⟩
  · intro fuel e s v s' h
    refine ⟨((execute_names_aux p fuel).2 e s v s' h 0).1, ?_⟩
    intro j fj fj' hfj hfj' m
    exact ((execute_names_aux p fuel).2 e s v s' h (j + 1)).2 j fj fj' (Nat.lt_succ_self j)
      hfj hfj' m
  · intro fuel n s v s' h
    have hk := (execute_names_aux p fuel).1 n s v s' h
    refine ⟨hk.1, ?_⟩
    intro j fj fj' hj hfj hfj' m
    exact hk.2 j fj fj' (by omega) hfj hfj' m
  · intro fuel n s v s' h
    refine ⟨((execute_names_aux p fuel).2 n.m_init s v s' h 0).1, ?_⟩
    intro j fj fj' hfj hfj' m
    exact ((execute_names_aux p fuel).2 n.m_init s v s' h (j + 1)).2 j fj fj'
      (Nat.lt_succ_self j) hfj hfj' m

/-- Claim C28 at the call of `g`, whose body declares `x`: no frame has gained a name. -/
theorem expression_keeps_bound_names_witness :
    executeExpression examplePlatform 4 (.CallExpression (.Identifier "g") []) gDeclared =
      ok (Value.undefined, gDeclared) ∧
    gDeclared.m_stackFrames.length = gDeclared.m_stackFrames.length ∧
    ∀ (j : Nat) (fj fj' : StackFrame),
      gDeclared.m_stackFrames[j]? = some fj → gDeclared.m_stackFrames[j]? = some fj' →
      ∀ m, (fj'.getVariable m).isSome = (fj.getVariable m).isSome :=
  ⟨rfl, (expression_keeps_bound_names examplePlatform).1 4
    (.CallExpression (.Identifier "g") []) gDeclared Value.undefined gDeclared rfl⟩

/-- Claim C29: the program `var y = 0; function g() { x = 2 } function f() { var x = 1; g();
y = x } f();` completes in a fresh interpreter with `y` Int 2, `x` unbound and one frame. In
general a callee's body runs in the state the arguments left with an empty frame pushed;
there a name resolves to what it resolves to in the caller's state, and an assignment writes
the frame it would write in the caller's state. -/
theorem dynamic_name_resolution (p : Platform) :
    (∃ s', executeStatement p 10 dynamicScopeProgram Interpreter.new =
        ok (Value.undefined, s') ∧
      s'.getVariable "y" = some (Value.ofInt32 2) ∧ s'.getVariable "x" = none ∧
      s'.m_stackFrames.length = 1) ∧
    (∀ (s : Interpreter) (name : String),
      s.pushStackFrame.getVariable name = s.getVariable name) ∧
    (∀ (s : Interpreter) (name : String) (fuel : Nat),
      executeExpression p (fuel + 1) (.Identifier name) s.pushStackFrame =
        ok ((s.getVariable name).getD Value.undefined, s.pushStackFrame)) ∧
    (∀ (s : Interpreter) (name : String) (v : Value),
      s.pushStackFrame.setVariable name v =
        (s.setVariable name v).map Interpreter.pushStackFrame) ∧
    (∀ (fuel : Nat) (name : String) (args : List Expression) (s s1 : Interpreter)
        (fv : Value) (fn : Function) (body : BlockStatement),
      executeAll (executeExpression p fuel) args s = ok s1 →
      s1.getVariable name = some fv → fv.asFunction = some fn → fn.body = some body →
        executeExpression p (fuel + 1) (.CallExpression (.Identifier name) args) s =
          match executeStatement p fuel (.Block body) s1.pushStackFrame with
          | ok (v, s3) => ofOption (s3.popStackFrame.map fun s4 => (v, s4))
          | fault => fault
          | outOfFuel => outOfFuel) := by
  refine ⟨⟨_, rfl, rfl, rfl, rfl⟩, Interpreter.getVariable_pushStackFrame, ?_,
    Interpreter.setVariable_pushStackFrame, ?_⟩
  · intro s name fuel
    simp only [executeExpression, Interpreter.getVariable_pushStackFrame]
  · intro fuel name args s s1 fv fn body hargs hg hf hb
    exact call_runs_body p fuel name args s s1 fv fn body hargs hg hf hb

/-- Claim C29 at `twoFrames`: in a frame pushed on it, `x` reads the Int 2 of the frame
below. -/
theorem dynamic_name_resolution_witness :
    executeAll (executeExpression examplePlatform 3) [] twoFrames = ok twoFrames ∧
    twoFrames.pushStackFrame.getVariable "x" = some (Value.ofInt32 2) ∧
    executeExpression examplePlatform 1 (.Identifier "x") twoFrames.pushStackFrame =
      ok (Value.ofInt32 2, twoFrames.pushStackFrame) :=
  ⟨rfl, (dynamic_name_resolution examplePlatform).2.1 twoFrames "x",
    (dynamic_name_resolution examplePlatform).2.2.1 twoFrames "x" 0⟩

/-- Claim C30: an AssignmentExpression that completes returns Undefined, for every operator,
left side, right side, state and fuel. After `a = (b = 1)` with `a` and `b` declared, `b` is
Int 1 and `a` is Undefined. -/
theorem assignment_result_is_undefined (p : Platform) :
    (∀ (fuel : Nat) (op : AssignmentOperator) (left e : Expression) (s : Interpreter)
        (v : Value) (s' : Interpreter),
      executeExpression p fuel (.AssignmentExpression op left e) s = ok (v, s') →
        v = Value.undefined) ∧
    ∃ s', executeExpression p 3 nestedAssignment abDeclared = ok (Value.undefined, s') ∧
      s'.getVariable "b" = some (Value.ofInt32 1) ∧
      s'.getVariable "a" = some Value.undefined :=
  ⟨assignment_result_aux p, _, rfl, rfl, rfl⟩

/-- Claim C30 at `a = (b = 1)`. -/
theorem assignment_result_is_undefined_witness :
    ∃ v s', executeExpression examplePlatform 3 nestedAssignment abDeclared = ok (v, s') ∧
      v = Value.undefined ∧ s'.getVariable "b" = some (Value.ofInt32 1) ∧
      s'.getVariable "a" = some Value.undefined :=
  ⟨_, _, rfl, (assignment_result_is_undefined examplePlatform).1 3 .Assignment
    (.Identifier "a") (.AssignmentExpression .Assignment (.Identifier "b") (intLiteral 1))
    abDeclared _ _ rfl, rfl, rfl⟩

end LibJS
